import Mathlib

/-!
# OpenTherm master-side protocol engine

A shallow embedding of the OpenTherm line transceiver
(`esphome/components/opentherm/opentherm.cpp`) and of the conversation
scheduler (`esphome/components/opentherm/hub.cpp`, `hub.h`), followed by
theorems about frame layout, parity, Manchester encoding and decoding, and
the startup rotation.

Machine integers are natural numbers (or integers for signed fields) with the
wrap-around written out where a C++ operation can leave the width of its type.
The transceiver object and the output pin it drives are one record; every
member function takes the record and returns the updated record.
-/


namespace esphome
namespace opentherm

/-! ## Frame and error model -/

/-- Modes of the transceiver, in the order `operation_mode_to_str` lists them. -/
inductive OperationMode where
  | IDLE
  | LISTEN
  | READ
  | RECEIVED
  | WRITE
  | SENT
  | ERROR_PROTOCOL
  | ERROR_TIMEOUT
  | ERROR_TIMER
  deriving DecidableEq

/-- Protocol error classification, as listed by `protocol_error_to_str`. -/
inductive ProtocolErrorType where
  | NO_ERROR
  | NO_TRANSITION
  | INVALID_STOP_BIT
  | PARITY_ERROR
  | NO_CHANGE_TOO_LONG
  deriving DecidableEq

/-- Timer error classification, as listed by `timer_error_to_str`. -/
inductive TimerErrorType where
  | NO_TIMER_ERROR
  | SET_ALARM_VALUE_ERROR
  | TIMER_START_ERROR
  | TIMER_PAUSE_ERROR
  | SET_COUNTER_VALUE_ERROR
  deriving DecidableEq

/-- The four byte-wide fields of a frame (`struct OpenthermData`; every field is
a `uint8_t`, which `OpenthermData.wf` records). -/
structure OpenthermData where
  type : Nat
  id : Nat
  valueHB : Nat
  valueLB : Nat
  deriving DecidableEq

/-- Every field of the frame fits its `uint8_t`. -/
def OpenthermData.wf (d : OpenthermData) : Prop :=
  d.type < 256 ∧ d.id < 256 ∧ d.valueHB < 256 ∧ d.valueLB < 256

instance (d : OpenthermData) : Decidable d.wf := by
  unfold OpenthermData.wf
  infer_instance

/-- Modelled from the spec: the enumerator `MessageType::READ_DATA` of the header
`opentherm.h`, which is not among the sources; read-data is the first value of
the 3-bit message type enum. -/
def MessageType.READ_DATA : Nat := 0

/-- Modelled from the spec: the enumerator `MessageType::WRITE_DATA` of the
header `opentherm.h`, which is not among the sources; the OpenTherm code of a
write-data message is 1. No theorem depends on the value. -/
def MessageType.WRITE_DATA : Nat := 1

/-- Modelled from the spec: the constant `BitPositions::STOP_BIT` of the header
`opentherm.h`, which is not among the sources. The decoder counts the start bit
and the 32 data bits it has shifted in, and "after 32 data bits, the next
expected event is the stop bit", so the stop bit is expected at count 33. -/
def STOP_BIT : Nat := 33

/-- Modelled from the spec: the helper `read_bit(value, bit)` of the header
`opentherm.h`, which is not among the sources; it selects one bit of the word
that is walked "MSB-first" by the encoder. -/
def read_bit (value bit : Nat) : Nat := (value >>> bit) &&& 1

/-- Result code `ESP_OK` of the timer driver. -/
def ESP_OK : Int := 0

/-- Result codes (`esp_err_t`) the timer driver returns to the four calls the
transceiver makes. On ESP8266 the timer calls cannot fail, which is the record
with every field `ESP_OK`. -/
structure TimerHw where
  timer_set_alarm_value : Int
  timer_start : Int
  timer_pause : Int
  timer_set_counter_value : Int
  deriving DecidableEq

/-- The transceiver object `OpenTherm` together with the level it last drove on
its output pin. Field widths: `capture_` and `data_` are `uint32_t`, `clock_`
and `bit_pos_` are `uint8_t`, the two timeouts are `int32_t`. -/
structure OpenTherm where
  mode_ : OperationMode
  error_type_ : ProtocolErrorType
  capture_ : Nat
  clock_ : Nat
  data_ : Nat
  bit_pos_ : Nat
  timeout_counter_ : Int
  device_timeout_ : Int
  timer_error_ : Int
  timer_error_type_ : TimerErrorType
  isr_out_pin_ : Bool
  deriving DecidableEq

/-! ## Line transceiver -/

/-- `OpenTherm::check_parity_`: shift-and-xor folding of a `uint32_t`; the result
is bit 0 of the complement of the folded value. -/
def check_parity_ (val : Nat) : Bool :=
  let val := val % 2 ^ 32
  let val := val ^^^ (val >>> 16)
  let val := val ^^^ (val >>> 8)
  let val := val ^^^ (val >>> 4)
  let val := val ^^^ (val >>> 2)
  let val := val ^^^ (val >>> 1)
  ((2 ^ 32 - 1 - val) &&& 1) != 0

/-- `OpenTherm::stop_timer_` (ESP32): pauses the timer and resets its counter,
recording the first failure. -/
def stop_timer_ (hw : TimerHw) (s : OpenTherm) : OpenTherm :=
  let s := { s with timer_error_ := ESP_OK, timer_error_type_ := .NO_TIMER_ERROR }
  let s := { s with timer_error_ := hw.timer_pause }
  if s.timer_error_ ≠ ESP_OK then
    { s with timer_error_type_ := .TIMER_PAUSE_ERROR }
  else
    let s := { s with timer_error_ := hw.timer_set_counter_value }
    if s.timer_error_ ≠ ESP_OK then
      { s with timer_error_type_ := .SET_COUNTER_VALUE_ERROR }
    else s

/-- `OpenTherm::start_esp32_timer_`: arms the alarm and starts the timer,
recording the first failure. The alarm value only reaches the hardware. -/
def start_esp32_timer_ (hw : TimerHw) (_alarm_value : Nat) (s : OpenTherm) : OpenTherm :=
  let s := { s with timer_error_ := ESP_OK, timer_error_type_ := .NO_TIMER_ERROR }
  let s := { s with timer_error_ := hw.timer_set_alarm_value }
  if s.timer_error_ ≠ ESP_OK then
    { s with timer_error_type_ := .SET_ALARM_VALUE_ERROR }
  else
    let s := { s with timer_error_ := hw.timer_start }
    if s.timer_error_ ≠ ESP_OK then
      { s with timer_error_type_ := .TIMER_START_ERROR }
    else s

/-- `OpenTherm::start_read_timer_`: the 5 kHz sampling timer. -/
def start_read_timer_ (hw : TimerHw) (s : OpenTherm) : OpenTherm :=
  start_esp32_timer_ hw 200 s

/-- `OpenTherm::start_write_timer_`: the 2 kHz toggling timer. -/
def start_write_timer_ (hw : TimerHw) (s : OpenTherm) : OpenTherm :=
  start_esp32_timer_ hw 500 s

/-- Conversion of an integer to `int32_t`: the value modulo `2 ^ 32` in the
range `-2147483648 .. 2147483647`. -/
def to_int32 (x : Int) : Int := (x + 2147483648) % 4294967296 - 2147483648

/-- `OpenTherm::listen`. The product `device_timeout_ * 5` is an `int32_t`:
where it leaves the range of the type it wraps around, as it does in the
build (signed overflow is undefined in the source language). -/
def listen (hw : TimerHw) (s : OpenTherm) : OpenTherm :=
  let s := stop_timer_ hw s
  let s := { s with timeout_counter_ := to_int32 (s.device_timeout_ * 5) }
  let s := { s with mode_ := .LISTEN }
  let s := { s with data_ := 0 }
  let s := { s with bit_pos_ := 0 }
  start_read_timer_ hw s

/-- `OpenTherm::send`: packs the frame into the 32-bit shift register, fixes up
the parity bit and arms the write timer. -/
def send (hw : TimerHw) (data : OpenthermData) (s : OpenTherm) : OpenTherm :=
  let s := stop_timer_ hw s
  let s := { s with data_ := data.type % 2 ^ 32 }
  let s := { s with data_ := ((s.data_ <<< 12) ||| data.id) % 2 ^ 32 }
  let s := { s with data_ := ((s.data_ <<< 8) ||| data.valueHB) % 2 ^ 32 }
  let s := { s with data_ := ((s.data_ <<< 8) ||| data.valueLB) % 2 ^ 32 }
  let s := if !check_parity_ s.data_ then { s with data_ := s.data_ ||| 0x80000000 } else s
  let s := { s with clock_ := 1 }
  let s := { s with bit_pos_ := 33 }
  let s := { s with mode_ := .WRITE }
  start_write_timer_ hw s

/-- `OpenTherm::get_message`: returns the transceiver, the output frame and the
success flag. -/
def get_message (s : OpenTherm) (data : OpenthermData) : OpenTherm × OpenthermData × Bool :=
  if s.mode_ = .RECEIVED then
    let data := { data with type := (s.data_ >>> 28) &&& 0x7 }
    let data := { data with id := (s.data_ >>> 16) &&& 0xFF }
    let data := { data with valueHB := (s.data_ >>> 8) &&& 0xFF }
    let data := { data with valueLB := s.data_ &&& 0xFF }
    (s, data, true)
  else
    (s, data, false)

/-- `OpenTherm::stop`. -/
def stop (hw : TimerHw) (s : OpenTherm) : OpenTherm :=
  let s := stop_timer_ hw s
  { s with mode_ := .IDLE }

/-- `OpenTherm::read_`. -/
def read_ (hw : TimerHw) (s : OpenTherm) : OpenTherm :=
  let s := { s with data_ := 0 }
  let s := { s with bit_pos_ := 0 }
  let s := { s with mode_ := .READ }
  let s := { s with capture_ := 1 }
  let s := { s with clock_ := 1 }
  start_read_timer_ hw s

/-- `OpenTherm::bit_read_`: shifts one bit into the 32-bit register and counts
it in the 8-bit bit position. -/
def bit_read_ (value : Nat) (s : OpenTherm) : OpenTherm :=
  let s := { s with data_ := ((s.data_ <<< 1) ||| value) % 2 ^ 32 }
  { s with bit_pos_ := (s.bit_pos_ + 1) % 256 }

/-- `OpenTherm::verify_stop_bit_`. -/
def verify_stop_bit_ (value : Nat) (s : OpenTherm) : ProtocolErrorType :=
  if value ≠ 0 then
    if check_parity_ s.data_ then .NO_ERROR else .PARITY_ERROR
  else
    .INVALID_STOP_BIT

/-- `OpenTherm::write_bit_`: drives the output pin with one half of the
Manchester pair of `high`. -/
def write_bit_ (high clock : Nat) (s : OpenTherm) : OpenTherm :=
  if clock = 1 then
    { s with isr_out_pin_ := decide (high = 0) }
  else
    { s with isr_out_pin_ := decide (high ≠ 0) }

/-- `OpenTherm::timer_isr`: one timer tick; `value` is the level the input pin
shows on this tick (it is read in `LISTEN` before the timeout and in `READ`). -/
def timer_isr (hw : TimerHw) (value : Bool) (arg : OpenTherm) : OpenTherm :=
  match arg.mode_ with
  | .LISTEN =>
    if arg.timeout_counter_ = 0 then
      stop_timer_ hw { arg with mode_ := .ERROR_TIMEOUT }
    else
      let arg := if value then read_ hw arg else arg
      if arg.timeout_counter_ > 0 then
        { arg with timeout_counter_ := arg.timeout_counter_ - 1 }
      else arg
  | .READ =>
    let last := arg.capture_ &&& 1
    if value.toNat ≠ last then
      if arg.clock_ = 1 ∧ arg.capture_ > 0xF then
        stop_timer_ hw { arg with mode_ := .ERROR_PROTOCOL, error_type_ := .NO_TRANSITION }
      else if arg.clock_ = 1 ∨ arg.capture_ > 0xF then
        if arg.bit_pos_ = STOP_BIT then
          let stop_bit_error := verify_stop_bit_ last arg
          if stop_bit_error = .NO_ERROR then
            stop_timer_ hw { arg with mode_ := .RECEIVED }
          else
            stop_timer_ hw { arg with mode_ := .ERROR_PROTOCOL, error_type_ := stop_bit_error }
        else
          let arg := bit_read_ last arg
          let arg := { arg with clock_ := 0 }
          let arg := { arg with capture_ := 1 }
          { arg with capture_ := ((arg.capture_ <<< 1) ||| value.toNat) % 2 ^ 32 }
      else
        let arg := { arg with clock_ := 1 }
        let arg := { arg with capture_ := 1 }
        { arg with capture_ := ((arg.capture_ <<< 1) ||| value.toNat) % 2 ^ 32 }
    else if arg.capture_ > 0xFF then
      stop_timer_ hw { arg with mode_ := .ERROR_PROTOCOL, error_type_ := .NO_CHANGE_TOO_LONG }
    else
      { arg with capture_ := ((arg.capture_ <<< 1) ||| value.toNat) % 2 ^ 32 }
  | .WRITE =>
    let arg :=
      if arg.bit_pos_ = 33 ∨ arg.bit_pos_ = 0 then
        write_bit_ 1 arg.clock_ arg
      else
        write_bit_ (read_bit arg.data_ (arg.bit_pos_ - 1)) arg.clock_ arg
    if arg.clock_ = 0 then
      let arg := if arg.bit_pos_ ≤ 0 then stop_timer_ hw { arg with mode_ := .SENT } else arg
      let arg := { arg with bit_pos_ := (arg.bit_pos_ + 255) % 256 }
      { arg with clock_ := 1 }
    else
      { arg with clock_ := 0 }
  | _ => arg

/-! ## Running the timer -/

/-- The transceiver after the ticks that sample `samples`, one input level per
tick. -/
def run_isr (hw : TimerHw) : List Bool → OpenTherm → OpenTherm
  | [], s => s
  | v :: vs, s => run_isr hw vs (timer_isr hw v s)

/-- The levels on the output pin after each of `n` ticks (the input level is
not read while writing and is held at `false`). -/
def write_levels (hw : TimerHw) : Nat → OpenTherm → List Bool
  | 0, _ => []
  | n + 1, s => (timer_isr hw false s).isr_out_pin_ :: write_levels hw n (timer_isr hw false s)

/-- The transceiver after `n` ticks during which the input is not read. -/
def run_ticks (hw : TimerHw) : Nat → OpenTherm → OpenTherm
  | 0, s => s
  | n + 1, s => run_ticks hw n (timer_isr hw false s)

/-- Ideal sampling of a sequence of half-bit levels: the i-th level is seen on
`widths[i]` consecutive ticks. -/
def sample_levels : List Bool → List Nat → List Bool
  | l :: ls, w :: ws => List.replicate w l ++ sample_levels ls ws
  | _, _ => []

/-- The 34 logical bits of a transmission of the word `w`: start bit, the 32
bits of `w` from bit 31 down to bit 0, stop bit. -/
def frame_bits (w : Nat) : List Bool :=
  true :: ((List.range 32).map fun i => w.testBit (31 - i)) ++ [true]

/-- Half-bit levels at the input pin for a sequence of logical bits: a logical
1 is high then low, a logical 0 is low then high (the bus inverts what the
sender's output pin drives). -/
def manchester_in (bits : List Bool) : List Bool :=
  bits.flatMap fun b => [b, !b]

/-- The logical bits of a sequence of Manchester pairs at the output pin: the
level of the second half of each slot. -/
def slot_bits : List Bool → List Bool
  | _ :: b :: rest => b :: slot_bits rest
  | _ => []

/-- The logical bit the encoder emits while its bit position is `k`: the start
bit at 33, the stop bit at 0, bit `k - 1` of the word in between. -/
def slot_bit (d k : Nat) : Bool :=
  if k = 33 ∨ k = 0 then true else d.testBit (k - 1)

/-- What `stop_timer_` leaves in `timer_error_` and `timer_error_type_`. -/
def stop_timer_result (hw : TimerHw) : Int × TimerErrorType :=
  if hw.timer_pause ≠ ESP_OK then (hw.timer_pause, .TIMER_PAUSE_ERROR)
  else if hw.timer_set_counter_value ≠ ESP_OK then
    (hw.timer_set_counter_value, .SET_COUNTER_VALUE_ERROR)
  else (hw.timer_set_counter_value, .NO_TIMER_ERROR)

/-- What `start_esp32_timer_` leaves in `timer_error_` and `timer_error_type_`. -/
def start_timer_result (hw : TimerHw) : Int × TimerErrorType :=
  if hw.timer_set_alarm_value ≠ ESP_OK then (hw.timer_set_alarm_value, .SET_ALARM_VALUE_ERROR)
  else if hw.timer_start ≠ ESP_OK then (hw.timer_start, .TIMER_START_ERROR)
  else (hw.timer_start, .NO_TIMER_ERROR)

/-- Value of `capture_` once a level change has been followed by a run of `n`
samples at level `lvl` (the sample of the change included): a leading 1 and
`n` copies of the level. -/
def capture_run (lvl : Bool) (n : Nat) : Nat :=
  if lvl then 2 ^ (n + 1) - 1 else 2 ^ n

/-- The shift register after the bits `bs` have been shifted in by `bit_read_`,
first bit first. -/
def shift_in (acc : Nat) (bs : List Bool) : Nat :=
  bs.foldl (fun a b => ((a <<< 1) ||| b.toNat) % 2 ^ 32) acc

/-- Number of set bits among bits `0 .. n-1` of `v`. -/
def count_ones (n v : Nat) : Nat := (List.range n).countP fun i => v.testBit i

/-- The four fields of a frame laid out in bits 30-0 of a word. -/
def payload (d : OpenthermData) : Nat :=
  d.type * 2 ^ 28 + d.id * 2 ^ 16 + d.valueHB * 2 ^ 8 + d.valueLB

/-- The constructor `OpenTherm::OpenTherm` with the output driven idle-high as
the setup of the pins leaves it. -/
def OpenTherm.ctor (device_timeout : Int) : OpenTherm :=
  { mode_ := .IDLE, error_type_ := .NO_ERROR, capture_ := 0, clock_ := 0, data_ := 0,
    bit_pos_ := 0, timeout_counter_ := -1, device_timeout_ := device_timeout,
    timer_error_ := ESP_OK, timer_error_type_ := .NO_TIMER_ERROR, isr_out_pin_ := true }

/-- A timer driver whose calls all succeed. -/
def timer_ok : TimerHw :=
  { timer_set_alarm_value := ESP_OK, timer_start := ESP_OK, timer_pause := ESP_OK,
    timer_set_counter_value := ESP_OK }

/-- Sample counts of ideal sampling at 5 ticks per bit period: the two halves
of every bit are seen on 2 and on 3 ticks. -/
def ideal_widths : List Nat := (List.range 68).map fun i => 2 + i % 2

/-- What holds of a decoder in `READ`: the clock phase is 0 or 1, the bit
position is at most `STOP_BIT`, and the capture register, which `read_` sets to
1 and every tick shifts a sample into, is not 0 and has at most 9 bits. -/
def read_invariant (s : OpenTherm) : Prop :=
  s.mode_ = .READ ∧ s.clock_ ≤ 1 ∧ s.bit_pos_ ≤ STOP_BIT ∧ 1 ≤ s.capture_ ∧ s.capture_ < 512

/-- The room left in a capture register that may grow to 9 bits: 9 less the
number of bits in use. -/
def run_room (capture : Nat) : Nat := 9 - capture.size

/-- A bound on the ticks a decoder can stay in `READ`: 18 for every bit
position still to come, 9 when the clock phase is 0, and the room left in the
capture register. -/
def read_budget (s : OpenTherm) : Nat :=
  (STOP_BIT - s.bit_pos_) * 18 + (if s.clock_ = 0 then 9 else 0) + run_room s.capture_

/-! ## Payload interpretations -/

/-- Conversion of an integer to `int16_t`: the value modulo `2 ^ 16` in the
range `-32768 .. 32767`. -/
def to_int16 (x : Int) : Int := (x + 32768) % 65536 - 32768

/-- `OpenthermData::u16()`. -/
def OpenthermData.u16 (d : OpenthermData) : Nat :=
  (((d.valueHB % 2 ^ 16) <<< 8) ||| d.valueLB) % 2 ^ 16

/-- `OpenthermData::u16(uint16_t value)`. -/
def OpenthermData.u16_set (value : Nat) (d : OpenthermData) : OpenthermData :=
  let d := { d with valueLB := value &&& 0xFF }
  { d with valueHB := (value >>> 8) &&& 0xFF }

/-- `OpenthermData::s16()`: the high byte is shifted and or-ed with the low byte
in `int` and the result converted to `int16_t`. -/
def OpenthermData.s16 (d : OpenthermData) : Int :=
  to_int16 (((d.valueHB <<< 8) ||| d.valueLB : Nat) : Int)

/-- `OpenthermData::s16(int16_t value)`: on a two's complement `int` the
expression `value & 0xFF` is `value` modulo 256 and `value >> 8` is the floor
of `value / 256`. -/
def OpenthermData.s16_set (value : Int) (d : OpenthermData) : OpenthermData :=
  let d := { d with valueLB := (value % 256).toNat }
  { d with valueHB := ((value / 256) % 256).toNat }

/-- Conversion of a rational to an integer type: truncation toward zero. -/
def trunc (q : Rat) : Int := if 0 ≤ q then ⌊q⌋ else ⌈q⌉

/-- `OpenthermData::f88()` over the rationals. -/
def OpenthermData.f88 (d : OpenthermData) : Rat := (d.s16 : Rat) / 256

/-- `OpenthermData::f88(float value)` over the rationals: the product with 256
is truncated toward zero and converted to `int16_t`. -/
def OpenthermData.f88_set (value : Rat) (d : OpenthermData) : OpenthermData :=
  d.s16_set (to_int16 (trunc (value * 256)))

/-- Modelled from the spec: the helper `write_bit(value, bit, bit_value)` of the
header `opentherm.h`, which is not among the sources: the byte `value` with bit
`bit` set or cleared. -/
def write_bit (value bit : Nat) (bit_value : Bool) : Nat :=
  if bit_value then (value ||| (1 <<< bit)) % 256 else (value ^^^ (value &&& (1 <<< bit))) % 256

/-! ## Conversation scheduler -/

/-- Data-item identifiers are 8-bit catalog keys. -/
abbrev MessageId := Nat

/-- Modelled from the spec: the catalog entry `MessageId::STATUS` of the header
`opentherm.h`, which is not among the sources; the status message is the first
entry of the message-id catalog. -/
def MessageId.STATUS : MessageId := 0

/-- Order value that marks a repeating message (`hub.h`). -/
def REPEATING_MESSAGE_ORDER : Nat := 255

/-- Order value of a startup message registered without an order (`hub.h`). -/
def INITIAL_UNORDERED_MESSAGE_ORDER : Nat := 254

/-- Modelled from the spec: the `OPENTHERM_READ_*` expressions of the generated
header `opentherm_macros.h`, which is not among the sources: the "externally
supplied read condition" of each status flag and the three values compared
with `0.0`. A comparison with zero involves no rounding, so the values are
rationals. -/
structure ReadConditions where
  ch_enable : Bool
  dhw_enable : Bool
  cooling_enable : Bool
  otc_active : Bool
  ch2_active : Bool
  summer_mode_active : Bool
  dhw_block : Bool
  t_set : Rat
  cooling_control : Rat
  t_set_ch2 : Rat

/-- One call of a `message_data::write_*` function of `hub.cpp` with the current
value of an entity (`state` of a switch, number, output or input sensor, or the
value of a setting). The flag functions exist for the bits 0 to 7. -/
inductive EntityWrite where
  | flag8_lb (bit : Fin 8) (value : Bool)
  | flag8_hb (bit : Fin 8) (value : Bool)
  | u8_lb (value : Nat)
  | u8_hb (value : Nat)
  | s8_lb (value : Int)
  | s8_hb (value : Int)
  | u16 (value : Nat)
  | s16 (value : Int)
  | f88 (value : Rat)

/-- The functions `message_data::write_flag8_lb_0` ... `message_data::write_f88`
of `hub.cpp`; the value is converted to the type of the parameter. -/
def EntityWrite.apply : EntityWrite → OpenthermData → OpenthermData
  | .flag8_lb bit value, data => { data with valueLB := write_bit data.valueLB bit.val value }
  | .flag8_hb bit value, data => { data with valueHB := write_bit data.valueHB bit.val value }
  | .u8_lb value, data => { data with valueLB := value % 256 }
  | .u8_hb value, data => { data with valueHB := value % 256 }
  | .s8_lb value, data => { data with valueLB := (value % 256).toNat }
  | .s8_hb value, data => { data with valueHB := (value % 256).toNat }
  | .u16 value, data => data.u16_set (value % 2 ^ 16)
  | .s16 value, data => data.s16_set (to_int16 value)
  | .f88 value, data => data.f88_set value

/-- Conversion of an integer to `int8_t`: the value modulo `2 ^ 8` in the range
`-128 .. 127`. -/
def to_int8 (x : Int) : Int := (x + 128) % 256 - 128

/-- `message_data::parse_flag8_lb_0` ... `message_data::parse_flag8_lb_7`. -/
def parse_flag8_lb (bit : Fin 8) (data : OpenthermData) : Bool :=
  read_bit data.valueLB bit.val != 0

/-- `message_data::parse_flag8_hb_0` ... `message_data::parse_flag8_hb_7`. -/
def parse_flag8_hb (bit : Fin 8) (data : OpenthermData) : Bool :=
  read_bit data.valueHB bit.val != 0

/-- `message_data::parse_u8_lb`. -/
def parse_u8_lb (data : OpenthermData) : Nat := data.valueLB

/-- `message_data::parse_u8_hb`. -/
def parse_u8_hb (data : OpenthermData) : Nat := data.valueHB

/-- `message_data::parse_s8_lb`. -/
def parse_s8_lb (data : OpenthermData) : Int := to_int8 data.valueLB

/-- `message_data::parse_s8_hb`. -/
def parse_s8_hb (data : OpenthermData) : Int := to_int8 data.valueHB

/-- `message_data::parse_u16`. -/
def parse_u16 (data : OpenthermData) : Nat := data.u16

/-- `message_data::parse_s16`. -/
def parse_s16 (data : OpenthermData) : Int := data.s16

/-- `message_data::parse_f88` over the rationals. -/
def parse_f88 (data : OpenthermData) : Rat := data.f88

/-- The frame carries the value of the write: the `message_data::parse_*`
function for the same data type returns the value, as converted to the type of
the parameter of the write function (for 8.8 fixed point: truncated to a
multiple of 1/256). -/
def EntityWrite.read_back : EntityWrite → OpenthermData → Prop
  | .flag8_lb bit value, data => parse_flag8_lb bit data = value
  | .flag8_hb bit value, data => parse_flag8_hb bit data = value
  | .u8_lb value, data => parse_u8_lb data = value % 256
  | .u8_hb value, data => parse_u8_hb data = value % 256
  | .s8_lb value, data => parse_s8_lb data = to_int8 value
  | .s8_hb value, data => parse_s8_hb data = to_int8 value
  | .u16 value, data => parse_u16 data = value % 2 ^ 16
  | .s16 value, data => parse_s16 data = to_int16 value
  | .f88 value, data =>
    parse_s16 data = to_int16 (trunc (value * 256)) ∧
      parse_f88 data = (to_int16 (trunc (value * 256)) : Rat) / 256

/-- The byte a write function writes, when it writes one byte only: `false`
for `valueLB`, `true` for `valueHB`. -/
def EntityWrite.half : EntityWrite → Option Bool
  | .flag8_lb _ _ => some false
  | .flag8_hb _ _ => some true
  | .u8_lb _ => some false
  | .u8_hb _ => some true
  | .s8_lb _ => some false
  | .s8_hb _ => some true
  | .u16 _ => none
  | .s16 _ => none
  | .f88 _ => none

/-- Two writes are for different places of the payload: for different bits of
one byte, or for one byte each and not the same. -/
def EntityWrite.separate : EntityWrite → EntityWrite → Bool
  | .flag8_lb bit _, .flag8_lb bit2 _ => bit != bit2
  | .flag8_hb bit _, .flag8_hb bit2 _ => bit != bit2
  | w, w2 =>
    match w.half, w2.half with
    | some h, some h2 => h != h2
    | _, _ => false

/-- Modelled from the spec: the per-message handler tables that the
`OPENTHERM_*_MESSAGE_HANDLERS` lists of `opentherm_macros.h` (not among the
sources) expand to inside `build_request_`. `write_entities id` lists the
writes of the current values of the entities registered for `id` as switch,
number, output, input sensor or setting, when the id has such a write handler;
`has_sensor` and `has_binary_sensor` tell whether a read handler is
registered. -/
structure MessageHandlers where
  write_entities : MessageId → Option (List EntityWrite)
  has_sensor : MessageId → Bool
  has_binary_sensor : MessageId → Bool

/-- The operations the scheduler invokes on the transceiver. -/
inductive TransceiverOp where
  | send
  | listen
  | stop
  deriving DecidableEq

/-- A call of the scheduler on the transceiver: the operation and the mode the
transceiver was in when it was called. -/
structure TransceiverCall where
  op : TransceiverOp
  mode : OperationMode
  deriving DecidableEq

/-- The scheduler object `OpenthermHub` (`hub.h`). The unordered map
`configured_messages_` is the list of its key-value pairs in iteration order;
`message_iterator_` is the offset of the iterator from `messages_.begin()`.
`component_failed_` is the failed mark of the base class `Component` that
`mark_failed()` sets. `calls_` is a ghost record, latest first, of the calls
made on the transceiver since `setup`. -/
structure OpenthermHub where
  opentherm_ : OpenTherm
  sending_initial_ : Bool
  configured_messages_ : List (MessageId × Nat)
  messages_ : List MessageId
  message_iterator_ : Nat
  last_conversation_start_ : Nat
  last_conversation_end_ : Nat
  last_mode_ : OperationMode
  last_request_ : OpenthermData
  sync_mode_ : Bool
  ch_enable : Bool
  dhw_enable : Bool
  cooling_enable : Bool
  otc_active : Bool
  ch2_active : Bool
  summer_mode_active : Bool
  dhw_block : Bool
  component_failed_ : Bool
  calls_ : List TransceiverCall
  deriving DecidableEq

/-- Assignment `map[key] = value` on the unordered map: an existing key keeps
its place and takes the new value, a new key is added. The order in which a
`std::unordered_map` is iterated is unspecified; the list fixes one order, that
of first insertion, which need not be the order of the compiled map. Only the
order of the repeating list, and of startup messages of equal order, depends
on it; the theorems about the lists derived from the map do not. -/
def map_assign : List (MessageId × Nat) → MessageId → Nat → List (MessageId × Nat)
  | [], key, value => [(key, value)]
  | (k, v) :: rest, key, value =>
    if k = key then (k, value) :: rest else (k, v) :: map_assign rest key value

/-- `OpenthermHub::add_initial_message(message_id)`. -/
def add_initial_message (message_id : MessageId) (hub : OpenthermHub) : OpenthermHub :=
  { hub with configured_messages_ :=
      map_assign hub.configured_messages_ message_id INITIAL_UNORDERED_MESSAGE_ORDER }

/-- `OpenthermHub::add_initial_message(message_id, order)`; `order` is a
`uint8_t`. -/
def add_initial_message_order (message_id : MessageId) (order : Nat) (hub : OpenthermHub) :
    OpenthermHub :=
  { hub with configured_messages_ := map_assign hub.configured_messages_ message_id (order % 256) }

/-- `OpenthermHub::add_repeating_message`. -/
def add_repeating_message (message_id : MessageId) (hub : OpenthermHub) : OpenthermHub :=
  { hub with configured_messages_ :=
      map_assign hub.configured_messages_ message_id REPEATING_MESSAGE_ORDER }

/-- The call `std::sort(first, last, comp)` with `comp(a, b) = a.second < b.second`,
as an insertion sort: the result is a rearrangement of the input in which no
element compares less than an element before it. -/
def sort_by_order (l : List (MessageId × Nat)) : List (MessageId × Nat) :=
  l.insertionSort fun a b => a.2 ≤ b.2

/-- The comparison of `sort_by_order` is total. -/
instance order_le_total : IsTotal (MessageId × Nat) (fun a b => a.2 ≤ b.2) :=
  ⟨fun a b => le_total a.2 b.2⟩

/-- The comparison of `sort_by_order` is transitive. -/
instance order_le_trans : IsTrans (MessageId × Nat) (fun a b => a.2 ≤ b.2) :=
  ⟨fun _ _ _ h1 h2 => le_trans h1 h2⟩

/-- `OpenthermHub::write_initial_messages_`: the new contents of `target`. -/
def write_initial_messages_ (hub : OpenthermHub) : List MessageId :=
  let sorted := hub.configured_messages_.filter fun pair => decide (pair.2 < REPEATING_MESSAGE_ORDER)
  let sorted := sort_by_order sorted
  sorted.map fun pair => pair.1

/-- `OpenthermHub::write_repeating_messages_`: the new contents of `target`. -/
def write_repeating_messages_ (hub : OpenthermHub) : List MessageId :=
  (hub.configured_messages_.filter fun pair => decide (pair.2 = REPEATING_MESSAGE_ORDER)).map
    fun pair => pair.1

/-- `OpenthermHub::build_request_`. The handler lists are consulted in the order
of the source: the write handlers, then the sensors, then the binary sensors;
an id handled by none yields the value-initialised frame. -/
def build_request_ (rc : ReadConditions) (mh : MessageHandlers) (hub : OpenthermHub)
    (request_id : MessageId) : OpenthermData :=
  let data : OpenthermData := { type := 0, id := request_id, valueHB := 0, valueLB := 0 }
  if request_id = MessageId.STATUS then
    let ch_enabled := hub.ch_enable && rc.ch_enable && decide (rc.t_set > 0)
    let dhw_enabled := hub.dhw_enable && rc.dhw_enable
    let cooling_enabled :=
      hub.cooling_enable && rc.cooling_enable && decide (rc.cooling_control > 0)
    let otc_enabled := hub.otc_active && rc.otc_active
    let ch2_enabled := hub.ch2_active && rc.ch2_active && decide (rc.t_set_ch2 > 0)
    let summer_mode_is_active := hub.summer_mode_active && rc.summer_mode_active
    let dhw_blocked := hub.dhw_block && rc.dhw_block
    let data := { data with type := MessageType.READ_DATA }
    { data with valueHB :=
        (ch_enabled.toNat ||| (dhw_enabled.toNat <<< 1) ||| (cooling_enabled.toNat <<< 2) |||
          (otc_enabled.toNat <<< 3) ||| (ch2_enabled.toNat <<< 4) |||
          (summer_mode_is_active.toNat <<< 5) ||| (dhw_blocked.toNat <<< 6)) % 256 }
  else
    match mh.write_entities request_id with
    | some writes =>
      let data := { data with type := MessageType.WRITE_DATA, id := request_id }
      writes.foldl (fun data w => w.apply data) data
    | none =>
      if mh.has_sensor request_id then
        { data with type := MessageType.READ_DATA, id := request_id }
      else if mh.has_binary_sensor request_id then
        { data with type := MessageType.READ_DATA, id := request_id }
      else
        { type := 0, id := 0, valueHB := 0, valueLB := 0 }

/-! ### The scheduler tick -/

/-- Modelled from the spec: the accessor `OpenTherm::get_mode` of the header
`opentherm.h`, which is not among the sources; the scheduler "polls
Transceiver mode". -/
def get_mode (s : OpenTherm) : OperationMode := s.mode_

/-- Modelled from the spec: the accessor `OpenTherm::is_idle` of the header
`opentherm.h`, which is not among the sources. -/
def is_idle (s : OpenTherm) : Bool := decide (s.mode_ = .IDLE)

/-- Modelled from the spec: the accessor `OpenTherm::is_sent` of the header
`opentherm.h`, which is not among the sources ("message sent successfully"). -/
def is_sent (s : OpenTherm) : Bool := decide (s.mode_ = .SENT)

/-- Modelled from the spec: the accessor `OpenTherm::has_message` of the header
`opentherm.h`, which is not among the sources ("message received
successfully"). -/
def has_message (s : OpenTherm) : Bool := decide (s.mode_ = .RECEIVED)

/-- Modelled from the spec: the accessor `OpenTherm::is_active` of the header
`opentherm.h`, which is not among the sources: the active states are those of
a phase in progress (send, listen, receive), `WRITE`, `LISTEN` and `READ`. -/
def is_active (s : OpenTherm) : Bool :=
  decide (s.mode_ = .LISTEN) || decide (s.mode_ = .READ) || decide (s.mode_ = .WRITE)

/-- `OpenTherm::report_and_reset_timer_error` (ESP32), without the log line. -/
def report_and_reset_timer_error (s : OpenTherm) : OpenTherm :=
  if s.timer_error_ = ESP_OK then s
  else { s with timer_error_ := ESP_OK, timer_error_type_ := .NO_TIMER_ERROR }

/-- A reading of `millis()`: a `uint32_t`. -/
def millis (reading : Nat) : Nat := reading % 2 ^ 32

/-- Difference `a - b` of two `uint32_t` values. -/
def u32_sub (a b : Nat) : Nat := (a % 2 ^ 32 + 2 ^ 32 - b % 2 ^ 32) % 2 ^ 32

/-- One pass of the loop of `spin_wait_` as the scheduler sees it: the timer
ticks (one input sample each) since it last looked at the transceiver, and the
reading of `millis()` taken after `yield()`. -/
structure SpinStep where
  samples : List Bool
  now : Nat

/-- What the surroundings supply to one scheduler tick: the answers of the
timer driver, the read conditions and handler tables, the before-send hook,
the readings of `millis()` (in `loop` or `sync_loop_`, in
`start_conversation_`, in `stop_opentherm_` and at the start of the two waits)
and the timer ticks that fall between the scheduler's looks at the
transceiver in synchronous mode. -/
structure LoopEnv where
  hw : TimerHw
  rc : ReadConditions
  mh : MessageHandlers
  before_send : OpenthermData → OpenthermData
  cur_time : Nat
  conv_start : Nat
  stop_time : Nat
  ticks_after_send : List Bool
  send_start : Nat
  send_wait : List SpinStep
  ticks_after_listen : List Bool
  recv_start : Nat
  recv_wait : List SpinStep

/-- `OpenthermHub::setup`. `init_ok` is the result of setting up the
transceiver (pins and timer); `device_timeout` is the default of the
constructor's parameter, declared in the absent header. -/
def setup (init_ok : Bool) (device_timeout : Int) (hub : OpenthermHub) : OpenthermHub :=
  let hub := { hub with opentherm_ := OpenTherm.ctor device_timeout, calls_ := [] }
  if !init_ok then
    { hub with component_failed_ := true }
  else
    let hub := add_repeating_message MessageId.STATUS hub
    let hub := { hub with messages_ := write_initial_messages_ hub }
    { hub with message_iterator_ := 0 }

/-- `OpenthermHub::check_timings_`: whether the warning about the 1150 ms budget
is logged. The function changes nothing. -/
def check_timings_ (cur_time : Nat) (hub : OpenthermHub) : Bool :=
  decide (hub.last_conversation_start_ > 0) &&
    decide (u32_sub cur_time hub.last_conversation_start_ > 1150)

/-- `OpenthermHub::should_skip_loop_`. -/
def should_skip_loop_ (cur_time : Nat) (hub : OpenthermHub) : Bool :=
  decide (hub.last_conversation_end_ > 0) &&
    decide (u32_sub cur_time hub.last_conversation_end_ < 100)

/-- The first statement of `start_conversation_`: a cursor at the end goes back
to the beginning, after the rotation list has been replaced by the repeating
messages if the startup messages were being sent. -/
def rotate_cursor (hub : OpenthermHub) : OpenthermHub :=
  if hub.message_iterator_ = hub.messages_.length then
    let hub :=
      if hub.sending_initial_ then
        let hub := { hub with sending_initial_ := false }
        { hub with messages_ := write_repeating_messages_ hub }
      else hub
    { hub with message_iterator_ := 0 }
  else hub

/-- The message id `start_conversation_` passes to `build_request_`: the element
under the cursor, if the cursor is on an element. -/
def requested_id (hub : OpenthermHub) : Option MessageId :=
  (rotate_cursor hub).messages_[(rotate_cursor hub).message_iterator_]?

/-- `OpenthermHub::start_conversation_`; no result when the cursor it dereferences
is not on an element. -/
def start_conversation_ (env : LoopEnv) (hub : OpenthermHub) : Option OpenthermHub :=
  let hub := rotate_cursor hub
  match hub.messages_[hub.message_iterator_]? with
  | none => none
  | some id =>
    let request := build_request_ env.rc env.mh hub id
    let request := env.before_send request
    let hub := { hub with last_conversation_start_ := millis env.conv_start }
    some { hub with opentherm_ := send env.hw request hub.opentherm_,
                    calls_ := { op := .send, mode := hub.opentherm_.mode_ } :: hub.calls_ }

/-- `OpenthermHub::stop_opentherm_`. -/
def stop_opentherm_ (env : LoopEnv) (hub : OpenthermHub) : OpenthermHub :=
  let hub := { hub with opentherm_ := stop env.hw hub.opentherm_,
                        calls_ := { op := .stop, mode := hub.opentherm_.mode_ } :: hub.calls_ }
  { hub with last_conversation_end_ := millis env.stop_time }

/-- `OpenthermHub::read_response_`; the response goes to the hook and the
handlers outside the scheduler. -/
def read_response_ (env : LoopEnv) (hub : OpenthermHub) : OpenthermHub :=
  if !(get_message hub.opentherm_ { type := 0, id := 0, valueHB := 0, valueLB := 0 }).2.2 then
    stop_opentherm_ env hub
  else
    let hub := stop_opentherm_ env hub
    { hub with message_iterator_ := hub.message_iterator_ + 1 }

/-- `OpenthermHub::handle_protocol_error_`: the error is read for the log, the
conversation is stopped. -/
def handle_protocol_error_ (env : LoopEnv) (hub : OpenthermHub) : OpenthermHub :=
  stop_opentherm_ env hub

/-- `OpenthermHub::handle_timeout_error_`. -/
def handle_timeout_error_ (env : LoopEnv) (hub : OpenthermHub) : OpenthermHub :=
  stop_opentherm_ env hub

/-- `OpenthermHub::handle_timer_error_`. -/
def handle_timer_error_ (env : LoopEnv) (hub : OpenthermHub) : OpenthermHub :=
  let hub := { hub with opentherm_ := report_and_reset_timer_error hub.opentherm_ }
  let hub := stop_opentherm_ env hub
  { hub with component_failed_ := true }

/-- `OpenthermHub::handle_error_`: the scheduler and whether the mode was an
error mode. -/
def handle_error_ (env : LoopEnv) (mode : OperationMode) (hub : OpenthermHub) :
    OpenthermHub × Bool :=
  match mode with
  | .ERROR_PROTOCOL => (handle_protocol_error_ env hub, true)
  | .ERROR_TIMEOUT => (handle_timeout_error_ env hub, true)
  | .ERROR_TIMER => (handle_timer_error_ env hub, true)
  | _ => (hub, false)

/-- The call `opentherm_->listen()` of the scheduler. -/
def listen_opentherm (env : LoopEnv) (hub : OpenthermHub) : OpenthermHub :=
  { hub with opentherm_ := listen env.hw hub.opentherm_,
             calls_ := { op := .listen, mode := hub.opentherm_.mode_ } :: hub.calls_ }

/-- `OpenthermHub::spin_wait_` with `func` the test `is_active`: the result and
the transceiver as the timer ticks left it; no result when the surroundings
described by `steps` end while the wait goes on. -/
def spin_wait_ (timeout : Nat) (hw : TimerHw) (start_time : Nat) :
    List SpinStep → OpenTherm → Option (Bool × OpenTherm)
  | [], _ => none
  | step :: rest, ot =>
    let ot := run_isr hw step.samples ot
    if is_active ot then
      let cur_time := millis step.now
      if u32_sub cur_time start_time ≥ timeout then some (false, ot)
      else spin_wait_ timeout hw start_time rest ot
    else some (true, ot)

/-- `OpenthermHub::sync_loop_`. -/
def sync_loop_ (env : LoopEnv) (hub : OpenthermHub) : Option OpenthermHub :=
  if !is_idle hub.opentherm_ then some hub
  else
    let cur_time := millis env.cur_time
    let _warned := check_timings_ cur_time hub
    if should_skip_loop_ cur_time hub then some hub
    else
      match start_conversation_ env hub with
      | none => none
      | some hub =>
        let hub := { hub with opentherm_ := run_isr env.hw env.ticks_after_send hub.opentherm_ }
        if (handle_error_ env (get_mode hub.opentherm_) hub).2 then
          some (handle_error_ env (get_mode hub.opentherm_) hub).1
        else
          match spin_wait_ 1150 env.hw (millis env.send_start) env.send_wait hub.opentherm_ with
          | none => none
          | some (false, ot) => some (stop_opentherm_ env { hub with opentherm_ := ot })
          | some (true, ot) =>
            let hub := { hub with opentherm_ := ot }
            if (handle_error_ env (get_mode hub.opentherm_) hub).2 then
              some (handle_error_ env (get_mode hub.opentherm_) hub).1
            else if !is_sent hub.opentherm_ then some (stop_opentherm_ env hub)
            else
              let hub := listen_opentherm env hub
              let hub :=
                { hub with opentherm_ := run_isr env.hw env.ticks_after_listen hub.opentherm_ }
              if (handle_error_ env (get_mode hub.opentherm_) hub).2 then
                some (handle_error_ env (get_mode hub.opentherm_) hub).1
              else
                match spin_wait_ 1150 env.hw (millis env.recv_start) env.recv_wait
                    hub.opentherm_ with
                | none => none
                | some (false, ot) => some (stop_opentherm_ env { hub with opentherm_ := ot })
                | some (true, ot) =>
                  let hub := { hub with opentherm_ := ot }
                  if (handle_error_ env (get_mode hub.opentherm_) hub).2 then
                    some (handle_error_ env (get_mode hub.opentherm_) hub).1
                  else if !has_message hub.opentherm_ then some (stop_opentherm_ env hub)
                  else some (read_response_ env hub)

/-- Two states of the scheduler with the same rotation: cursor, rotation list,
phase flag and order table. -/
def same_rotation (a b : OpenthermHub) : Prop :=
  a.message_iterator_ = b.message_iterator_ ∧ a.messages_ = b.messages_ ∧
    a.sending_initial_ = b.sending_initial_ ∧ a.configured_messages_ = b.configured_messages_

/-- The part of `sync_loop_` from the call of `listen` on, entered with the
request sent. -/
def sync_receive (env : LoopEnv) (hub : OpenthermHub) : Option OpenthermHub :=
  let hub := listen_opentherm env hub
  let hub := { hub with opentherm_ := run_isr env.hw env.ticks_after_listen hub.opentherm_ }
  if (handle_error_ env (get_mode hub.opentherm_) hub).2 then
    some (handle_error_ env (get_mode hub.opentherm_) hub).1
  else
    match spin_wait_ 1150 env.hw (millis env.recv_start) env.recv_wait hub.opentherm_ with
    | none => none
    | some (false, ot) => some (stop_opentherm_ env { hub with opentherm_ := ot })
    | some (true, ot) =>
      let hub := { hub with opentherm_ := ot }
      if (handle_error_ env (get_mode hub.opentherm_) hub).2 then
        some (handle_error_ env (get_mode hub.opentherm_) hub).1
      else if !has_message hub.opentherm_ then some (stop_opentherm_ env hub)
      else some (read_response_ env hub)

/-- The part of `sync_loop_` after `start_conversation_`, entered with the
conversation started. -/
def sync_send (env : LoopEnv) (hub : OpenthermHub) : Option OpenthermHub :=
  let hub := { hub with opentherm_ := run_isr env.hw env.ticks_after_send hub.opentherm_ }
  if (handle_error_ env (get_mode hub.opentherm_) hub).2 then
    some (handle_error_ env (get_mode hub.opentherm_) hub).1
  else
    match spin_wait_ 1150 env.hw (millis env.send_start) env.send_wait hub.opentherm_ with
    | none => none
    | some (false, ot) => some (stop_opentherm_ env { hub with opentherm_ := ot })
    | some (true, ot) =>
      let hub := { hub with opentherm_ := ot }
      if (handle_error_ env (get_mode hub.opentherm_) hub).2 then
        some (handle_error_ env (get_mode hub.opentherm_) hub).1
      else if !is_sent hub.opentherm_ then some (stop_opentherm_ env hub)
      else sync_receive env hub

/-- The transceiver as the timer ticks of the passes `steps` of a wait leave
it. -/
def run_spin_steps (hw : TimerHw) (steps : List SpinStep) (ot : OpenTherm) : OpenTherm :=
  steps.foldl (fun ot step => run_isr hw step.samples ot) ot

/-- `OpenthermHub::loop`. -/
def loop (env : LoopEnv) (hub : OpenthermHub) : Option OpenthermHub :=
  if hub.sync_mode_ then sync_loop_ env hub
  else
    let cur_time := millis env.cur_time
    let cur_mode := get_mode hub.opentherm_
    if (handle_error_ env cur_mode hub).2 then some (handle_error_ env cur_mode hub).1
    else
      let after : Option OpenthermHub :=
        match cur_mode with
        | .WRITE => some hub
        | .READ => some hub
        | .LISTEN => some hub
        | .IDLE =>
          let _warned := check_timings_ cur_time hub
          if should_skip_loop_ cur_time hub then some hub
          else start_conversation_ env hub
        | .SENT => some (listen_opentherm env hub)
        | .RECEIVED => some (read_response_ env hub)
        | _ => some hub
      after.map fun hub => { hub with last_mode_ := cur_mode }

/-- What happens to the scheduler and its transceiver: a timer tick with the
level of the input pin, or a call of `loop` by the application. -/
inductive Step where
  | tick (value : Bool) (hw : TimerHw)
  | loop (env : LoopEnv)

/-- Modelled from the spec: the application calls `loop` of a component that is
not marked failed ("no further conversations are attempted" once it is); the
timer ticks drive `timer_isr`. No result when a call of `loop` has none. -/
def run_steps : List Step → OpenthermHub → Option OpenthermHub
  | [], hub => some hub
  | .tick value hw :: rest, hub =>
    run_steps rest { hub with opentherm_ := timer_isr hw value hub.opentherm_ }
  | .loop env :: rest, hub =>
    if hub.component_failed_ then run_steps rest hub
    else
      match loop env hub with
      | none => none
      | some hub => run_steps rest hub

/-- The scheduler `after` is the scheduler `before` with its transceiver
stopped by one call of `stop`, logged with the mode it was called in. -/
def stopped_after (before after : OpenthermHub) : Prop :=
  after.opentherm_.mode_ = .IDLE ∧ after.sync_mode_ = before.sync_mode_ ∧
    after.calls_ = { op := .stop, mode := before.opentherm_.mode_ } :: before.calls_

/-- The modes in which a conversation has come to its end in the transceiver. -/
def conversation_ended (m : OperationMode) : Prop :=
  m = .RECEIVED ∨ m = .ERROR_PROTOCOL ∨ m = .ERROR_TIMEOUT ∨ m = .ERROR_TIMER

/-- What holds of the log of calls in every state the scheduler reaches: every
`send` was called in `IDLE`; the call before a `send` was a `stop`; an idle
transceiver was last stopped, if it was called at all; and outside synchronous
mode every `stop` was called with the conversation ended. -/
def flight_invariant (sync : Bool) (h : OpenthermHub) : Prop :=
  h.sync_mode_ = sync ∧
    (∀ c ∈ h.calls_, c.op = .send → c.mode = .IDLE) ∧
    List.Chain' (fun later earlier : TransceiverCall => later.op = .send → earlier.op = .stop)
      h.calls_ ∧
    (h.opentherm_.mode_ = .IDLE → ∀ c ∈ h.calls_.head?, c.op = .stop) ∧
    (sync = false → ∀ c ∈ h.calls_, c.op = .stop → conversation_ended c.mode)

/-- The rotation the specification describes: the startup list in order,
followed by the repeating list repeated forever; `n` counts the conversations
from 0. -/
def rotation_schedule (initial repeating : List MessageId) (n : Nat) : MessageId :=
  if n < initial.length then initial.getD n 0
  else repeating.getD ((n - initial.length) % repeating.length) 0

/-- Conversations that all succeed: each `start_conversation_` is followed by a
`read_response_` on the transceiver state `rx` in which the response was
received. The result lists the ids passed to `build_request_`. -/
def run_conversations : List (LoopEnv × OpenTherm) → OpenthermHub → Option (List MessageId)
  | [], _ => some []
  | (env, rx) :: rest, hub =>
    match requested_id hub, start_conversation_ env hub with
    | some id, some started =>
      (run_conversations rest (read_response_ env { started with opentherm_ := rx })).map
        fun ids => id :: ids
    | _, _ => none

/-- A call registering a message: `add_initial_message(id)`,
`add_initial_message(id, order)` or `add_repeating_message(id)`. -/
inductive Registration where
  | initial (message_id : MessageId)
  | initial_order (message_id : MessageId) (order : Nat)
  | repeating (message_id : MessageId)

/-- The message a registration is for. -/
def Registration.message_id : Registration → MessageId
  | .initial message_id => message_id
  | .initial_order message_id _ => message_id
  | .repeating message_id => message_id

/-- The order value a registration assigns. -/
def Registration.order : Registration → Nat
  | .initial _ => INITIAL_UNORDERED_MESSAGE_ORDER
  | .initial_order _ order => order % 256
  | .repeating _ => REPEATING_MESSAGE_ORDER

/-- The registration call on the scheduler. -/
def Registration.call : Registration → OpenthermHub → OpenthermHub
  | .initial message_id, hub => add_initial_message message_id hub
  | .initial_order message_id order, hub => add_initial_message_order message_id order hub
  | .repeating message_id, hub => add_repeating_message message_id hub

/-- A sequence of registration calls, first call first. -/
def register_all (regs : List Registration) (hub : OpenthermHub) : OpenthermHub :=
  regs.foldl (fun hub reg => reg.call hub) hub

/-- The order value of the last registration for `id` in a sequence of calls. -/
def last_registered (regs : List Registration) (id : MessageId) : Option Nat :=
  (regs.reverse.find? fun reg => decide (reg.message_id = id)).map Registration.order

/-- The order value the map holds for `id` (the repeating sentinel when the id
is not configured). -/
def order_of (hub : OpenthermHub) (id : MessageId) : Nat :=
  (hub.configured_messages_.lookup id).getD REPEATING_MESSAGE_ORDER

/-- The rotation of `after` is that of `before`, with the cursor where it was or
one further. -/
def rotation_kept (before after : OpenthermHub) : Prop :=
  after.messages_ = before.messages_ ∧ after.sending_initial_ = before.sending_initial_ ∧
    after.configured_messages_ = before.configured_messages_ ∧
    (after.message_iterator_ = before.message_iterator_ ∨
      after.message_iterator_ = before.message_iterator_ + 1)

/-- What holds of the rotation in every state the scheduler reaches after a
successful `setup`: the cursor is within the list or at its end, it is on an
element while a conversation is under way, and the list that is dereferenced
after the next wrap-around is not empty. -/
def cursor_invariant (h : OpenthermHub) : Prop :=
  h.message_iterator_ ≤ h.messages_.length ∧
    (h.opentherm_.mode_ ≠ .IDLE → h.message_iterator_ < h.messages_.length) ∧
    (if h.sending_initial_ then write_repeating_messages_ h ≠ [] else h.messages_ ≠ [])

/-- What happens to a scheduler at run time: a timer tick or a call of `loop`,
or a registration call made by the application. -/
inductive Event where
  | step (s : Step)
  | register (r : Registration)

/-- Modelled from the spec: the scheduler after a sequence of events ("messages
may not be removed/added at runtime in this design", which the registration
functions do not enforce). No result when a call of `loop` has none. -/
def run_events : List Event → OpenthermHub → Option OpenthermHub
  | [], hub => some hub
  | .step s :: rest, hub =>
    match run_steps [s] hub with
    | none => none
    | some hub => run_events rest hub
  | .register r :: rest, hub => run_events rest (r.call hub)

/-- The scheduler after conversations that all succeed, as in
`run_conversations`. -/
def after_conversations (convs : List (LoopEnv × OpenTherm)) (hub : OpenthermHub) :
    OpenthermHub :=
  convs.foldl
    (fun hub conv =>
      match start_conversation_ conv.1 hub with
      | some started => read_response_ conv.1 { started with opentherm_ := conv.2 }
      | none => hub)
    hub

/-- A scheduler as constructed: nothing configured, `ch_enable` and
`dhw_enable` set, the other status flags clear. -/
def OpenthermHub.ctor : OpenthermHub :=
  { opentherm_ := OpenTherm.ctor 800, sending_initial_ := true, configured_messages_ := [],
    messages_ := [], message_iterator_ := 0, last_conversation_start_ := 0,
    last_conversation_end_ := 0, last_mode_ := .IDLE,
    last_request_ := { type := 0, id := 0, valueHB := 0, valueLB := 0 }, sync_mode_ := false,
    ch_enable := true, dhw_enable := true, cooling_enable := false, otc_active := false,
    ch2_active := false, summer_mode_active := false, dhw_block := false,
    component_failed_ := false, calls_ := [] }

/-- A configuration with three startup messages of explicit orders 2, 0 and 1
(ids 5, 25 and 17), one startup message without an order (id 3) and the
repeating status message. -/
def startup_example : OpenthermHub :=
  add_repeating_message MessageId.STATUS
    (add_initial_message 3
      (add_initial_message_order 17 1
        (add_initial_message_order 25 0 (add_initial_message_order 5 2 OpenthermHub.ctor))))

/-- No entity registered for any message. -/
def no_handlers : MessageHandlers :=
  { write_entities := fun _ => none, has_sensor := fun _ => false,
    has_binary_sensor := fun _ => false }

/-- Read conditions with every flag read as enabled and the three values at
`t`. -/
def read_all (t : Rat) : ReadConditions :=
  { ch_enable := true, dhw_enable := true, cooling_enable := true, otc_active := true,
    ch2_active := true, summer_mode_active := true, dhw_block := true, t_set := t,
    cooling_control := t, t_set_ch2 := t }

/-- The scheduler after the registration calls `regs`, made on an empty order
table. -/
def registered (regs : List Registration) (hub : OpenthermHub) : OpenthermHub :=
  register_all regs { hub with configured_messages_ := [] }

/-- Handler tables with a setpoint number (8.8 fixed point, value 21.5) written
to message 1, which also has a sensor, and a sensor on message 25. -/
def setpoint_handlers : MessageHandlers :=
  { write_entities := fun id => if id = 1 then some [EntityWrite.f88 (43 / 2)] else none,
    has_sensor := fun id => decide (id = 1 ∨ id = 25),
    has_binary_sensor := fun _ => false }

/-- A timer driver whose `timer_start` fails with `ESP_FAIL` and whose other
calls succeed. -/
def timer_start_fails : TimerHw :=
  { timer_set_alarm_value := ESP_OK, timer_start := -1, timer_pause := ESP_OK,
    timer_set_counter_value := ESP_OK }

/-- Surroundings of a scheduler tick in which the timer driver answers as `hw`,
nothing is registered, every reading of `millis()` is `now` and no timer tick
falls into the tick. -/
def quiet_env (hw : TimerHw) (now : Nat) : LoopEnv :=
  { hw := hw, rc := read_all 0, mh := no_handlers, before_send := fun data => data,
    cur_time := now, conv_start := now, stop_time := now, ticks_after_send := [],
    send_start := now, send_wait := [], ticks_after_listen := [], recv_start := now,
    recv_wait := [] }

/-- A scheduler after a successful `setup` with nothing but the status message
configured, whose transceiver has come to `mode`, with the given timestamps of
the last conversation. -/
def hub_in_mode (mode : OperationMode) (conv_start conv_end : Nat) : OpenthermHub :=
  { setup true 800 OpenthermHub.ctor with
    opentherm_ := { OpenTherm.ctor 800 with mode_ := mode }
    last_conversation_start_ := conv_start
    last_conversation_end_ := conv_end }

/-- Seven conversations that all succeed: the transceiver is found in
`RECEIVED` each time. -/
def seven_conversations : List (LoopEnv × OpenTherm) :=
  (List.range 7).map fun n =>
    (quiet_env timer_ok (1000 * n), { OpenTherm.ctor 800 with mode_ := .RECEIVED })

/-- Registrations of startup messages 5, 25 and 17 with orders 2, 0 and 1, of
startup message 3 without an order and of repeating message 18. -/
def example_registrations : List Registration :=
  [.initial_order 5 2, .initial_order 25 0, .initial_order 17 1, .initial 3, .repeating 18]

/-- Surroundings of a synchronous tick at time `now` in which the timer does
not tick and the wait for the request to be sent sees `millis()` 2000 ms
later. -/
def ceiling_env (now : Nat) : LoopEnv :=
  { quiet_env timer_ok now with
    send_wait := [{ samples := [], now := now + 2000 }] }

/-- A scheduler in synchronous mode after a successful `setup` with nothing
but the status message configured. -/
def sync_hub : OpenthermHub :=
  setup true 800 { OpenthermHub.ctor with sync_mode_ := true }

/-- The scheduler `sync_hub` after `start_conversation_` at time 0. -/
def sync_started : OpenthermHub :=
  (start_conversation_ (ceiling_env 0) sync_hub).getD sync_hub

/-- Surroundings of a synchronous tick at time `now` in which `timer_start`
fails, so that no timer tick comes, and the wait for the request to be sent
reads `millis()` 2000 ms later. -/
def stalled_env (now : Nat) : LoopEnv :=
  { quiet_env timer_start_fails now with
    stop_time := now + 2000
    send_wait := [{ samples := [], now := now + 2000 }] }

/-- An asynchronous run of a scheduler whose transceiver waits 1 ms for the
response: a conversation is started, the request is written by 68 timer
ticks, `loop` starts listening, and 6 ticks of an idle line run the decoder
into its timeout, which the next `loop` handles; then the conversation is
started again. -/
def timeout_run : List Step :=
  [Step.loop (quiet_env timer_ok 0)] ++ (List.replicate 68 (Step.tick false timer_ok)) ++
    [Step.loop (quiet_env timer_ok 40)] ++ (List.replicate 6 (Step.tick false timer_ok)) ++
    [Step.loop (quiet_env timer_ok 900), Step.loop (quiet_env timer_ok 1100)]

/-- The scheduler after `timeout_run`. -/
def timeout_run_result : OpenthermHub :=
  (run_steps timeout_run (setup true 1 OpenthermHub.ctor)).getD OpenthermHub.ctor

/-- A decoder that has shifted in the start bit and 32 data bits (the word 3)
and has seen two high samples of the stop bit. -/
def at_stop_bit : OpenTherm :=
  { OpenTherm.ctor 800 with mode_ := .READ, clock_ := 1, capture_ := 3, bit_pos_ := 33,
                            data_ := 3 }

/-- A decoder in the middle of a frame, right after a level change to high, with
the clock phase at 1. -/
def after_level_change : OpenTherm :=
  { OpenTherm.ctor 800 with mode_ := .READ, clock_ := 1, capture_ := 3, bit_pos_ := 5,
                            data_ := 9 }

/-- A scheduler with nothing but the status message configured, after `setup`
and two successful conversations: the repeating rotation has begun and the
cursor is at its end. -/
def phase_two_hub : OpenthermHub :=
  after_conversations (seven_conversations.take 2) (setup true 800 OpenthermHub.ctor)

/-- Message 5 is registered as repeating on `phase_two_hub`, then `loop` is
called. -/
def late_registration : List Event :=
  [Event.register (Registration.repeating 5), Event.step (Step.loop (quiet_env timer_ok 5000))]

/-- The scheduler after `late_registration`. -/
def late_registration_result : OpenthermHub :=
  (run_events late_registration phase_two_hub).getD OpenthermHub.ctor

/-- The scheduler `sync_hub` after the synchronous tick at time 0 whose wait
for the request to be sent runs into the ceiling. -/
def sync_stopped : OpenthermHub :=
  (sync_loop_ (ceiling_env 0) sync_hub).getD sync_hub

/-- Handler tables with two switches (bits 0 and 3 of the high byte) and a
byte-wide number (the low byte, value 7) written to message 100. -/
def flag_handlers : MessageHandlers :=
  { write_entities := fun id =>
      if id = 100 then
        some [EntityWrite.flag8_hb 0 true, EntityWrite.flag8_hb 3 true, EntityWrite.u8_lb 7]
      else none,
    has_sensor := fun _ => false,
    has_binary_sensor := fun _ => false }

/-! ## Bit arithmetic -/

/-- Or-ing a value below `2 ^ k` into a left shift by `k` is an addition. -/
theorem shiftLeft_or_eq_add (a b k : Nat) (hb : b < 2 ^ k) : (a <<< k) ||| b = a * 2 ^ k + b := by
  rw [Nat.shiftLeft_eq, Nat.mul_comm, ← Nat.mul_add_lt_is_or hb]

theorem and_255 (x : Nat) : x &&& 0xFF = x % 256 := Nat.and_pow_two_sub_one_eq_mod x 8

theorem and_7 (x : Nat) : x &&& 0x7 = x % 8 := Nat.and_pow_two_sub_one_eq_mod x 3

theorem and_15 (x : Nat) : x &&& 0xF = x % 16 := Nat.and_pow_two_sub_one_eq_mod x 4

theorem and_mask31 (x : Nat) : x &&& 0x7FFFFFFF = x % 2 ^ 31 :=
  Nat.and_pow_two_sub_one_eq_mod x 31

theorem count_ones_succ (n v : Nat) :
    count_ones (n + 1) v = count_ones n v + (v.testBit n).toNat := by
  unfold count_ones
  rw [List.range_succ, List.countP_append]
  cases h : v.testBit n <;> simp [List.countP_cons, h]

theorem xor_toNat (a b : Bool) : (a ^^ b).toNat = (a.toNat + b.toNat) % 2 := by
  cases a <;> cases b <;> rfl

theorem toNat_testBit_zero (x : Nat) : (x.testBit 0).toNat = x % 2 := by
  rw [Nat.testBit_zero]
  rcases Nat.mod_two_eq_zero_or_one x with h | h <;> simp [h]

/-- The folding of `check_parity_` computes the parity of the number of set
bits of a 32-bit value. -/
theorem check_parity_eq (v : Nat) (h : v < 2 ^ 32) :
    check_parity_ v = decide (count_ones 32 v % 2 = 0) := by
  have hfold : ∀ f : Nat, f < 2 ^ 32 →
      (((2 ^ 32 - 1 - f) &&& 1) != 0) = decide ((f.testBit 0).toNat = 0) := by
    intro f hf
    rw [toNat_testBit_zero, Nat.and_one_is_mod]
    rcases Nat.mod_two_eq_zero_or_one f with h0 | h0
    · have : (2 ^ 32 - 1 - f) % 2 = 1 := by omega
      rw [this, h0]; rfl
    · have : (2 ^ 32 - 1 - f) % 2 = 0 := by omega
      rw [this, h0]; rfl
  unfold check_parity_
  simp only [Nat.mod_eq_of_lt h]
  rw [hfold]
  · simp only [Nat.testBit_xor, Nat.testBit_shiftRight, xor_toNat, count_ones_succ]
    simp only [count_ones, List.range_zero, List.countP_nil]
    simp only [Nat.reduceAdd]
    simp only [← Nat.add_mod]
    congr 2
    omega
  · have key : ∀ x k : Nat, x < 2 ^ 32 → x ^^^ (x >>> k) < 2 ^ 32 := fun x k hx =>
      Nat.xor_lt_two_pow hx
        (lt_of_le_of_lt (by rw [Nat.shiftRight_eq_div_pow]; exact Nat.div_le_self _ _) hx)
    exact key _ _ (key _ _ (key _ _ (key _ _ (key _ _ h))))

theorem count_ones_two_pow_add (n k v : Nat) (h : n ≤ k) :
    count_ones n (2 ^ k + v) = count_ones n v := by
  unfold count_ones
  apply List.countP_congr
  intro i hi
  rw [Nat.testBit_two_pow_add_gt (lt_of_lt_of_le (List.mem_range.mp hi) h)]

/-! ## Timer calls -/

/-- `stop_timer_` touches the two timer error fields only. -/
theorem stop_timer__eq (hw : TimerHw) (s : OpenTherm) :
    stop_timer_ hw s = { s with timer_error_ := (stop_timer_result hw).1,
                                timer_error_type_ := (stop_timer_result hw).2 } := by
  unfold stop_timer_ stop_timer_result
  simp only []
  split_ifs <;> rfl

/-- `start_esp32_timer_` touches the two timer error fields only. -/
theorem start_esp32_timer__eq (hw : TimerHw) (a : Nat) (s : OpenTherm) :
    start_esp32_timer_ hw a s = { s with timer_error_ := (start_timer_result hw).1,
                                         timer_error_type_ := (start_timer_result hw).2 } := by
  unfold start_esp32_timer_ start_timer_result
  simp only []
  split_ifs <;> rfl

/-! ## Packing the frame -/

theorem payload_lt (d : OpenthermData) (hwf : d.wf) (ht : d.type < 8) : payload d < 2 ^ 31 := by
  obtain ⟨_, h2, h3, h4⟩ := hwf
  unfold payload; omega

/-- The word `send` loads into the shift register: the packed fields, with bit
31 added when `check_parity_` rejects them. -/
theorem send_data_ (hw : TimerHw) (d : OpenthermData) (s : OpenTherm) (hwf : d.wf)
    (ht : d.type < 8) :
    (send hw d s).data_ = if check_parity_ (payload d) then payload d else 2 ^ 31 + payload d := by
  have hp := payload_lt d hwf ht
  obtain ⟨_, h2, h3, h4⟩ := hwf
  have e1 : ((d.type % 2 ^ 32) <<< 12 ||| d.id) % 2 ^ 32 = d.type * 2 ^ 12 + d.id := by
    rw [shiftLeft_or_eq_add _ _ _ (by omega)]; omega
  have e2 : ((d.type * 2 ^ 12 + d.id) <<< 8 ||| d.valueHB) % 2 ^ 32
      = d.type * 2 ^ 20 + d.id * 2 ^ 8 + d.valueHB := by
    rw [shiftLeft_or_eq_add _ _ _ (by omega)]; omega
  have e3 : ((d.type * 2 ^ 20 + d.id * 2 ^ 8 + d.valueHB) <<< 8 ||| d.valueLB) % 2 ^ 32
      = payload d := by
    rw [shiftLeft_or_eq_add _ _ _ (by omega)]; unfold payload; omega
  have e4 : payload d ||| 0x80000000 = 2 ^ 31 + payload d := by
    have := Nat.mul_add_lt_is_or hp 1
    rw [Nat.or_comm]; simpa using this.symm
  simp only [send, start_write_timer_, start_esp32_timer__eq, stop_timer__eq, e1, e2, e3, e4]
  split_ifs <;> simp_all

theorem send_mode_ (hw : TimerHw) (d : OpenthermData) (s : OpenTherm) :
    (send hw d s).mode_ = .WRITE ∧ (send hw d s).clock_ = 1 ∧ (send hw d s).bit_pos_ = 33 := by
  simp only [send, start_write_timer_, start_esp32_timer__eq, stop_timer__eq]
  exact ⟨trivial, trivial, trivial⟩

theorem send_data_lt (hw : TimerHw) (d : OpenthermData) (s : OpenTherm) (hwf : d.wf)
    (ht : d.type < 8) : (send hw d s).data_ < 2 ^ 32 := by
  have hp := payload_lt d hwf ht
  rw [send_data_ hw d s hwf ht]
  split_ifs <;> omega

/-- The word built by `send` has an even number of set bits, and its bit 31 is
set exactly when the packed fields have an odd number of set bits. -/
theorem send_parity (hw : TimerHw) (d : OpenthermData) (s : OpenTherm) (hwf : d.wf)
    (ht : d.type < 8) :
    ((send hw d s).data_.testBit 31 = true ↔ count_ones 31 (send hw d s).data_ % 2 = 1) ∧
      count_ones 32 (send hw d s).data_ % 2 = 0 := by
  have hp := payload_lt d hwf ht
  have hb : (payload d).testBit 31 = false := Nat.testBit_lt_two_pow hp
  have h32 : ∀ v, count_ones 32 v = count_ones 31 v + (v.testBit 31).toNat := count_ones_succ 31
  have hc := check_parity_eq (payload d) (by omega)
  rw [h32, hb] at hc
  rw [send_data_ hw d s hwf ht]
  by_cases hpar : check_parity_ (payload d) = true
  · rw [if_pos hpar, h32, hb]
    rw [hpar] at hc
    have := of_decide_eq_true hc.symm
    simp only [Bool.toNat_false, Nat.add_zero] at this ⊢
    simp only [Bool.false_eq_true, false_iff]
    omega
  · rw [if_neg hpar, h32, count_ones_two_pow_add 31 31 _ le_rfl,
      Nat.testBit_two_pow_add_eq, hb]
    simp only [Bool.not_eq_true] at hpar
    rw [hpar] at hc
    have := of_decide_eq_false hc.symm
    simp only [Bool.toNat_false, Nat.add_zero, Bool.not_false, Bool.toNat_true] at this ⊢
    simp only [true_iff]
    omega

/-! ## The write waveform -/

theorem run_ticks_succ (hw : TimerHw) (n : Nat) (s : OpenTherm) :
    run_ticks hw (n + 1) s = timer_isr hw false (run_ticks hw n s) := by
  induction n generalizing s with
  | zero => rfl
  | succ n ih => exact ih (timer_isr hw false s)

theorem write_levels_eq_map (hw : TimerHw) (n : Nat) (s : OpenTherm) :
    write_levels hw n s = (List.range n).map fun j => (run_ticks hw (j + 1) s).isr_out_pin_ := by
  induction n generalizing s with
  | zero => rfl
  | succ n ih =>
    rw [write_levels, ih, List.range_succ_eq_map, List.map_cons, List.map_map]
    rfl

theorem decide_read_bit_eq_zero (d k : Nat) : decide (read_bit d k = 0) = !d.testBit k := by
  unfold read_bit
  rw [Nat.and_one_is_mod, Nat.testBit_to_div_mod, Nat.shiftRight_eq_div_pow]
  rcases Nat.mod_two_eq_zero_or_one (d / 2 ^ k) with h | h <;> simp [h]

theorem decide_read_bit_ne_zero (d k : Nat) : decide (read_bit d k ≠ 0) = d.testBit k := by
  have := decide_read_bit_eq_zero d k
  cases h : d.testBit k <;> simp_all

theorem write_first_half (hw : TimerHw) (v : Bool) (s : OpenTherm) (hm : s.mode_ = .WRITE)
    (hc : s.clock_ = 1) :
    (timer_isr hw v s).mode_ = .WRITE ∧ (timer_isr hw v s).clock_ = 0 ∧
      (timer_isr hw v s).bit_pos_ = s.bit_pos_ ∧ (timer_isr hw v s).data_ = s.data_ ∧
      (timer_isr hw v s).isr_out_pin_ = !slot_bit s.data_ s.bit_pos_ := by
  obtain ⟨mode, err, cap, clk, data, bp, tc, dt, te, tet, pin⟩ := s
  simp only at hm hc
  subst hm hc
  by_cases h : bp = 33 ∨ bp = 0
  · simp [timer_isr, write_bit_, slot_bit, h]
  · simp [timer_isr, write_bit_, slot_bit, h, decide_read_bit_eq_zero]

theorem write_second_half (hw : TimerHw) (v : Bool) (s : OpenTherm) (hm : s.mode_ = .WRITE)
    (hc : s.clock_ = 0) :
    (timer_isr hw v s).mode_ = (if s.bit_pos_ = 0 then .SENT else .WRITE) ∧
      (timer_isr hw v s).clock_ = 1 ∧
      (timer_isr hw v s).bit_pos_ = (s.bit_pos_ + 255) % 256 ∧
      (timer_isr hw v s).data_ = s.data_ ∧
      (timer_isr hw v s).isr_out_pin_ = slot_bit s.data_ s.bit_pos_ := by
  obtain ⟨mode, err, cap, clk, data, bp, tc, dt, te, tet, pin⟩ := s
  simp only at hm hc
  subst hm hc
  by_cases h0 : bp = 0
  · subst h0
    simp only [timer_isr, write_bit_, slot_bit, stop_timer_]
    split_ifs <;> simp_all
  · by_cases h : bp = 33
    · subst h
      simp [timer_isr, write_bit_, slot_bit]
    · simp [timer_isr, write_bit_, slot_bit, h, h0, decide_read_bit_eq_zero]


theorem frame_bits_eq_map (d : Nat) :
    frame_bits d = (List.range 34).map fun i => slot_bit d (33 - i) := by
  simp [frame_bits, slot_bit, List.range_succ]

theorem flatMap_pair_range (f : Nat → Bool) (n : Nat) :
    ((List.range n).flatMap fun i => [f (2 * i), f (2 * i + 1)]) = (List.range (2 * n)).map f := by
  induction n with
  | zero => rfl
  | succ n ih =>
    rw [List.range_succ, List.flatMap_append, ih, show 2 * (n + 1) = 2 * n + 1 + 1 by ring,
      List.range_succ, List.range_succ]
    simp

/-- State of a transmission of `d` after `n` ticks, `n ≤ 67`. -/
theorem write_invariant (hw : TimerHw) (s : OpenTherm) (d : Nat) (hm : s.mode_ = .WRITE)
    (hc : s.clock_ = 1) (hb : s.bit_pos_ = 33) (hd : s.data_ = d) (n : Nat) (hn : n ≤ 67) :
    (run_ticks hw n s).mode_ = .WRITE ∧ (run_ticks hw n s).data_ = d ∧
      (run_ticks hw n s).clock_ = (if n % 2 = 0 then 1 else 0) ∧
      (run_ticks hw n s).bit_pos_ = 33 - n / 2 := by
  induction n with
  | zero => exact ⟨hm, hd, hc, hb⟩
  | succ n ih =>
    obtain ⟨h1, h2, h3, h4⟩ := ih (by omega)
    rw [run_ticks_succ]
    by_cases hpar : n % 2 = 0
    · rw [if_pos hpar] at h3
      obtain ⟨g1, g2, g3, g4, _⟩ := write_first_half hw false _ h1 h3
      refine ⟨g1, g4.trans h2, ?_, ?_⟩
      · rw [g2, if_neg (by omega)]
      · rw [g3, h4]; omega
    · rw [if_neg hpar] at h3
      obtain ⟨g1, g2, g3, g4, _⟩ := write_second_half hw false _ h1 h3
      refine ⟨?_, g4.trans h2, ?_, ?_⟩
      · rw [g1, if_neg (by omega)]
      · rw [g2, if_pos (by omega)]
      · rw [g3, h4]; omega

theorem write_pin (hw : TimerHw) (s : OpenTherm) (d : Nat) (hm : s.mode_ = .WRITE)
    (hc : s.clock_ = 1) (hb : s.bit_pos_ = 33) (hd : s.data_ = d) (n : Nat) (hn : n ≤ 67) :
    (run_ticks hw (n + 1) s).isr_out_pin_ =
      (if n % 2 = 0 then !slot_bit d (33 - n / 2) else slot_bit d (33 - n / 2)) := by
  obtain ⟨h1, h2, h3, h4⟩ := write_invariant hw s d hm hc hb hd n hn
  rw [run_ticks_succ]
  by_cases hpar : n % 2 = 0
  · rw [if_pos hpar] at h3 ⊢
    obtain ⟨_, _, _, _, g5⟩ := write_first_half hw false _ h1 h3
    rw [g5, h2, h4]
  · rw [if_neg hpar] at h3 ⊢
    obtain ⟨_, _, _, _, g5⟩ := write_second_half hw false _ h1 h3
    rw [g5, h2, h4]

theorem write_sent (hw : TimerHw) (s : OpenTherm) (d : Nat) (hm : s.mode_ = .WRITE)
    (hc : s.clock_ = 1) (hb : s.bit_pos_ = 33) (hd : s.data_ = d) :
    (run_ticks hw 68 s).mode_ = .SENT := by
  obtain ⟨h1, h2, h3, h4⟩ := write_invariant hw s d hm hc hb hd 67 le_rfl
  rw [run_ticks_succ]
  rw [if_neg (by decide)] at h3
  obtain ⟨g1, _⟩ := write_second_half hw false _ h1 h3
  rw [g1, h4]; rfl

/-- The 68 levels driven while the word `d` is transmitted are the Manchester
pairs of its 34 logical bits, each bit as its complement followed by itself. -/
theorem write_levels_waveform (hw : TimerHw) (s : OpenTherm) (d : Nat) (hm : s.mode_ = .WRITE)
    (hc : s.clock_ = 1) (hb : s.bit_pos_ = 33) (hd : s.data_ = d) :
    write_levels hw 68 s = (frame_bits d).flatMap fun b => [!b, b] := by
  rw [write_levels_eq_map, frame_bits_eq_map, List.flatMap_map]
  have := flatMap_pair_range
    (fun n => if n % 2 = 0 then !slot_bit d (33 - n / 2) else slot_bit d (33 - n / 2)) 34
  have e : ∀ i : Nat, (fun b : Bool => [!b, b]) (slot_bit d (33 - i)) =
      [(fun n => if n % 2 = 0 then !slot_bit d (33 - n / 2) else slot_bit d (33 - n / 2)) (2 * i),
       (fun n => if n % 2 = 0 then !slot_bit d (33 - n / 2) else slot_bit d (33 - n / 2))
        (2 * i + 1)] := by
    intro i
    have h1 : (2 * i) % 2 = 0 := by omega
    have h2 : ¬ (2 * i + 1) % 2 = 0 := by omega
    have h3 : (2 * i) / 2 = i := by omega
    have h4 : (2 * i + 1) / 2 = i := by omega
    simp only [h1, h2, h3, h4, if_true, if_false]
  simp only [e]
  rw [this]
  apply List.map_congr_left
  intro n hn
  exact write_pin hw s d hm hc hb hd n (by have := List.mem_range.mp hn; omega)

/-! ## Decoding -/

/-- One data bit: from the end of a bit (clock phase 0, a run of 2 or 3 samples)
the samples of the next bit shift that bit in and leave the decoder at the end
of the bit. -/
theorem read_data_bit (hw : TimerHw) (s : OpenTherm) (lvl b : Bool) (n n1 n2 : Nat)
    (hm : s.mode_ = .READ) (hc : s.clock_ = 0) (hcap : s.capture_ = capture_run lvl n)
    (hpos : s.bit_pos_ < 33) (hn : n = 2 ∨ n = 3) (hn1 : n1 = 2 ∨ n1 = 3) (hn2 : n2 = 2 ∨ n2 = 3) :
    run_isr hw (List.replicate n1 b ++ List.replicate n2 (!b)) s =
      { s with clock_ := 0, capture_ := capture_run (!b) n2,
               data_ := ((s.data_ <<< 1) ||| b.toNat) % 2 ^ 32,
               bit_pos_ := s.bit_pos_ + 1 } := by
  obtain ⟨mode, err, cap, clk, data, bp, tc, dt, te, tet, pin⟩ := s
  simp only at hm hc hcap hpos
  subst hm hc hcap
  have hne : ¬ bp = 33 := by omega
  have hmod : (bp + 1) % 256 = bp + 1 := by omega
  rcases hn with rfl | rfl <;> rcases hn1 with rfl | rfl <;> rcases hn2 with rfl | rfl <;>
    cases lvl <;> cases b <;>
    simp [run_isr, timer_isr, bit_read_, capture_run, List.replicate, STOP_BIT, hne, hmod]


theorem run_isr_append (hw : TimerHw) (l1 l2 : List Bool) (s : OpenTherm) :
    run_isr hw (l1 ++ l2) s = run_isr hw l2 (run_isr hw l1 s) := by
  induction l1 generalizing s with
  | nil => rfl
  | cons v vs ih => exact ih (timer_isr hw v s)

/-- A tick outside `LISTEN`, `READ` and `WRITE` changes nothing. -/
theorem timer_isr_terminal (hw : TimerHw) (v : Bool) (s : OpenTherm) (h1 : s.mode_ ≠ .LISTEN)
    (h2 : s.mode_ ≠ .READ) (h3 : s.mode_ ≠ .WRITE) : timer_isr hw v s = s := by
  obtain ⟨mode, err, cap, clk, data, bp, tc, dt, te, tet, pin⟩ := s
  cases mode <;> simp_all [timer_isr]

theorem run_isr_terminal (hw : TimerHw) (l : List Bool) (s : OpenTherm) (h1 : s.mode_ ≠ .LISTEN)
    (h2 : s.mode_ ≠ .READ) (h3 : s.mode_ ≠ .WRITE) : run_isr hw l s = s := by
  induction l with
  | nil => rfl
  | cons v vs ih => rw [run_isr, timer_isr_terminal hw v s h1 h2 h3, ih]

/-- The first high sample moves a listening decoder whose countdown has not
expired to `READ` with a fresh capture register. -/
theorem listen_first_high (hw : TimerHw) (s : OpenTherm) (hm : s.mode_ = .LISTEN)
    (ht : s.timeout_counter_ ≠ 0) :
    (timer_isr hw true s).mode_ = .READ ∧ (timer_isr hw true s).clock_ = 1 ∧
      (timer_isr hw true s).capture_ = 1 ∧ (timer_isr hw true s).data_ = 0 ∧
      (timer_isr hw true s).bit_pos_ = 0 := by
  obtain ⟨mode, err, cap, clk, data, bp, tc, dt, te, tet, pin⟩ := s
  simp only at hm ht
  subst hm
  simp only [timer_isr, read_, start_read_timer_, start_esp32_timer__eq, if_neg ht, if_true]
  split_ifs <;> exact ⟨rfl, rfl, rfl, rfl, rfl⟩

/-- The rest of the start bit after the sample that started the read phase. -/
theorem read_start_rest (hw : TimerHw) (s : OpenTherm) (k n2 : Nat) (hm : s.mode_ = .READ)
    (hc : s.clock_ = 1) (hcap : s.capture_ = 1) (hd : s.data_ = 0) (hpos : s.bit_pos_ = 0)
    (hk : k = 1 ∨ k = 2) (hn2 : n2 = 2 ∨ n2 = 3) :
    run_isr hw (List.replicate k true ++ List.replicate n2 false) s =
      { s with clock_ := 0, capture_ := capture_run false n2, data_ := 1, bit_pos_ := 1 } := by
  obtain ⟨mode, err, cap, clk, data, bp, tc, dt, te, tet, pin⟩ := s
  simp only at hm hc hcap hd hpos
  subst hm hc hcap hd hpos
  rcases hk with rfl | rfl <;> rcases hn2 with rfl | rfl <;>
    simp [run_isr, timer_isr, bit_read_, capture_run, List.replicate, STOP_BIT]

/-- The start bit: a listening decoder whose countdown has not expired enters
`READ` on the first high sample and has shifted in the start bit at the end of
the bit. -/
theorem read_start_bit (hw : TimerHw) (s : OpenTherm) (n1 n2 : Nat) (hm : s.mode_ = .LISTEN)
    (ht : s.timeout_counter_ ≠ 0) (hn1 : n1 = 2 ∨ n1 = 3) (hn2 : n2 = 2 ∨ n2 = 3) :
    (run_isr hw (List.replicate n1 true ++ List.replicate n2 false) s).mode_ = .READ ∧
      (run_isr hw (List.replicate n1 true ++ List.replicate n2 false) s).clock_ = 0 ∧
      (run_isr hw (List.replicate n1 true ++ List.replicate n2 false) s).capture_ =
        capture_run false n2 ∧
      (run_isr hw (List.replicate n1 true ++ List.replicate n2 false) s).data_ = 1 ∧
      (run_isr hw (List.replicate n1 true ++ List.replicate n2 false) s).bit_pos_ = 1 := by
  obtain ⟨g1, g2, g3, g4, g5⟩ := listen_first_high hw s hm ht
  obtain ⟨k, rfl, hk⟩ : ∃ k, n1 = k + 1 ∧ (k = 1 ∨ k = 2) := by
    rcases hn1 with rfl | rfl
    · exact ⟨1, rfl, Or.inl rfl⟩
    · exact ⟨2, rfl, Or.inr rfl⟩
  rw [List.replicate_succ, List.cons_append, run_isr,
    read_start_rest hw _ k n2 g1 g2 g3 g4 g5 hk hn2]
  exact ⟨g1, rfl, rfl, rfl, rfl⟩

/-- The stop bit: at bit position 33 the mid-bit transition of a logical 1
ends the frame, in `RECEIVED` when `check_parity_` accepts the shift register
and with `PARITY_ERROR` otherwise. -/
theorem read_stop_bit (hw : TimerHw) (s : OpenTherm) (lvl : Bool) (n n1 n2 : Nat)
    (hm : s.mode_ = .READ) (hc : s.clock_ = 0) (hcap : s.capture_ = capture_run lvl n)
    (hpos : s.bit_pos_ = 33) (hn : n = 2 ∨ n = 3) (hn1 : n1 = 2 ∨ n1 = 3) (hn2 : n2 = 2 ∨ n2 = 3) :
    (run_isr hw (List.replicate n1 true ++ List.replicate n2 false) s).data_ = s.data_ ∧
      (run_isr hw (List.replicate n1 true ++ List.replicate n2 false) s).mode_ =
        (if check_parity_ s.data_ then .RECEIVED else .ERROR_PROTOCOL) ∧
      (check_parity_ s.data_ = false →
        (run_isr hw (List.replicate n1 true ++ List.replicate n2 false) s).error_type_ =
          .PARITY_ERROR) := by
  obtain ⟨mode, err, cap, clk, data, bp, tc, dt, te, tet, pin⟩ := s
  simp only at hm hc hcap hpos
  subst hm hc hcap hpos
  cases hpar : check_parity_ data <;>
  rcases hn with rfl | rfl <;> rcases hn1 with rfl | rfl <;> rcases hn2 with rfl | rfl <;>
    cases lvl <;>
    simp [run_isr, timer_isr, verify_stop_bit_, stop_timer__eq, capture_run, List.replicate,
      STOP_BIT, hpar]

/-! ## Decoding a whole frame -/

theorem manchester_in_cons (b : Bool) (bs : List Bool) :
    manchester_in (b :: bs) = b :: (!b) :: manchester_in bs := by
  simp [manchester_in, List.flatMap_cons]

theorem sample_levels_manchester_cons (b : Bool) (bs : List Bool) (w1 w2 : Nat) (ws : List Nat) :
    sample_levels (manchester_in (b :: bs)) (w1 :: w2 :: ws) =
      (List.replicate w1 b ++ List.replicate w2 (!b)) ++ sample_levels (manchester_in bs) ws := by
  rw [manchester_in_cons, sample_levels, sample_levels, List.append_assoc]

theorem sample_levels_nil (ws : List Nat) : sample_levels [] ws = [] := by
  cases ws <;> rfl

/-- From the end of a bit, the samples of the remaining data bits and of the
stop bit shift the data bits in and end the frame on the stop bit. -/
theorem read_frame_tail (hw : TimerHw) (bs : List Bool) :
    ∀ (ws : List Nat) (s : OpenTherm) (lvl : Bool) (n : Nat), s.mode_ = .READ → s.clock_ = 0 →
      s.capture_ = capture_run lvl n → (n = 2 ∨ n = 3) → s.bit_pos_ + bs.length = 33 →
      ws.length = 2 * (bs.length + 1) → (∀ w ∈ ws, w = 2 ∨ w = 3) →
      (run_isr hw (sample_levels (manchester_in (bs ++ [true])) ws) s).data_ =
          shift_in s.data_ bs ∧
        (run_isr hw (sample_levels (manchester_in (bs ++ [true])) ws) s).mode_ =
          (if check_parity_ (shift_in s.data_ bs) then .RECEIVED else .ERROR_PROTOCOL) ∧
        (check_parity_ (shift_in s.data_ bs) = false →
          (run_isr hw (sample_levels (manchester_in (bs ++ [true])) ws) s).error_type_ =
            .PARITY_ERROR) := by
  induction bs with
  | nil =>
    intro ws s lvl n hm hc hcap hn hpos hlen hws
    match ws, hlen, hws with
    | [w1, w2], _, hws =>
      have h1 := hws w1 (by simp)
      have h2 := hws w2 (by simp)
      rw [List.nil_append, sample_levels_manchester_cons]
      simp only [manchester_in, List.flatMap_nil, sample_levels_nil, List.append_nil]
      simp only [Bool.not_true]
      exact read_stop_bit hw s lvl n w1 w2 hm hc hcap (by simpa using hpos) hn h1 h2
  | cons b bs ih =>
    intro ws s lvl n hm hc hcap hn hpos hlen hws
    match ws, hlen, hws with
    | w1 :: w2 :: ws', hlen, hws =>
      have h1 := hws w1 (by simp)
      have h2 := hws w2 (by simp)
      have hws' : ∀ w ∈ ws', w = 2 ∨ w = 3 := fun w hw => hws w (by simp [hw])
      simp only [List.length_cons] at hlen hpos
      rw [List.cons_append, sample_levels_manchester_cons, run_isr_append,
        read_data_bit hw s lvl b n w1 w2 hm hc hcap (by omega) hn h1 h2]
      exact ih ws' _ (!b) w2 hm rfl rfl h2 (by simp only []; omega) (by omega) hws'

theorem shift_in_msb (w : Nat) (k : Nat) (acc : Nat) (hacc : acc < 2 ^ 32) :
    shift_in acc ((List.range k).map fun i => w.testBit (k - 1 - i)) =
      (acc * 2 ^ k + w % 2 ^ k) % 2 ^ 32 := by
  induction k generalizing acc with
  | zero =>
    simp only [List.range_zero, List.map_nil, shift_in, List.foldl_nil, Nat.pow_zero, Nat.mod_one]
    omega
  | succ k ih =>
    rw [List.range_succ_eq_map, List.map_cons, List.map_map]
    have hfun : ((fun i => w.testBit (k + 1 - 1 - i)) ∘ Nat.succ) =
        fun i => w.testBit (k - 1 - i) := by
      funext i
      simp only [Function.comp, Nat.succ_eq_add_one]
      congr 1
      omega
    rw [hfun]
    simp only [Nat.add_sub_cancel, Nat.sub_zero]
    have hstep : shift_in acc (w.testBit k :: (List.range k).map fun i => w.testBit (k - 1 - i)) =
        shift_in (((acc <<< 1) ||| (w.testBit k).toNat) % 2 ^ 32)
          ((List.range k).map fun i => w.testBit (k - 1 - i)) := rfl
    rw [hstep]
    have hb : (w.testBit k).toNat < 2 ^ 1 := by cases w.testBit k <;> simp
    rw [shiftLeft_or_eq_add _ _ _ hb]
    have hsplit : w % 2 ^ (k + 1) = w % 2 ^ k + 2 ^ k * (w.testBit k).toNat := by
      rw [Nat.mod_pow_succ, Nat.testBit_to_div_mod]
      rcases Nat.mod_two_eq_zero_or_one (w / 2 ^ k) with h | h <;> simp [h]
    rw [ih _ (Nat.mod_lt _ (by norm_num)), hsplit, Nat.add_mod, Nat.mul_mod, Nat.mod_mod,
      ← Nat.mul_mod, ← Nat.add_mod]
    congr 1
    ring

/-- Shifting the start bit and the 32 bits of a word into the register leaves
the word: the start bit falls off the 32-bit register. -/
theorem shift_in_frame (w : Nat) (h : w < 2 ^ 32) :
    shift_in 1 ((List.range 32).map fun i => w.testBit (31 - i)) = w := by
  have h' := shift_in_msb w 32 1 (by norm_num)
  simp only [Nat.reduceSub] at h'
  rw [h']
  omega

/-- A listening decoder whose countdown has not expired, fed the ideal samples
of a transmission of the 32-bit word `w`, ends with `w` in the shift register,
in `RECEIVED` when `check_parity_` accepts `w` and with `PARITY_ERROR`
otherwise. -/
theorem read_frame (hw : TimerHw) (s : OpenTherm) (w : Nat) (widths : List Nat)
    (hm : s.mode_ = .LISTEN) (ht : s.timeout_counter_ ≠ 0) (hw32 : w < 2 ^ 32)
    (hl : widths.length = 68) (h23 : ∀ x ∈ widths, x = 2 ∨ x = 3) :
    (run_isr hw (sample_levels (manchester_in (frame_bits w)) widths) s).data_ = w ∧
      (run_isr hw (sample_levels (manchester_in (frame_bits w)) widths) s).mode_ =
        (if check_parity_ w then .RECEIVED else .ERROR_PROTOCOL) ∧
      (check_parity_ w = false →
        (run_isr hw (sample_levels (manchester_in (frame_bits w)) widths) s).error_type_ =
          .PARITY_ERROR) := by
  match widths, hl, h23 with
  | w1 :: w2 :: ws, hl, h23 =>
    have h1 := h23 w1 (by simp)
    have h2 := h23 w2 (by simp)
    have hws : ∀ x ∈ ws, x = 2 ∨ x = 3 := fun x hx => h23 x (by simp [hx])
    obtain ⟨g1, g2, g3, g4, g5⟩ := read_start_bit hw s w1 w2 hm ht h1 h2
    have key := read_frame_tail hw ((List.range 32).map fun i => w.testBit (31 - i)) ws _ false w2
      g1 g2 g3 h2 (by rw [g5]; simp) (by simp at hl ⊢; omega) hws
    rw [g4, shift_in_frame w hw32] at key
    unfold frame_bits
    rw [List.cons_append, sample_levels_manchester_cons, run_isr_append]
    simp only [Bool.not_true]
    exact key

/-! ## Frames on the wire -/

/-- The fields of a frame read back from the word `send` builds for it. -/
theorem send_fields (hw : TimerHw) (d : OpenthermData) (s : OpenTherm) (hwf : d.wf)
    (ht : d.type < 8) :
    ((send hw d s).data_ >>> 28) &&& 0x7 = d.type ∧
      ((send hw d s).data_ >>> 24) &&& 0xF = 0 ∧
      ((send hw d s).data_ >>> 16) &&& 0xFF = d.id ∧
      ((send hw d s).data_ >>> 8) &&& 0xFF = d.valueHB ∧
      (send hw d s).data_ &&& 0xFF = d.valueLB ∧
      (send hw d s).data_ &&& 0x7FFFFFFF = payload d := by
  have hp := payload_lt d hwf ht
  have hd := send_data_ hw d s hwf ht
  obtain ⟨_, h2, h3, h4⟩ := hwf
  simp only [and_7, and_15, and_255, and_mask31, Nat.shiftRight_eq_div_pow]
  generalize (send hw d s).data_ = w at hd
  unfold payload at hd hp ⊢
  split_ifs at hd <;> subst hd <;> refine ⟨?_, ?_, ?_, ?_, ?_, ?_⟩ <;> omega

theorem map_not_flatMap (bits : List Bool) :
    (bits.flatMap fun b => [!b, b]).map (fun l => !l) = manchester_in bits := by
  induction bits with
  | nil => rfl
  | cons b bs ih =>
    rw [manchester_in_cons, ← ih]
    simp [List.flatMap_cons]

theorem slot_bits_flatMap (bits : List Bool) :
    slot_bits (bits.flatMap fun b => [!b, b]) = bits := by
  induction bits with
  | nil => rfl
  | cons b bs ih =>
    have : ((b :: bs).flatMap fun b => [!b, b]) = (!b) :: b :: (bs.flatMap fun b => [!b, b]) := by
      simp [List.flatMap_cons]
    rw [this, slot_bits, ih]

theorem listen_state (hw : TimerHw) (s : OpenTherm) :
    (listen hw s).mode_ = .LISTEN ∧
      (listen hw s).timeout_counter_ = to_int32 (s.device_timeout_ * 5) ∧
      (listen hw s).data_ = 0 ∧ (listen hw s).bit_pos_ = 0 := by
  simp only [listen, start_read_timer_, start_esp32_timer__eq, stop_timer__eq]
  exact ⟨trivial, trivial, trivial, trivial⟩

/-- Conversion to `int32_t` leaves a value in the range of the type alone. -/
theorem to_int32_of_range (x : Int) (hlo : -2147483648 ≤ x) (hhi : x ≤ 2147483647) :
    to_int32 x = x := by
  unfold to_int32
  omega

theorem to_int32_mul_five_ne_zero (d : Int) (hlo : -2147483648 ≤ d) (hhi : d ≤ 2147483647)
    (hne : d ≠ 0) : to_int32 (d * 5) ≠ 0 := by
  intro hz
  unfold to_int32 at hz
  have hmod : (d * 5 + 2147483648) % 4294967296 = 2147483648 := by linarith
  have hdiv := Int.emod_add_ediv (d * 5 + 2147483648) 4294967296
  rw [hmod] at hdiv
  have h : d * 5 = 4294967296 * ((d * 5 + 2147483648) / 4294967296) := by linarith
  generalize (d * 5 + 2147483648) / 4294967296 = k at h
  have h5 : (5 : Int) ∣ 4294967296 * k := ⟨d, by rw [← h]; ring⟩
  have hk : (5 : Int) ∣ k := by
    have hc : IsCoprime (5 : Int) 4294967296 := by
      rw [Int.isCoprime_iff_gcd_eq_one]; decide
    exact hc.dvd_of_dvd_mul_left h5
  obtain ⟨j, rfl⟩ := hk
  have hd : d = 4294967296 * j := by linarith
  clear hz hmod hdiv h h5
  have hj : j = 0 := by omega
  subst hj
  simp at hd
  exact hne hd

/-- The countdown that `listen` arms is 0 only for a device timeout of 0, the
device timeout being an `int32_t`. -/
theorem listen_countdown_ne_zero (hw : TimerHw) (s : OpenTherm)
    (hlo : -2147483648 ≤ s.device_timeout_) (hhi : s.device_timeout_ ≤ 2147483647)
    (hne : s.device_timeout_ ≠ 0) : (listen hw s).timeout_counter_ ≠ 0 := by
  have h := (listen_state hw s).2.1
  rw [h]
  exact to_int32_mul_five_ne_zero _ hlo hhi hne

theorem xor_bit31 (p : Nat) (hp : p < 2 ^ 31) : (2 ^ 31 + p) ^^^ 0x80000000 = p := by
  apply Nat.eq_of_testBit_eq
  intro i
  rw [Nat.testBit_xor, show (0x80000000 : Nat) = 2 ^ 31 from rfl, Nat.testBit_two_pow]
  rcases Nat.lt_trichotomy i 31 with h | h | h
  · rw [Nat.testBit_two_pow_add_gt h]
    simp [Nat.ne_of_gt h]
  · subst h
    rw [Nat.testBit_two_pow_add_eq, Nat.testBit_lt_two_pow hp]
    simp
  · have h1 : (2 ^ 31 + p).testBit i = false :=
      Nat.testBit_lt_two_pow (lt_of_lt_of_le (show 2 ^ 31 + p < 2 ^ 32 by omega)
        (Nat.pow_le_pow_right (by norm_num) h))
    have h2 : p.testBit i = false :=
      Nat.testBit_lt_two_pow (lt_of_lt_of_le hp (Nat.pow_le_pow_right (by norm_num) (by omega)))
    rw [h1, h2]
    simp [Nat.ne_of_lt h]

/-- Once `RECEIVED`, always `RECEIVED`: a decoder that has not received a frame
after all samples has not received one after any prefix of them. -/
theorem not_received_prefix (hw : TimerHw) (samples : List Bool) (s : OpenTherm) (k : Nat)
    (h : (run_isr hw samples s).mode_ ≠ .RECEIVED) :
    (run_isr hw (samples.take k) s).mode_ ≠ .RECEIVED := by
  intro hk
  apply h
  have := run_isr_append hw (samples.take k) (samples.drop k) s
  rw [List.take_append_drop] at this
  rw [this, run_isr_terminal hw _ _ (by rw [hk]; decide) (by rw [hk]; decide)
    (by rw [hk]; decide)]
  exact hk

/-- A listening decoder whose countdown is at 0 times out on the first tick and
stays in `ERROR_TIMEOUT`. -/
theorem listen_expired (hw : TimerHw) (v : Bool) (vs : List Bool) (s : OpenTherm)
    (hm : s.mode_ = .LISTEN) (ht : s.timeout_counter_ = 0) :
    (run_isr hw (v :: vs) s).mode_ = .ERROR_TIMEOUT := by
  have h1 : (timer_isr hw v s).mode_ = .ERROR_TIMEOUT := by
    obtain ⟨mode, err, cap, clk, data, bp, tc, dt, te, tet, pin⟩ := s
    simp only at hm ht
    subst hm ht
    simp [timer_isr, stop_timer__eq]
  rw [run_isr, run_isr_terminal hw _ _ (by rw [h1]; decide) (by rw [h1]; decide)
    (by rw [h1]; decide)]
  exact h1

/-! ## Claims about the line transceiver -/

set_option maxRecDepth 100000 in
/-- With a device timeout of 0 the countdown armed by `listen` is already
expired: the decoder presented with the ideally sampled, inverted waveform of
a frame times out on its first tick, before it samples the input, and
`get_message` fails. The scheduler constructs its transceiver with the default
timeout. -/
theorem manchester_round_trip_zero_timeout :
    (run_isr timer_ok
        (sample_levels
          ((write_levels timer_ok 68
            (send timer_ok { type := 0, id := 0, valueHB := 0, valueLB := 0 }
              (OpenTherm.ctor 800))).map fun l => !l)
          ideal_widths)
        (listen timer_ok (OpenTherm.ctor 0))).mode_ = .ERROR_TIMEOUT ∧
      (get_message
        (run_isr timer_ok
          (sample_levels
            ((write_levels timer_ok 68
              (send timer_ok { type := 0, id := 0, valueHB := 0, valueLB := 0 }
                (OpenTherm.ctor 800))).map fun l => !l)
            ideal_widths)
          (listen timer_ok (OpenTherm.ctor 0)))
        { type := 0, id := 0, valueHB := 0, valueLB := 0 }).2.2 = false := by
  decide


/-- C1: Manchester round trip. For every frame `F` with message type in 0..7,
if the levels written by the 68 write ticks after `send F` are inverted and
presented to a decoder after `listen` (with the countdown that `listen` armed
not at 0, as it is for every device timeout other than 0) with every half-bit
covering 2 or 3 consecutive samples, the receiver ends in `RECEIVED` and
`get_message` succeeds with a frame equal to `F`. -/
theorem manchester_round_trip (hwt hwr : TimerHw) (tx rx : OpenTherm) (F out : OpenthermData)
    (widths : List Nat) (hwf : F.wf) (ht : F.type < 8)
    (hto : (listen hwr rx).timeout_counter_ ≠ 0)
    (hl : widths.length = 68) (h23 : ∀ x ∈ widths, x = 2 ∨ x = 3) :
    (run_isr hwr
        (sample_levels ((write_levels hwt 68 (send hwt F tx)).map fun l => !l) widths)
        (listen hwr rx)).mode_ = .RECEIVED ∧
      (get_message
        (run_isr hwr
          (sample_levels ((write_levels hwt 68 (send hwt F tx)).map fun l => !l) widths)
          (listen hwr rx)) out).2 = (F, true) := by
  obtain ⟨sm, sc, sb⟩ := send_mode_ hwt F tx
  obtain ⟨lm, -, -, -⟩ := listen_state hwr rx
  have hlt := send_data_lt hwt F tx hwf ht
  have hpar : check_parity_ (send hwt F tx).data_ = true := by
    rw [check_parity_eq _ hlt, (send_parity hwt F tx hwf ht).2]
    rfl
  rw [write_levels_waveform hwt _ _ sm sc sb rfl, map_not_flatMap]
  obtain ⟨rd, rm, -⟩ := read_frame hwr (listen hwr rx) (send hwt F tx).data_ widths lm
    hto hlt hl h23
  rw [hpar, if_pos rfl] at rm
  refine ⟨rm, ?_⟩
  obtain ⟨f1, -, f3, f4, f5, -⟩ := send_fields hwt F tx hwf ht
  simp only [get_message, rm, if_true, rd, f1, f3, f4, f5]

set_option maxRecDepth 100000 in
/-- C1, witness: the frame with type 1, id 25 and value 0x1580, sent and
received by transceivers with the default timeout of 800 ms at ideal
sampling. -/
theorem manchester_round_trip_witness :
    (OpenthermData.wf { type := 1, id := 25, valueHB := 0x15, valueLB := 0x80 } ∧
      (1 : Nat) < 8 ∧ (listen timer_ok (OpenTherm.ctor 800)).timeout_counter_ ≠ 0 ∧
      ideal_widths.length = 68 ∧ ∀ x ∈ ideal_widths, x = 2 ∨ x = 3) ∧
    ((run_isr timer_ok
        (sample_levels
          ((write_levels timer_ok 68
            (send timer_ok { type := 1, id := 25, valueHB := 0x15, valueLB := 0x80 }
              (OpenTherm.ctor 800))).map fun l => !l)
          ideal_widths)
        (listen timer_ok (OpenTherm.ctor 800))).mode_ = .RECEIVED ∧
      (get_message
        (run_isr timer_ok
          (sample_levels
            ((write_levels timer_ok 68
              (send timer_ok { type := 1, id := 25, valueHB := 0x15, valueLB := 0x80 }
                (OpenTherm.ctor 800))).map fun l => !l)
            ideal_widths)
          (listen timer_ok (OpenTherm.ctor 800)))
        { type := 0, id := 0, valueHB := 0, valueLB := 0 }).2 =
        ({ type := 1, id := 25, valueHB := 0x15, valueLB := 0x80 }, true)) :=
  ⟨⟨by decide, by decide, by decide, by decide, by decide⟩,
    manchester_round_trip timer_ok timer_ok (OpenTherm.ctor 800) (OpenTherm.ctor 800)
      { type := 1, id := 25, valueHB := 0x15, valueLB := 0x80 }
      { type := 0, id := 0, valueHB := 0, valueLB := 0 } ideal_widths (by decide) (by decide)
      (by decide) (by decide) (by decide)⟩

/-- C2: frame layout. For every frame with message type in 0..7 the word that
`send` loads into the shift register has bits 30-28 equal to the type, bits
27-24 zero, bits 23-16 equal to the id, bits 15-8 equal to `valueHB` and bits
7-0 equal to `valueLB`; with bit 31 masked off it is
`type * 2^28 + id * 2^16 + valueHB * 2^8 + valueLB`. -/
theorem send_frame_layout (hw : TimerHw) (s : OpenTherm) (F : OpenthermData) (hwf : F.wf)
    (ht : F.type < 8) :
    ((send hw F s).data_ >>> 28) &&& 0x7 = F.type ∧
      ((send hw F s).data_ >>> 24) &&& 0xF = 0 ∧
      ((send hw F s).data_ >>> 16) &&& 0xFF = F.id ∧
      ((send hw F s).data_ >>> 8) &&& 0xFF = F.valueHB ∧
      (send hw F s).data_ &&& 0xFF = F.valueLB ∧
      (send hw F s).data_ &&& 0x7FFFFFFF =
        F.type * 2 ^ 28 + F.id * 2 ^ 16 + F.valueHB * 2 ^ 8 + F.valueLB :=
  send_fields hw F s hwf ht

/-- C2, witness: the frame with type 2, id 1, `valueHB` 0x28 and `valueLB`
0x80. -/
theorem send_frame_layout_witness :
    (OpenthermData.wf { type := 2, id := 1, valueHB := 0x28, valueLB := 0x80 } ∧ (2 : Nat) < 8) ∧
    (((send timer_ok { type := 2, id := 1, valueHB := 0x28, valueLB := 0x80 }
          (OpenTherm.ctor 800)).data_ >>> 28) &&& 0x7 = 2 ∧
      ((send timer_ok { type := 2, id := 1, valueHB := 0x28, valueLB := 0x80 }
          (OpenTherm.ctor 800)).data_ >>> 24) &&& 0xF = 0 ∧
      ((send timer_ok { type := 2, id := 1, valueHB := 0x28, valueLB := 0x80 }
          (OpenTherm.ctor 800)).data_ >>> 16) &&& 0xFF = 1 ∧
      ((send timer_ok { type := 2, id := 1, valueHB := 0x28, valueLB := 0x80 }
          (OpenTherm.ctor 800)).data_ >>> 8) &&& 0xFF = 0x28 ∧
      (send timer_ok { type := 2, id := 1, valueHB := 0x28, valueLB := 0x80 }
          (OpenTherm.ctor 800)).data_ &&& 0xFF = 0x80 ∧
      (send timer_ok { type := 2, id := 1, valueHB := 0x28, valueLB := 0x80 }
          (OpenTherm.ctor 800)).data_ &&& 0x7FFFFFFF =
        2 * 2 ^ 28 + 1 * 2 ^ 16 + 0x28 * 2 ^ 8 + 0x80) :=
  ⟨⟨by decide, by decide⟩,
    send_frame_layout timer_ok (OpenTherm.ctor 800)
      { type := 2, id := 1, valueHB := 0x28, valueLB := 0x80 } (by decide) (by decide)⟩

/-- C3: `get_message` succeeds exactly in mode `RECEIVED`: there it returns
true with type = bits 30-28, id = bits 23-16, `valueHB` = bits 15-8 and
`valueLB` = bits 7-0 of the shift register; in every other mode it returns
false and leaves the output frame unchanged; the transceiver is unchanged in
both cases. -/
theorem get_message_spec (s : OpenTherm) (out : OpenthermData) :
    get_message s out =
      if s.mode_ = .RECEIVED then
        (s, { type := s.data_ / 2 ^ 28 % 8, id := s.data_ / 2 ^ 16 % 256,
              valueHB := s.data_ / 2 ^ 8 % 256, valueLB := s.data_ % 256 }, true)
      else (s, out, false) := by
  unfold get_message
  split_ifs
  · simp only [and_7, and_255, Nat.shiftRight_eq_div_pow]
  · rfl


/-- C4 (as stated, refuted): for the all-zero frame bits 0-30 of the word built
by `send` contain an even number of ones (none), yet bit 31 is clear, and the
complete word does not carry an odd number of set bits. -/
theorem send_parity_not_odd :
    count_ones 31
        (send timer_ok { type := 0, id := 0, valueHB := 0, valueLB := 0 }
          (OpenTherm.ctor 800)).data_ % 2 = 0 ∧
      (send timer_ok { type := 0, id := 0, valueHB := 0, valueLB := 0 }
          (OpenTherm.ctor 800)).data_.testBit 31 = false ∧
      count_ones 32
        (send timer_ok { type := 0, id := 0, valueHB := 0, valueLB := 0 }
          (OpenTherm.ctor 800)).data_ % 2 ≠ 1 := by
  decide

/-- C4 (amended): parity on send. For every frame with type in 0..7, bit 31 of
the word built by `send` is an even-parity bit over bits 0-30: it is set exactly
when bits 0-30 contain an odd number of ones, so that the complete 32-bit word
carries an even number of set bits. -/
theorem send_parity_even (hw : TimerHw) (s : OpenTherm) (F : OpenthermData) (hwf : F.wf)
    (ht : F.type < 8) :
    ((send hw F s).data_.testBit 31 = true ↔ count_ones 31 (send hw F s).data_ % 2 = 1) ∧
      count_ones 32 (send hw F s).data_ % 2 = 0 :=
  send_parity hw F s hwf ht

/-- C4 (amended), witness: the frame with type 0, id 1 and value 0, whose packed
fields have one set bit. -/
theorem send_parity_even_witness :
    (OpenthermData.wf { type := 0, id := 1, valueHB := 0, valueLB := 0 } ∧ (0 : Nat) < 8) ∧
    (((send timer_ok { type := 0, id := 1, valueHB := 0, valueLB := 0 }
          (OpenTherm.ctor 800)).data_.testBit 31 = true ↔
        count_ones 31 (send timer_ok { type := 0, id := 1, valueHB := 0, valueLB := 0 }
          (OpenTherm.ctor 800)).data_ % 2 = 1) ∧
      count_ones 32 (send timer_ok { type := 0, id := 1, valueHB := 0, valueLB := 0 }
        (OpenTherm.ctor 800)).data_ % 2 = 0) :=
  ⟨⟨by decide, by decide⟩,
    send_parity_even timer_ok (OpenTherm.ctor 800)
      { type := 0, id := 1, valueHB := 0, valueLB := 0 } (by decide) (by decide)⟩

/-- C5 (as stated, refuted): in the slot sequence that `send` produces for the
frame with id 0, type `READ_DATA` and value 0, the parity slot (the first data
slot) is 0, not 1. -/
theorem send_zero_frame_parity_slot :
    (slot_bits (write_levels timer_ok 68
        (send timer_ok { type := MessageType.READ_DATA, id := 0, valueHB := 0, valueLB := 0 }
          (OpenTherm.ctor 800))))[1]? = some false := by
  decide

/-- C5 (amended): for the frame with id 0, type `READ_DATA`, `valueHB` 0 and
`valueLB` 0, `send` produces a 34-slot bit sequence (start bit 1, 32 data bits,
stop bit 1) in which the parity bit and every other data bit is 0: the all-zero
payload already has even parity. -/
theorem send_zero_frame_slots (hw : TimerHw) (s : OpenTherm) :
    slot_bits (write_levels hw 68
        (send hw { type := MessageType.READ_DATA, id := 0, valueHB := 0, valueLB := 0 } s)) =
      true :: (List.replicate 32 false ++ [true]) := by
  obtain ⟨sm, sc, sb⟩ :=
    send_mode_ hw { type := MessageType.READ_DATA, id := 0, valueHB := 0, valueLB := 0 } s
  have hd := send_data_ hw { type := MessageType.READ_DATA, id := 0, valueHB := 0, valueLB := 0 }
    s (by decide) (by decide)
  rw [if_pos (by decide)] at hd
  rw [write_levels_waveform hw _ _ sm sc sb hd, slot_bits_flatMap]
  decide

/-- C6: a parity violation is rejected. For every frame (type in 0..7) whose
bits 0-30 contain an odd number of ones, take the word `send` builds and
complement its bit 31; a listening decoder (countdown not expired) fed the
ideal Manchester samples of start bit, these 32 bits and stop bit ends in
`ERROR_PROTOCOL` with `PARITY_ERROR`, is in `RECEIVED` after no prefix of the
samples, and `get_message` returns false and leaves the output frame alone. -/
theorem parity_violation_rejected (hwt hwr : TimerHw) (tx rx : OpenTherm)
    (F out : OpenthermData) (widths : List Nat) (hwf : F.wf) (ht : F.type < 8)
    (hodd : count_ones 31 (send hwt F tx).data_ % 2 = 1) (hm : rx.mode_ = .LISTEN)
    (hto : rx.timeout_counter_ ≠ 0) (hl : widths.length = 68)
    (h23 : ∀ x ∈ widths, x = 2 ∨ x = 3) :
    (run_isr hwr
        (sample_levels (manchester_in (frame_bits ((send hwt F tx).data_ ^^^ 0x80000000))) widths)
        rx).mode_ = .ERROR_PROTOCOL ∧
      (run_isr hwr
        (sample_levels (manchester_in (frame_bits ((send hwt F tx).data_ ^^^ 0x80000000))) widths)
        rx).error_type_ = .PARITY_ERROR ∧
      (∀ k : Nat,
        (run_isr hwr
          ((sample_levels
            (manchester_in (frame_bits ((send hwt F tx).data_ ^^^ 0x80000000))) widths).take k)
          rx).mode_ ≠ .RECEIVED) ∧
      (get_message
        (run_isr hwr
          (sample_levels
            (manchester_in (frame_bits ((send hwt F tx).data_ ^^^ 0x80000000))) widths)
          rx) out).2 = (out, false) := by
  have hp := payload_lt F hwf ht
  obtain ⟨hbit, -⟩ := send_parity hwt F tx hwf ht
  have hb31 := hbit.mpr hodd
  have hd := send_data_ hwt F tx hwf ht
  have hsend : (send hwt F tx).data_ = 2 ^ 31 + payload F := by
    by_cases hc : check_parity_ (payload F) = true
    · rw [if_pos hc] at hd
      rw [hd, Nat.testBit_lt_two_pow hp] at hb31
      exact absurd hb31 (by decide)
    · rw [if_neg hc] at hd
      exact hd
  have hforced : (send hwt F tx).data_ ^^^ 0x80000000 = payload F := by
    rw [hsend, xor_bit31 _ hp]
  have hcount : count_ones 31 (payload F) % 2 = 1 := by
    rw [hsend, count_ones_two_pow_add 31 31 _ le_rfl] at hodd
    exact hodd
  have hpar : check_parity_ (payload F) = false := by
    rw [check_parity_eq _ (by omega), count_ones_succ 31, Nat.testBit_lt_two_pow hp]
    simp only [Bool.toNat_false, Nat.add_zero, hcount]
    rfl
  rw [hforced]
  obtain ⟨-, rm, re⟩ := read_frame hwr rx (payload F) widths hm hto (by omega) hl h23
  rw [hpar] at rm
  simp only [Bool.false_eq_true, if_false] at rm
  have hnr : (run_isr hwr (sample_levels (manchester_in (frame_bits (payload F))) widths)
      rx).mode_ ≠ .RECEIVED := by rw [rm]; decide
  refine ⟨rm, re hpar, fun k => not_received_prefix hwr _ rx k hnr, ?_⟩
  simp only [get_message, rm]
  rfl

/-- C6, witness: the frame with type 0, id 1 and value 0 (one set bit in bits
0-30) and a decoder that has just been told to listen. -/
theorem parity_violation_rejected_witness :
    (OpenthermData.wf { type := 0, id := 1, valueHB := 0, valueLB := 0 } ∧ (0 : Nat) < 8 ∧
      count_ones 31 (send timer_ok { type := 0, id := 1, valueHB := 0, valueLB := 0 }
        (OpenTherm.ctor 800)).data_ % 2 = 1 ∧
      (listen timer_ok (OpenTherm.ctor 800)).mode_ = .LISTEN ∧
      (listen timer_ok (OpenTherm.ctor 800)).timeout_counter_ ≠ 0 ∧
      ideal_widths.length = 68 ∧ ∀ x ∈ ideal_widths, x = 2 ∨ x = 3) ∧
    ((run_isr timer_ok
        (sample_levels
          (manchester_in (frame_bits
            ((send timer_ok { type := 0, id := 1, valueHB := 0, valueLB := 0 }
              (OpenTherm.ctor 800)).data_ ^^^ 0x80000000)))
          ideal_widths)
        (listen timer_ok (OpenTherm.ctor 800))).mode_ = .ERROR_PROTOCOL ∧
      (run_isr timer_ok
        (sample_levels
          (manchester_in (frame_bits
            ((send timer_ok { type := 0, id := 1, valueHB := 0, valueLB := 0 }
              (OpenTherm.ctor 800)).data_ ^^^ 0x80000000)))
          ideal_widths)
        (listen timer_ok (OpenTherm.ctor 800))).error_type_ = .PARITY_ERROR ∧
      (∀ k : Nat,
        (run_isr timer_ok
          ((sample_levels
            (manchester_in (frame_bits
              ((send timer_ok { type := 0, id := 1, valueHB := 0, valueLB := 0 }
                (OpenTherm.ctor 800)).data_ ^^^ 0x80000000)))
            ideal_widths).take k)
          (listen timer_ok (OpenTherm.ctor 800))).mode_ ≠ .RECEIVED) ∧
      (get_message
        (run_isr timer_ok
          (sample_levels
            (manchester_in (frame_bits
              ((send timer_ok { type := 0, id := 1, valueHB := 0, valueLB := 0 }
                (OpenTherm.ctor 800)).data_ ^^^ 0x80000000)))
            ideal_widths)
          (listen timer_ok (OpenTherm.ctor 800)))
        { type := 3, id := 3, valueHB := 3, valueLB := 3 }).2 =
        ({ type := 3, id := 3, valueHB := 3, valueLB := 3 }, false)) :=
  ⟨⟨by decide, by decide, by decide, by decide, by decide, by decide, by decide⟩,
    parity_violation_rejected timer_ok timer_ok (OpenTherm.ctor 800)
      (listen timer_ok (OpenTherm.ctor 800)) { type := 0, id := 1, valueHB := 0, valueLB := 0 }
      { type := 3, id := 3, valueHB := 3, valueLB := 3 } ideal_widths (by decide) (by decide)
      (by decide) (by decide) (by decide) (by decide) (by decide)⟩

/-- C7: encode waveform. After `send F` the transceiver is in `WRITE` before
each of the next 68 timer ticks and becomes `SENT` on the 68th; with
`b = [1, d31, ..., d0, 1]` for the packed word `d`, the levels written on ticks
`2i+1` and `2i+2` are `NOT b_i` and `b_i`, so the 68 levels are the pairs
`[!b, b]` of the 34 bits in order, and the last level written leaves the line
high. -/
theorem encode_waveform (hw : TimerHw) (s : OpenTherm) (F : OpenthermData) :
    (∀ n : Fin 68, (run_ticks hw n.val (send hw F s)).mode_ = .WRITE) ∧
      (run_ticks hw 68 (send hw F s)).mode_ = .SENT ∧
      write_levels hw 68 (send hw F s) =
        ((frame_bits (send hw F s).data_).flatMap fun b => [!b, b]) ∧
      (write_levels hw 68 (send hw F s)).length = 68 ∧
      (run_ticks hw 68 (send hw F s)).isr_out_pin_ = true := by
  obtain ⟨sm, sc, sb⟩ := send_mode_ hw F s
  refine ⟨fun n => (write_invariant hw _ _ sm sc sb rfl n.val (by omega)).1,
    write_sent hw _ _ sm sc sb rfl, write_levels_waveform hw _ _ sm sc sb rfl, ?_, ?_⟩
  · rw [write_levels_eq_map, List.length_map, List.length_range]
  · rw [write_pin hw _ _ sm sc sb rfl 67 le_rfl]
    rfl

/-- C8: `stop` forces mode `IDLE` from every state and is idempotent (whatever
the timer driver answers to the first call); it does not alter the shift
register, bit position, capture or clock fields. -/
theorem stop_idle_idempotent (hw hw1 : TimerHw) (s : OpenTherm) :
    (stop hw s).mode_ = .IDLE ∧ stop hw (stop hw1 s) = stop hw s ∧
      (stop hw s).data_ = s.data_ ∧ (stop hw s).bit_pos_ = s.bit_pos_ ∧
      (stop hw s).capture_ = s.capture_ ∧ (stop hw s).clock_ = s.clock_ := by
  simp only [stop, stop_timer__eq]
  exact ⟨trivial, trivial, trivial, trivial, trivial, trivial⟩

/-! ## Claims about the conversation scheduler -/

theorem lookup_of_mem (cm : List (MessageId × Nat)) (hnd : (cm.map Prod.fst).Nodup)
    (id : MessageId) (o : Nat) (h : (id, o) ∈ cm) : cm.lookup id = some o := by
  induction cm with
  | nil => simp at h
  | cons p rest ih =>
    obtain ⟨k, v⟩ := p
    rw [List.map_cons, List.nodup_cons] at hnd
    rcases List.mem_cons.mp h with heq | hmem
    · cases heq
      simp
    · have hne : id ≠ k := by
        intro e
        subst e
        exact hnd.1 (List.mem_map.mpr ⟨(id, o), hmem, rfl⟩)
      rw [List.lookup_cons]
      have : (id == k) = false := by simpa using hne
      rw [this]
      exact ih hnd.2 hmem

theorem map_assign_keys (cm : List (MessageId × Nat)) (key : MessageId) (value : Nat) :
    (map_assign cm key value).map Prod.fst =
      if key ∈ cm.map Prod.fst then cm.map Prod.fst else cm.map Prod.fst ++ [key] := by
  induction cm with
  | nil => simp [map_assign]
  | cons p rest ih =>
    obtain ⟨k, v⟩ := p
    by_cases hk : k = key
    · subst hk
      simp [map_assign]
    · have hk' : ¬ key = k := fun e => hk e.symm
      simp only [map_assign, if_neg hk, List.map_cons, ih, List.mem_cons, hk', false_or]
      split_ifs <;> simp

/-- Assignment keeps the keys of the map distinct. -/
theorem map_assign_nodup (cm : List (MessageId × Nat)) (key : MessageId) (value : Nat)
    (hnd : (cm.map Prod.fst).Nodup) : ((map_assign cm key value).map Prod.fst).Nodup := by
  rw [map_assign_keys]
  split_ifs with h
  · exact hnd
  · exact List.Nodup.append hnd (List.nodup_singleton _) (by simpa using h)

theorem sort_by_order_perm (l : List (MessageId × Nat)) : (sort_by_order l).Perm l :=
  List.perm_insertionSort _ l

theorem sort_by_order_sorted (l : List (MessageId × Nat)) :
    (sort_by_order l).Pairwise fun a b => a.2 ≤ b.2 :=
  List.sorted_insertionSort _ l

theorem initial_pairs_mem (hub : OpenthermHub) (p : MessageId × Nat) :
    p ∈ sort_by_order (hub.configured_messages_.filter fun pair =>
        decide (pair.2 < REPEATING_MESSAGE_ORDER)) ↔
      p ∈ hub.configured_messages_ ∧ p.2 < REPEATING_MESSAGE_ORDER := by
  rw [(sort_by_order_perm _).mem_iff, List.mem_filter]
  simp

/-- C10: startup order. When the keys of the order table are distinct (it is a
map), `write_initial_messages_` outputs exactly the configured ids whose order
value is below the repeating sentinel 255, each once, in non-decreasing order
value; hence an id with a smaller order value comes out before every id with a
larger one (explicit orders ascending, ids registered without an order, value
254, after all ids with a smaller explicit order), and no repeating id is
included. -/
theorem write_initial_messages_order (hub : OpenthermHub)
    (hnd : (hub.configured_messages_.map Prod.fst).Nodup) :
    (write_initial_messages_ hub).Nodup ∧
      (∀ id : MessageId, id ∈ write_initial_messages_ hub ↔
        ∃ o, (id, o) ∈ hub.configured_messages_ ∧ o < REPEATING_MESSAGE_ORDER) ∧
      (∀ id : MessageId, id ∈ write_initial_messages_ hub ↔
        id ∈ hub.configured_messages_.map Prod.fst ∧ order_of hub id < REPEATING_MESSAGE_ORDER) ∧
      ((write_initial_messages_ hub).map (order_of hub)).Pairwise (fun a b => a ≤ b) ∧
      (∀ a b : MessageId, a ∈ write_initial_messages_ hub → b ∈ write_initial_messages_ hub →
        order_of hub a < order_of hub b →
        (write_initial_messages_ hub).indexOf a < (write_initial_messages_ hub).indexOf b) := by
  have hmem : ∀ id : MessageId, id ∈ write_initial_messages_ hub ↔
      ∃ o, (id, o) ∈ hub.configured_messages_ ∧ o < REPEATING_MESSAGE_ORDER := by
    intro id
    unfold write_initial_messages_
    simp only [List.mem_map]
    constructor
    · rintro ⟨⟨k, o⟩, hp, rfl⟩
      exact ⟨o, (initial_pairs_mem hub _).mp hp⟩
    · rintro ⟨o, h1, h2⟩
      exact ⟨(id, o), (initial_pairs_mem hub _).mpr ⟨h1, h2⟩, rfl⟩
  have horder : ∀ p : MessageId × Nat, p ∈ hub.configured_messages_ → order_of hub p.1 = p.2 := by
    intro p hp
    unfold order_of
    rw [lookup_of_mem _ hnd p.1 p.2 hp]
    rfl
  have hnodup : (write_initial_messages_ hub).Nodup := by
    unfold write_initial_messages_
    refine ((sort_by_order_perm _).map _).nodup_iff.mpr ?_
    exact List.Nodup.sublist (List.Sublist.map _ (List.filter_sublist _)) hnd
  have hpair : ((write_initial_messages_ hub).map (order_of hub)).Pairwise (fun a b => a ≤ b) := by
    unfold write_initial_messages_
    simp only [List.map_map]
    rw [List.pairwise_map]
    refine List.Pairwise.imp_of_mem ?_ (sort_by_order_sorted _)
    intro a b ha hb hab
    simp only [Function.comp]
    rw [horder a ((initial_pairs_mem hub a).mp ha).1, horder b ((initial_pairs_mem hub b).mp hb).1]
    exact hab
  refine ⟨hnodup, hmem, ?_, hpair, ?_⟩
  · intro id
    rw [hmem]
    constructor
    · rintro ⟨o, h1, h2⟩
      refine ⟨List.mem_map.mpr ⟨(id, o), h1, rfl⟩, ?_⟩
      rw [horder (id, o) h1]
      exact h2
    · rintro ⟨h1, h2⟩
      obtain ⟨⟨k, o⟩, hp, rfl⟩ := List.mem_map.mp h1
      rw [horder (k, o) hp] at h2
      exact ⟨o, hp, h2⟩
  · intro a b ha hb hlt
    by_contra hcon
    have hle : (write_initial_messages_ hub).indexOf b ≤ (write_initial_messages_ hub).indexOf a :=
      Nat.le_of_not_lt hcon
    have hia := List.indexOf_lt_length.mpr ha
    have hib := List.indexOf_lt_length.mpr hb
    rcases Nat.lt_or_eq_of_le hle with h | h
    · rw [List.pairwise_map, List.pairwise_iff_getElem] at hpair
      have := hpair _ _ hib hia h
      rw [List.getElem_indexOf hib, List.getElem_indexOf hia] at this
      omega
    · have e1 := List.getElem_indexOf hia
      have e2 := List.getElem_indexOf hib
      have : a = b := by
        rw [← e1, ← e2]
        congr 1
        exact h.symm
      subst this
      omega


/-- C10, witness: ids registered with explicit orders 2, 0 and 1 come out as the
order-0 id, the order-1 id, the order-2 id, followed by the id registered
without an order; the repeating status message is not included. -/
theorem write_initial_messages_order_witness :
    (startup_example.configured_messages_.map Prod.fst).Nodup ∧
    ((write_initial_messages_ startup_example).Nodup ∧
      (∀ id : MessageId, id ∈ write_initial_messages_ startup_example ↔
        ∃ o, (id, o) ∈ startup_example.configured_messages_ ∧ o < REPEATING_MESSAGE_ORDER) ∧
      (∀ id : MessageId, id ∈ write_initial_messages_ startup_example ↔
        id ∈ startup_example.configured_messages_.map Prod.fst ∧
          order_of startup_example id < REPEATING_MESSAGE_ORDER) ∧
      ((write_initial_messages_ startup_example).map (order_of startup_example)).Pairwise
        (fun a b => a ≤ b) ∧
      (∀ a b : MessageId, a ∈ write_initial_messages_ startup_example →
        b ∈ write_initial_messages_ startup_example →
        order_of startup_example a < order_of startup_example b →
        (write_initial_messages_ startup_example).indexOf a <
          (write_initial_messages_ startup_example).indexOf b)) ∧
    write_initial_messages_ startup_example = [25, 17, 5, 3] :=
  ⟨by decide, write_initial_messages_order startup_example (by decide), by decide⟩

/-- C9: STATUS request. `build_request_ STATUS` returns a frame with type
`READ_DATA`, id `STATUS`, `valueLB` 0 and `valueHB` whose bit 0 is `ch_enable`
and its read condition and `t_set > 0`, bit 1 `dhw_enable` and its read
condition, bit 2 `cooling_enable` and its read condition and
`cooling_control > 0`, bit 3 `otc_active` and its read condition, bit 4
`ch2_active` and its read condition and `t_set_ch2 > 0`, bit 5
`summer_mode_active` and its read condition, bit 6 `dhw_block` and its read
condition, bit 7 clear. In particular bit 0 is set when central heating is
enabled locally and read-enabled and the setpoint is positive, and clear when
the setpoint is 0 whatever the enable flags. -/
theorem build_request_status (rc : ReadConditions) (mh : MessageHandlers) (hub : OpenthermHub) :
    (build_request_ rc mh hub MessageId.STATUS).type = MessageType.READ_DATA ∧
      (build_request_ rc mh hub MessageId.STATUS).id = MessageId.STATUS ∧
      (build_request_ rc mh hub MessageId.STATUS).valueLB = 0 ∧
      (build_request_ rc mh hub MessageId.STATUS).valueHB.testBit 0 =
        (hub.ch_enable && rc.ch_enable && decide (rc.t_set > 0)) ∧
      (build_request_ rc mh hub MessageId.STATUS).valueHB.testBit 1 =
        (hub.dhw_enable && rc.dhw_enable) ∧
      (build_request_ rc mh hub MessageId.STATUS).valueHB.testBit 2 =
        (hub.cooling_enable && rc.cooling_enable && decide (rc.cooling_control > 0)) ∧
      (build_request_ rc mh hub MessageId.STATUS).valueHB.testBit 3 =
        (hub.otc_active && rc.otc_active) ∧
      (build_request_ rc mh hub MessageId.STATUS).valueHB.testBit 4 =
        (hub.ch2_active && rc.ch2_active && decide (rc.t_set_ch2 > 0)) ∧
      (build_request_ rc mh hub MessageId.STATUS).valueHB.testBit 5 =
        (hub.summer_mode_active && rc.summer_mode_active) ∧
      (build_request_ rc mh hub MessageId.STATUS).valueHB.testBit 6 =
        (hub.dhw_block && rc.dhw_block) ∧
      (build_request_ rc mh hub MessageId.STATUS).valueHB.testBit 7 = false ∧
      (hub.ch_enable = true → rc.ch_enable = true → 0 < rc.t_set →
        (build_request_ rc mh hub MessageId.STATUS).valueHB.testBit 0 = true) ∧
      (rc.t_set = 0 → (build_request_ rc mh hub MessageId.STATUS).valueHB.testBit 0 = false) := by
  have key : ∀ b0 b1 b2 b3 b4 b5 b6 : Bool,
      ((b0.toNat ||| (b1.toNat <<< 1) ||| (b2.toNat <<< 2) ||| (b3.toNat <<< 3) |||
          (b4.toNat <<< 4) ||| (b5.toNat <<< 5) ||| (b6.toNat <<< 6)) % 256).testBit 0 = b0 ∧
        ((b0.toNat ||| (b1.toNat <<< 1) ||| (b2.toNat <<< 2) ||| (b3.toNat <<< 3) |||
          (b4.toNat <<< 4) ||| (b5.toNat <<< 5) ||| (b6.toNat <<< 6)) % 256).testBit 1 = b1 ∧
        ((b0.toNat ||| (b1.toNat <<< 1) ||| (b2.toNat <<< 2) ||| (b3.toNat <<< 3) |||
          (b4.toNat <<< 4) ||| (b5.toNat <<< 5) ||| (b6.toNat <<< 6)) % 256).testBit 2 = b2 ∧
        ((b0.toNat ||| (b1.toNat <<< 1) ||| (b2.toNat <<< 2) ||| (b3.toNat <<< 3) |||
          (b4.toNat <<< 4) ||| (b5.toNat <<< 5) ||| (b6.toNat <<< 6)) % 256).testBit 3 = b3 ∧
        ((b0.toNat ||| (b1.toNat <<< 1) ||| (b2.toNat <<< 2) ||| (b3.toNat <<< 3) |||
          (b4.toNat <<< 4) ||| (b5.toNat <<< 5) ||| (b6.toNat <<< 6)) % 256).testBit 4 = b4 ∧
        ((b0.toNat ||| (b1.toNat <<< 1) ||| (b2.toNat <<< 2) ||| (b3.toNat <<< 3) |||
          (b4.toNat <<< 4) ||| (b5.toNat <<< 5) ||| (b6.toNat <<< 6)) % 256).testBit 5 = b5 ∧
        ((b0.toNat ||| (b1.toNat <<< 1) ||| (b2.toNat <<< 2) ||| (b3.toNat <<< 3) |||
          (b4.toNat <<< 4) ||| (b5.toNat <<< 5) ||| (b6.toNat <<< 6)) % 256).testBit 6 = b6 ∧
        ((b0.toNat ||| (b1.toNat <<< 1) ||| (b2.toNat <<< 2) ||| (b3.toNat <<< 3) |||
          (b4.toNat <<< 4) ||| (b5.toNat <<< 5) ||| (b6.toNat <<< 6)) % 256).testBit 7 = false := by
    decide
  obtain ⟨k0, k1, k2, k3, k4, k5, k6, k7⟩ := key
    (hub.ch_enable && rc.ch_enable && decide (rc.t_set > 0)) (hub.dhw_enable && rc.dhw_enable)
    (hub.cooling_enable && rc.cooling_enable && decide (rc.cooling_control > 0))
    (hub.otc_active && rc.otc_active)
    (hub.ch2_active && rc.ch2_active && decide (rc.t_set_ch2 > 0))
    (hub.summer_mode_active && rc.summer_mode_active) (hub.dhw_block && rc.dhw_block)
  have hb0 : (build_request_ rc mh hub MessageId.STATUS).valueHB.testBit 0 =
      (hub.ch_enable && rc.ch_enable && decide (rc.t_set > 0)) := k0
  refine ⟨rfl, rfl, rfl, k0, k1, k2, k3, k4, k5, k6, k7, ?_, ?_⟩
  · intro h1 h2 h3
    rw [hb0, h1, h2]
    simpa using h3
  · intro h
    rw [hb0, h]
    simp

/-- C9, witness: central heating enabled locally and read-enabled with a
setpoint of 21.5 sets bit 0 of the high byte; with the setpoint at 0 the bit is
clear. -/
theorem build_request_status_witness :
    (OpenthermHub.ctor.ch_enable = true ∧ (read_all (43 / 2)).ch_enable = true ∧
      0 < (read_all (43 / 2)).t_set ∧ (read_all 0).t_set = 0) ∧
    (build_request_ (read_all (43 / 2)) no_handlers OpenthermHub.ctor
        MessageId.STATUS).valueHB.testBit 0 = true ∧
    (build_request_ (read_all 0) no_handlers OpenthermHub.ctor
        MessageId.STATUS).valueHB.testBit 0 = false :=
  ⟨⟨rfl, rfl, by norm_num [read_all], rfl⟩,
    (build_request_status (read_all (43 / 2)) no_handlers OpenthermHub.ctor).2.2.2.2.2.2.2.2.2.2.2.1
      rfl rfl (by norm_num [read_all]),
    (build_request_status (read_all 0) no_handlers OpenthermHub.ctor).2.2.2.2.2.2.2.2.2.2.2.2 rfl⟩

/-! ## The scheduler tick -/

theorem stop_mode_ (hw : TimerHw) (s : OpenTherm) : (stop hw s).mode_ = .IDLE := by
  simp only [stop, stop_timer__eq]

theorem listen_mode_ (hw : TimerHw) (s : OpenTherm) : (listen hw s).mode_ = .LISTEN := by
  simp only [listen, start_read_timer_, start_esp32_timer__eq, stop_timer__eq]

/-- `stop_opentherm_` leaves the rotation alone. -/
theorem stop_opentherm_fields (env : LoopEnv) (hub : OpenthermHub) :
    (stop_opentherm_ env hub).opentherm_.mode_ = .IDLE ∧
      (stop_opentherm_ env hub).last_conversation_end_ = millis env.stop_time ∧
      (stop_opentherm_ env hub).last_conversation_start_ = hub.last_conversation_start_ ∧
      (stop_opentherm_ env hub).component_failed_ = hub.component_failed_ ∧
      (stop_opentherm_ env hub).message_iterator_ = hub.message_iterator_ ∧
      (stop_opentherm_ env hub).messages_ = hub.messages_ ∧
      (stop_opentherm_ env hub).sending_initial_ = hub.sending_initial_ ∧
      (stop_opentherm_ env hub).configured_messages_ = hub.configured_messages_ ∧
      (stop_opentherm_ env hub).sync_mode_ = hub.sync_mode_ :=
  ⟨stop_mode_ _ _, rfl, rfl, rfl, rfl, rfl, rfl, rfl, rfl⟩

/-- The id requested next, read off the rotation fields. -/
theorem requested_id_eq (hub : OpenthermHub) :
    requested_id hub =
      if hub.message_iterator_ = hub.messages_.length then
        if hub.sending_initial_ then (write_repeating_messages_ hub)[0]? else hub.messages_[0]?
      else hub.messages_[hub.message_iterator_]? := by
  unfold requested_id rotate_cursor
  split_ifs <;> rfl

/-- The id requested next depends on the rotation fields only. -/
theorem requested_id_congr (h1 h2 : OpenthermHub) (hi : h1.message_iterator_ = h2.message_iterator_)
    (hm : h1.messages_ = h2.messages_) (hs : h1.sending_initial_ = h2.sending_initial_)
    (hc : h1.configured_messages_ = h2.configured_messages_) :
    requested_id h1 = requested_id h2 := by
  rw [requested_id_eq, requested_id_eq]
  unfold write_repeating_messages_
  rw [hi, hm, hs, hc]

theorem start_conversation_eq (env : LoopEnv) (hub : OpenthermHub) (id : MessageId)
    (h : requested_id hub = some id) :
    start_conversation_ env hub =
      some { rotate_cursor hub with
        last_conversation_start_ := millis env.conv_start
        opentherm_ := send env.hw (env.before_send (build_request_ env.rc env.mh
          (rotate_cursor hub) id)) (rotate_cursor hub).opentherm_
        calls_ := { op := .send, mode := (rotate_cursor hub).opentherm_.mode_ } ::
          (rotate_cursor hub).calls_ } := by
  unfold requested_id at h
  unfold start_conversation_
  simp only [h]

theorem start_conversation_none (env : LoopEnv) (hub : OpenthermHub)
    (h : requested_id hub = none) : start_conversation_ env hub = none := by
  unfold requested_id at h
  unfold start_conversation_
  simp only [h]

theorem rotate_cursor_opentherm (hub : OpenthermHub) :
    (rotate_cursor hub).opentherm_ = hub.opentherm_ ∧ (rotate_cursor hub).calls_ = hub.calls_ ∧
      (rotate_cursor hub).configured_messages_ = hub.configured_messages_ ∧
      (rotate_cursor hub).sync_mode_ = hub.sync_mode_ ∧
      (rotate_cursor hub).component_failed_ = hub.component_failed_ ∧
      (rotate_cursor hub).last_conversation_end_ = hub.last_conversation_end_ := by
  unfold rotate_cursor
  split_ifs <;> exact ⟨rfl, rfl, rfl, rfl, rfl, rfl⟩

/-- The asynchronous tick in an error mode that can be retried. -/
theorem loop_retry (env : LoopEnv) (hub : OpenthermHub) (hs : hub.sync_mode_ = false)
    (hm : hub.opentherm_.mode_ = .ERROR_PROTOCOL ∨ hub.opentherm_.mode_ = .ERROR_TIMEOUT) :
    loop env hub = some (stop_opentherm_ env hub) := by
  unfold loop
  rcases hm with h | h <;>
    simp [hs, get_mode, h, handle_error_, handle_protocol_error_, handle_timeout_error_]

/-- The asynchronous tick with the transceiver idle. -/
theorem loop_idle (env : LoopEnv) (hub : OpenthermHub) (hs : hub.sync_mode_ = false)
    (hm : hub.opentherm_.mode_ = .IDLE) :
    loop env hub =
      if should_skip_loop_ (millis env.cur_time) hub then some { hub with last_mode_ := .IDLE }
      else (start_conversation_ env hub).map fun h => { h with last_mode_ := .IDLE } := by
  unfold loop
  simp only [hs, get_mode, hm, handle_error_]
  split_ifs <;> simp_all

/-- The synchronous tick that is skipped. -/
theorem sync_loop_skip (env : LoopEnv) (hub : OpenthermHub)
    (hk : should_skip_loop_ (millis env.cur_time) hub = true) : sync_loop_ env hub = some hub := by
  unfold sync_loop_
  split_ifs <;> simp_all

/-! ## Claims about the scheduler tick -/

/-- C12: retry on non-fatal errors. When the asynchronous `loop` observes
transceiver mode `ERROR_PROTOCOL` or `ERROR_TIMEOUT` it stops the transceiver
(mode `IDLE`), records the conversation end time, does not change the failed
mark of the component, and leaves the rotation cursor, the rotation list, the
phase flag and the order table unchanged, so the next conversation started
requests the same message id again. -/
theorem loop_error_retry (env : LoopEnv) (hub : OpenthermHub) (hs : hub.sync_mode_ = false)
    (hm : hub.opentherm_.mode_ = .ERROR_PROTOCOL ∨ hub.opentherm_.mode_ = .ERROR_TIMEOUT) :
    loop env hub = some (stop_opentherm_ env hub) ∧
      (stop_opentherm_ env hub).opentherm_.mode_ = .IDLE ∧
      (stop_opentherm_ env hub).last_conversation_end_ = millis env.stop_time ∧
      (stop_opentherm_ env hub).component_failed_ = hub.component_failed_ ∧
      (stop_opentherm_ env hub).message_iterator_ = hub.message_iterator_ ∧
      (stop_opentherm_ env hub).messages_ = hub.messages_ ∧
      (stop_opentherm_ env hub).sending_initial_ = hub.sending_initial_ ∧
      requested_id (stop_opentherm_ env hub) = requested_id hub := by
  obtain ⟨h1, h2, -, h4, h5, h6, h7, h8, -⟩ := stop_opentherm_fields env hub
  exact ⟨loop_retry env hub hs hm, h1, h2, h4, h5, h6, h7, requested_id_congr _ _ h5 h6 h7 h8⟩

set_option maxRecDepth 100000 in
/-- C12, witness: a scheduler whose transceiver timed out at a tick at time
2000. -/
theorem loop_error_retry_witness :
    ((hub_in_mode .ERROR_TIMEOUT 1000 0).sync_mode_ = false ∧
      ((hub_in_mode .ERROR_TIMEOUT 1000 0).opentherm_.mode_ = .ERROR_PROTOCOL ∨
        (hub_in_mode .ERROR_TIMEOUT 1000 0).opentherm_.mode_ = .ERROR_TIMEOUT)) ∧
    (loop (quiet_env timer_ok 2000) (hub_in_mode .ERROR_TIMEOUT 1000 0) =
        some (stop_opentherm_ (quiet_env timer_ok 2000) (hub_in_mode .ERROR_TIMEOUT 1000 0)) ∧
      (stop_opentherm_ (quiet_env timer_ok 2000)
        (hub_in_mode .ERROR_TIMEOUT 1000 0)).opentherm_.mode_ = .IDLE ∧
      (stop_opentherm_ (quiet_env timer_ok 2000)
        (hub_in_mode .ERROR_TIMEOUT 1000 0)).last_conversation_end_ =
        millis (quiet_env timer_ok 2000).stop_time ∧
      (stop_opentherm_ (quiet_env timer_ok 2000)
        (hub_in_mode .ERROR_TIMEOUT 1000 0)).component_failed_ =
        (hub_in_mode .ERROR_TIMEOUT 1000 0).component_failed_ ∧
      (stop_opentherm_ (quiet_env timer_ok 2000)
        (hub_in_mode .ERROR_TIMEOUT 1000 0)).message_iterator_ =
        (hub_in_mode .ERROR_TIMEOUT 1000 0).message_iterator_ ∧
      (stop_opentherm_ (quiet_env timer_ok 2000) (hub_in_mode .ERROR_TIMEOUT 1000 0)).messages_ =
        (hub_in_mode .ERROR_TIMEOUT 1000 0).messages_ ∧
      (stop_opentherm_ (quiet_env timer_ok 2000)
        (hub_in_mode .ERROR_TIMEOUT 1000 0)).sending_initial_ =
        (hub_in_mode .ERROR_TIMEOUT 1000 0).sending_initial_ ∧
      requested_id (stop_opentherm_ (quiet_env timer_ok 2000)
        (hub_in_mode .ERROR_TIMEOUT 1000 0)) =
        requested_id (hub_in_mode .ERROR_TIMEOUT 1000 0)) :=
  ⟨⟨by decide, by decide⟩,
    loop_error_retry (quiet_env timer_ok 2000) (hub_in_mode .ERROR_TIMEOUT 1000 0) (by decide)
      (by decide)⟩

set_option maxRecDepth 100000 in
/-- C13 (the code at the failing input): when `timer_start` fails inside `send`
the failure is recorded in the timer error fields but the transceiver is in
mode `WRITE`, not `ERROR_TIMER`, and the next scheduler tick does not mark the
component failed; the same holds for `listen` (mode `LISTEN`) and `stop` (mode
`IDLE`), whatever the timer driver answers, and no timer tick ever enters
`ERROR_TIMER`. -/
theorem timer_failure_not_error_timer :
    (send timer_start_fails { type := 0, id := 0, valueHB := 0, valueLB := 0 }
        (OpenTherm.ctor 800)).mode_ = .WRITE ∧
      (send timer_start_fails { type := 0, id := 0, valueHB := 0, valueLB := 0 }
        (OpenTherm.ctor 800)).timer_error_type_ = .TIMER_START_ERROR ∧
      ((loop (quiet_env timer_start_fails 10) (hub_in_mode .IDLE 0 0)).bind
          (loop (quiet_env timer_start_fails 11))).map
        (fun h => (h.opentherm_.mode_, h.opentherm_.timer_error_type_, h.component_failed_)) =
        some (.WRITE, .TIMER_START_ERROR, false) ∧
      (∀ (hw : TimerHw) (F : OpenthermData) (s : OpenTherm),
        (send hw F s).mode_ = .WRITE ∧ (listen hw s).mode_ = .LISTEN ∧
          (stop hw s).mode_ = .IDLE) ∧
      (∀ (hw : TimerHw) (v : Bool) (s : OpenTherm),
        (timer_isr hw v s).mode_ = .ERROR_TIMER → s.mode_ = .ERROR_TIMER) := by
  refine ⟨by decide, by decide, by decide, ?_, ?_⟩
  · intro hw F s
    exact ⟨(send_mode_ hw F s).1, listen_mode_ hw s, stop_mode_ hw s⟩
  · intro hw v s h
    obtain ⟨mode, err, cap, clk, data, bp, tc, dt, te, tet, pin⟩ := s
    cases mode <;> simp only [timer_isr, stop_timer__eq, read_, start_read_timer_,
      start_esp32_timer__eq, bit_read_, write_bit_, verify_stop_bit_] at h ⊢ <;>
      (try split_ifs at h) <;> simp_all


set_option maxRecDepth 100000 in
/-- C15 (as stated, refuted): an end time of 0 is recorded when a conversation
is stopped while `millis()` reads 0 (here at the wrap of the 32-bit counter);
50 ms later the difference to the recorded end time is below 100 ms, yet the
tick with the transceiver idle starts a conversation: the transceiver is in
`WRITE`, the start timestamp is 50 and `send` was called. -/
theorem skip_fails_for_end_time_zero :
    (loop (quiet_env timer_ok 4294967296) (hub_in_mode .ERROR_TIMEOUT 4294967000 0)).map
        (fun h => (h.opentherm_.mode_, h.last_conversation_end_)) = some (.IDLE, 0) ∧
      u32_sub (millis 50) 0 < 100 ∧
      ((loop (quiet_env timer_ok 4294967296) (hub_in_mode .ERROR_TIMEOUT 4294967000 0)).bind
          (loop (quiet_env timer_ok 50))).map
        (fun h => (h.opentherm_.mode_, h.last_conversation_start_, h.calls_.head?)) =
        some (.WRITE, 50, some { op := .send, mode := .IDLE }) := by
  decide

/-- C15 (amended): minimum gap. For every current time and every recorded end
time other than 0 with (current - end) < 100 ms in 32-bit arithmetic, a
scheduler tick with the transceiver `IDLE` does not start a conversation: in
synchronous mode it changes nothing, in asynchronous mode it only sets
`last_mode_` to `IDLE`, so the cursor, the rotation list, the phase flag, both
conversation timestamps and the transceiver are unchanged; a further tick under
the same condition changes nothing at all. -/
theorem loop_skip_idempotent (env env2 : LoopEnv) (hub : OpenthermHub)
    (hm : hub.opentherm_.mode_ = .IDLE) (hend : 0 < hub.last_conversation_end_)
    (hgap : u32_sub (millis env.cur_time) hub.last_conversation_end_ < 100)
    (hgap2 : u32_sub (millis env2.cur_time) hub.last_conversation_end_ < 100) :
    loop env hub = some (if hub.sync_mode_ then hub else { hub with last_mode_ := .IDLE }) ∧
      loop env2 (if hub.sync_mode_ then hub else { hub with last_mode_ := .IDLE }) =
        some (if hub.sync_mode_ then hub else { hub with last_mode_ := .IDLE }) := by
  have hk : should_skip_loop_ (millis env.cur_time) hub = true := by
    simp [should_skip_loop_, hend, hgap]
  have hk2 : should_skip_loop_ (millis env2.cur_time) hub = true := by
    simp [should_skip_loop_, hend, hgap2]
  by_cases hsync : hub.sync_mode_ = true
  · rw [if_pos hsync]
    unfold loop
    rw [if_pos hsync, if_pos hsync]
    exact ⟨sync_loop_skip env hub hk, sync_loop_skip env2 hub hk2⟩
  · rw [if_neg hsync]
    have hsync' : hub.sync_mode_ = false := by simpa using hsync
    have hk3 : should_skip_loop_ (millis env2.cur_time) { hub with last_mode_ := .IDLE } = true :=
      hk2
    rw [loop_idle env hub hsync' hm, if_pos hk,
      loop_idle env2 { hub with last_mode_ := .IDLE } hsync' hm, if_pos hk3]
    exact ⟨rfl, rfl⟩

set_option maxRecDepth 100000 in
/-- C15 (amended), witness: a conversation ended at 1000 ms, ticks at 1050 ms
and 1090 ms. -/
theorem loop_skip_idempotent_witness :
    ((hub_in_mode .IDLE 900 1000).opentherm_.mode_ = .IDLE ∧
      0 < (hub_in_mode .IDLE 900 1000).last_conversation_end_ ∧
      u32_sub (millis (quiet_env timer_ok 1050).cur_time)
        (hub_in_mode .IDLE 900 1000).last_conversation_end_ < 100 ∧
      u32_sub (millis (quiet_env timer_ok 1090).cur_time)
        (hub_in_mode .IDLE 900 1000).last_conversation_end_ < 100) ∧
    (loop (quiet_env timer_ok 1050) (hub_in_mode .IDLE 900 1000) =
        some (if (hub_in_mode .IDLE 900 1000).sync_mode_ then hub_in_mode .IDLE 900 1000
          else { hub_in_mode .IDLE 900 1000 with last_mode_ := .IDLE }) ∧
      loop (quiet_env timer_ok 1090)
          (if (hub_in_mode .IDLE 900 1000).sync_mode_ then hub_in_mode .IDLE 900 1000
            else { hub_in_mode .IDLE 900 1000 with last_mode_ := .IDLE }) =
        some (if (hub_in_mode .IDLE 900 1000).sync_mode_ then hub_in_mode .IDLE 900 1000
          else { hub_in_mode .IDLE 900 1000 with last_mode_ := .IDLE })) :=
  ⟨⟨by decide, by decide, by decide, by decide⟩,
    loop_skip_idempotent (quiet_env timer_ok 1050) (quiet_env timer_ok 1090)
      (hub_in_mode .IDLE 900 1000) (by decide) (by decide) (by decide) (by decide)⟩

set_option maxRecDepth 100000 in
/-- C16 (as stated, refuted): the previous conversation started at 1000 ms and
ended at 1500 ms; at 3000 ms the gap of 100 ms has elapsed and the 1150 ms
budget since the last start is exceeded (the warning is logged), yet the
asynchronous tick with the transceiver idle starts the next conversation. -/
theorem start_despite_exceeded_budget :
    u32_sub (millis 3000) (hub_in_mode .IDLE 1000 1500).last_conversation_end_ ≥ 100 ∧
      u32_sub (millis 3000) (hub_in_mode .IDLE 1000 1500).last_conversation_start_ > 1150 ∧
      check_timings_ (millis 3000) (hub_in_mode .IDLE 1000 1500) = true ∧
      (loop (quiet_env timer_ok 3000) (hub_in_mode .IDLE 1000 1500)).map
        (fun h => (h.opentherm_.mode_, h.last_conversation_start_, h.calls_.head?)) =
        some (.WRITE, 3000, some { op := .send, mode := .IDLE }) := by
  decide

/-- C16 (amended): start condition in `IDLE`. In asynchronous mode with the
transceiver `IDLE` the tick starts the next conversation exactly when it is not
the case that an end time other than 0 is recorded and less than 100 ms (32-bit
difference) have elapsed since; otherwise it only sets `last_mode_`. Whether
the 1150 ms budget since the last conversation start is exceeded
(`check_timings_`, which logs the warning) has no part in the condition. -/
theorem loop_idle_start_condition (env : LoopEnv) (hub : OpenthermHub)
    (hs : hub.sync_mode_ = false) (hm : hub.opentherm_.mode_ = .IDLE) :
    loop env hub =
      if 0 < hub.last_conversation_end_ ∧
          u32_sub (millis env.cur_time) hub.last_conversation_end_ < 100 then
        some { hub with last_mode_ := .IDLE }
      else (start_conversation_ env hub).map fun h => { h with last_mode_ := .IDLE } := by
  rw [loop_idle env hub hs hm]
  by_cases h : 0 < hub.last_conversation_end_ ∧
      u32_sub (millis env.cur_time) hub.last_conversation_end_ < 100
  · rw [if_pos h, if_pos (by simp [should_skip_loop_, h.1, h.2])]
  · rw [if_neg h, if_neg]
    simp only [should_skip_loop_, Bool.and_eq_true, decide_eq_true_eq]
    exact h

set_option maxRecDepth 100000 in
/-- C16 (amended), witness: the tick at 3000 ms after a conversation that
started at 1000 ms and ended at 1500 ms. -/
theorem loop_idle_start_condition_witness :
    ((hub_in_mode .IDLE 1000 1500).sync_mode_ = false ∧
      (hub_in_mode .IDLE 1000 1500).opentherm_.mode_ = .IDLE) ∧
    loop (quiet_env timer_ok 3000) (hub_in_mode .IDLE 1000 1500) =
      if 0 < (hub_in_mode .IDLE 1000 1500).last_conversation_end_ ∧
          u32_sub (millis (quiet_env timer_ok 3000).cur_time)
            (hub_in_mode .IDLE 1000 1500).last_conversation_end_ < 100 then
        some { hub_in_mode .IDLE 1000 1500 with last_mode_ := .IDLE }
      else (start_conversation_ (quiet_env timer_ok 3000) (hub_in_mode .IDLE 1000 1500)).map
        fun h => { h with last_mode_ := .IDLE } :=
  ⟨⟨by decide, by decide⟩,
    loop_idle_start_condition (quiet_env timer_ok 3000) (hub_in_mode .IDLE 1000 1500)
      (by decide) (by decide)⟩

/-! ## Requests and payloads -/

/-- An entity write touches the two value bytes only. -/
theorem entity_write_type_id (w : EntityWrite) (d : OpenthermData) :
    (w.apply d).type = d.type ∧ (w.apply d).id = d.id := by
  cases w <;> exact ⟨rfl, rfl⟩

theorem entity_writes_type_id (ws : List EntityWrite) (d : OpenthermData) :
    (ws.foldl (fun data w => w.apply data) d).type = d.type ∧
      (ws.foldl (fun data w => w.apply data) d).id = d.id := by
  induction ws generalizing d with
  | nil => exact ⟨rfl, rfl⟩
  | cons w ws ih =>
    rw [List.foldl_cons]
    obtain ⟨h1, h2⟩ := ih (w.apply d)
    obtain ⟨g1, g2⟩ := entity_write_type_id w d
    exact ⟨h1.trans g1, h2.trans g2⟩

/-- Conversion to `int16_t` leaves a value in the range of the type alone. -/
theorem to_int16_of_range (x : Int) (hlo : -32768 ≤ x) (hhi : x ≤ 32767) : to_int16 x = x := by
  unfold to_int16
  omega

/-- Writing a signed 16-bit value and reading it back. -/
theorem s16_set_s16 (x : Int) (d : OpenthermData) (hlo : -32768 ≤ x) (hhi : x ≤ 32767) :
    (d.s16_set x).s16 = x := by
  unfold OpenthermData.s16_set OpenthermData.s16
  simp only []
  have hLB : (x % 256).toNat < 2 ^ 8 := by omega
  rw [shiftLeft_or_eq_add _ _ _ hLB]
  unfold to_int16
  push_cast
  omega

theorem trunc_intCast (n : Int) : trunc (n : Rat) = n := by
  unfold trunc
  split_ifs <;> simp

/-- Truncation moves toward zero by less than 1. -/
theorem trunc_spec (q : Rat) :
    |(trunc q : Rat) - q| < 1 ∧ ((trunc q : Rat) = q ↔ ∃ n : Int, q = n) ∧
      (∀ lo hi : Int, lo ≤ 0 → 0 ≤ hi → (lo : Rat) ≤ q → q ≤ hi → lo ≤ trunc q ∧ trunc q ≤ hi) := by
  unfold trunc
  split_ifs with h
  · have h1 := Int.floor_le q
    have h2 := Int.lt_floor_add_one q
    refine ⟨?_, ?_, ?_⟩
    · rw [abs_lt]; constructor <;> linarith
    · constructor
      · intro e; exact ⟨⌊q⌋, e.symm⟩
      · rintro ⟨n, rfl⟩; simp
    · intro lo hi hlo hhi h3 h4
      have h5 : (0 : Int) ≤ ⌊q⌋ := Int.floor_nonneg.mpr h
      have h6 : ⌊q⌋ ≤ hi := by
        have : (⌊q⌋ : Rat) ≤ hi := le_trans h1 h4
        exact_mod_cast this
      omega
  · have hq : q < 0 := lt_of_not_le h
    have h1 := Int.le_ceil q
    have h2 := Int.ceil_lt_add_one q
    refine ⟨?_, ?_, ?_⟩
    · rw [abs_lt]; constructor <;> linarith
    · constructor
      · intro e; exact ⟨⌈q⌉, e.symm⟩
      · rintro ⟨n, rfl⟩; simp
    · intro lo hi hlo hhi h3 h4
      have h5 : ⌈q⌉ ≤ 0 := Int.ceil_le.mpr (by simpa using hq.le)
      have h6 : lo ≤ ⌈q⌉ := by
        have : (lo : Rat) ≤ ⌈q⌉ := le_trans h3 h1
        exact_mod_cast this
      omega

/-- C19: 8.8 fixed point over exact rational arithmetic with truncation toward
zero. For every `v` with `v * 256` in the `int16_t` range, `f88(v)` stores
`trunc(v * 256)` as a signed 16-bit value in `valueHB:valueLB` (type and id
untouched), `f88()` returns that value divided by 256, the decoded value is
within 1/256 of `v`, and it equals `v` exactly when `v * 256` is an integer. -/
theorem f88_round_trip (v : Rat) (d : OpenthermData) (hlo : -32768 ≤ v * 256)
    (hhi : v * 256 ≤ 32767) :
    (d.f88_set v).s16 = trunc (v * 256) ∧
      (d.f88_set v).valueHB = ((trunc (v * 256) / 256) % 256).toNat ∧
      (d.f88_set v).valueLB = (trunc (v * 256) % 256).toNat ∧
      (d.f88_set v).f88 = (trunc (v * 256) : Rat) / 256 ∧
      |(d.f88_set v).f88 - v| < 1 / 256 ∧
      ((d.f88_set v).f88 = v ↔ ∃ n : Int, v * 256 = n) ∧
      (d.f88_set v).type = d.type ∧ (d.f88_set v).id = d.id := by
  obtain ⟨h1, h2, h3⟩ := trunc_spec (v * 256)
  obtain ⟨r1, r2⟩ := h3 (-32768) 32767 (by norm_num) (by norm_num) (by exact_mod_cast hlo)
    (by exact_mod_cast hhi)
  have e16 : to_int16 (trunc (v * 256)) = trunc (v * 256) := to_int16_of_range _ r1 r2
  have hs : (d.f88_set v).s16 = trunc (v * 256) := by
    unfold OpenthermData.f88_set
    rw [e16]
    exact s16_set_s16 _ d r1 r2
  have hf : (d.f88_set v).f88 = (trunc (v * 256) : Rat) / 256 := by
    unfold OpenthermData.f88
    rw [hs]
  refine ⟨hs, ?_, ?_, hf, ?_, ?_, rfl, rfl⟩
  · unfold OpenthermData.f88_set OpenthermData.s16_set
    rw [e16]
  · unfold OpenthermData.f88_set OpenthermData.s16_set
    rw [e16]
  · rw [hf]
    have : (trunc (v * 256) : Rat) / 256 - v = ((trunc (v * 256) : Rat) - v * 256) / 256 := by ring
    rw [this, abs_div]
    have h256 : |(256 : Rat)| = 256 := abs_of_pos (by norm_num)
    rw [h256]
    exact div_lt_div_of_pos_right h1 (by norm_num)
  · rw [hf, ← h2]
    constructor
    · intro h
      field_simp at h
      linarith
    · intro h
      rw [h]
      field_simp

/-- C19, witness: encoding 21.5 stores raw 5504 (`valueHB` 0x15, `valueLB`
0x80) and decodes to exactly 21.5; encoding 21.51 decodes to a value within
1/256 of 21.51. -/
theorem f88_round_trip_witness :
    ((-32768 : Rat) ≤ 43 / 2 * 256 ∧ (43 / 2 : Rat) * 256 ≤ 32767 ∧
      (-32768 : Rat) ≤ 2151 / 100 * 256 ∧ (2151 / 100 : Rat) * 256 ≤ 32767) ∧
    ((OpenthermData.f88_set (43 / 2) { type := 2, id := 1, valueHB := 0, valueLB := 0 }).s16 =
        5504 ∧
      (OpenthermData.f88_set (43 / 2) { type := 2, id := 1, valueHB := 0, valueLB := 0 }) =
        { type := 2, id := 1, valueHB := 0x15, valueLB := 0x80 } ∧
      (OpenthermData.f88_set (43 / 2) { type := 2, id := 1, valueHB := 0, valueLB := 0 }).f88 =
        43 / 2 ∧
      |(OpenthermData.f88_set (2151 / 100)
          { type := 2, id := 1, valueHB := 0, valueLB := 0 }).f88 - 2151 / 100| < 1 / 256) := by
  have ht : trunc (43 / 2 * 256) = 5504 := by
    have : (43 / 2 * 256 : Rat) = ((5504 : Int) : Rat) := by norm_num
    rw [this, trunc_intCast]
  have a := f88_round_trip (43 / 2) { type := 2, id := 1, valueHB := 0, valueLB := 0 }
    (by norm_num) (by norm_num)
  have b := f88_round_trip (2151 / 100) { type := 2, id := 1, valueHB := 0, valueLB := 0 }
    (by norm_num) (by norm_num)
  obtain ⟨a1, a2, a3, -, -, a6, a7, a8⟩ := a
  rw [ht] at a1 a2 a3
  refine ⟨⟨by norm_num, by norm_num, by norm_num, by norm_num⟩, a1, ?_, ?_, b.2.2.2.2.1⟩
  · have e : ∀ x y : OpenthermData, x.type = y.type → x.id = y.id → x.valueHB = y.valueHB →
        x.valueLB = y.valueLB → x = y := by
      intro x y h1 h2 h3 h4
      cases x; cases y; simp_all
    exact e _ _ a7 a8 (by rw [a2]; decide) (by rw [a3]; decide)
  · exact a6.mpr ⟨5504, by norm_num⟩

/-! ## The order table -/

theorem lookup_map_assign (cm : List (MessageId × Nat)) (key : MessageId) (value : Nat)
    (id : MessageId) :
    (map_assign cm key value).lookup id = if id = key then some value else cm.lookup id := by
  induction cm with
  | nil =>
    by_cases h : id = key
    · subst h; simp [map_assign]
    · have : (id == key) = false := by simpa using h
      simp [map_assign, List.lookup_cons, this, h]
  | cons p rest ih =>
    obtain ⟨k, v⟩ := p
    by_cases hk : k = key
    · subst hk
      by_cases h : id = k
      · subst h; simp [map_assign]
      · have : (id == k) = false := by simpa using h
        simp [map_assign, List.lookup_cons, this, h]
    · by_cases h : id = k
      · subst h
        have hne : ¬ id = key := hk
        simp [map_assign, hk, hne]
      · have : (id == k) = false := by simpa using h
        simp only [map_assign, if_neg hk, List.lookup_cons, this, ih]

theorem map_assign_values (cm : List (MessageId × Nat)) (key : MessageId) (value : Nat)
    (hv : value < 256) (hcm : ∀ p ∈ cm, p.2 < 256) : ∀ p ∈ map_assign cm key value, p.2 < 256 := by
  induction cm with
  | nil =>
    intro p hp
    simp only [map_assign, List.mem_singleton] at hp
    subst hp
    exact hv
  | cons q rest ih =>
    obtain ⟨k, v⟩ := q
    intro p hp
    by_cases hk : k = key
    · simp only [map_assign, if_pos hk, List.mem_cons] at hp
      rcases hp with rfl | hp
      · exact hv
      · exact hcm p (List.mem_cons_of_mem _ hp)
    · simp only [map_assign, if_neg hk, List.mem_cons] at hp
      rcases hp with rfl | hp
      · exact hcm _ (List.mem_cons_self _ _)
      · exact ih (fun p hp => hcm p (List.mem_cons_of_mem _ hp)) p hp

theorem registration_call_table (r : Registration) (hub : OpenthermHub) :
    (r.call hub).configured_messages_ =
      map_assign hub.configured_messages_ r.message_id r.order := by
  cases r <;> rfl

theorem registration_order_lt (r : Registration) : r.order < 256 := by
  cases r with
  | initial id => exact (by decide : INITIAL_UNORDERED_MESSAGE_ORDER < 256)
  | initial_order id order => exact Nat.mod_lt _ (by norm_num)
  | repeating id => exact (by decide : REPEATING_MESSAGE_ORDER < 256)

theorem register_all_snoc (regs : List Registration) (r : Registration) (hub : OpenthermHub) :
    register_all (regs ++ [r]) hub = r.call (register_all regs hub) := by
  unfold register_all
  rw [List.foldl_append]
  rfl

theorem last_registered_snoc (regs : List Registration) (r : Registration) (id : MessageId) :
    last_registered (regs ++ [r]) id =
      if id = r.message_id then some r.order else last_registered regs id := by
  unfold last_registered
  rw [List.reverse_append, List.reverse_singleton, List.singleton_append, List.find?_cons]
  by_cases h : id = r.message_id
  · subst h; simp
  · have h' : ¬ r.message_id = id := fun e => h e.symm
    simp [h, h']

/-- The order table after any sequence of registrations: distinct keys, byte
values, the keys are the registered ids and each holds the order of its last
registration. -/
theorem registered_table (regs : List Registration) (hub : OpenthermHub) :
    ((registered regs hub).configured_messages_.map Prod.fst).Nodup ∧
      (∀ p ∈ (registered regs hub).configured_messages_, p.2 < 256) ∧
      (∀ id, (registered regs hub).configured_messages_.lookup id = last_registered regs id) ∧
      (∀ id, id ∈ (registered regs hub).configured_messages_.map Prod.fst ↔
        ∃ r ∈ regs, r.message_id = id) := by
  unfold registered
  induction regs using List.reverseRecOn with
  | nil =>
    refine ⟨List.nodup_nil, ?_, ?_, ?_⟩
    · intro p hp; simp [register_all] at hp
    · intro id; rfl
    · intro id; simp [register_all]
  | append_singleton regs r ih =>
    obtain ⟨h1, h2, h3, h4⟩ := ih
    rw [register_all_snoc, registration_call_table]
    refine ⟨map_assign_nodup _ _ _ h1, map_assign_values _ _ _ (registration_order_lt r) h2, ?_, ?_⟩
    · intro id
      rw [lookup_map_assign, last_registered_snoc, h3]
    · intro id
      rw [map_assign_keys]
      split_ifs with hmem
      · rw [h4]
        constructor
        · rintro ⟨r', hr', e⟩
          exact ⟨r', List.mem_append_left _ hr', e⟩
        · rintro ⟨r', hr', e⟩
          rcases List.mem_append.mp hr' with h | h
          · exact ⟨r', h, e⟩
          · simp only [List.mem_singleton] at h
            subst h
            rw [← e]
            exact (h4 _).mp hmem
      · rw [List.mem_append, h4]
        constructor
        · rintro (⟨r', hr', e⟩ | h)
          · exact ⟨r', List.mem_append_left _ hr', e⟩
          · simp only [List.mem_singleton] at h
            exact ⟨r, by simp, h.symm⟩
        · rintro ⟨r', hr', e⟩
          rcases List.mem_append.mp hr' with h | h
          · exact Or.inl ⟨r', h, e⟩
          · simp only [List.mem_singleton] at h
            subst h
            exact Or.inr (by simp [e])

theorem initial_messages_mem (hub : OpenthermHub) (id : MessageId) :
    id ∈ write_initial_messages_ hub ↔
      ∃ o, (id, o) ∈ hub.configured_messages_ ∧ o < REPEATING_MESSAGE_ORDER := by
  unfold write_initial_messages_
  simp only [List.mem_map]
  constructor
  · rintro ⟨⟨k, o⟩, hp, rfl⟩
    exact ⟨o, (initial_pairs_mem hub _).mp hp⟩
  · rintro ⟨o, h1, h2⟩
    exact ⟨(id, o), (initial_pairs_mem hub _).mpr ⟨h1, h2⟩, rfl⟩

theorem repeating_messages_mem (hub : OpenthermHub) (id : MessageId) :
    id ∈ write_repeating_messages_ hub ↔ (id, REPEATING_MESSAGE_ORDER) ∈ hub.configured_messages_ := by
  unfold write_repeating_messages_
  simp only [List.mem_map, List.mem_filter, decide_eq_true_eq]
  constructor
  · rintro ⟨⟨k, o⟩, ⟨hp, ho⟩, rfl⟩
    simp only at ho
    subst ho
    exact hp
  · intro h
    exact ⟨(id, REPEATING_MESSAGE_ORDER), ⟨h, rfl⟩, rfl⟩

theorem initial_messages_nodup (hub : OpenthermHub)
    (hnd : (hub.configured_messages_.map Prod.fst).Nodup) : (write_initial_messages_ hub).Nodup := by
  unfold write_initial_messages_
  refine ((sort_by_order_perm _).map _).nodup_iff.mpr ?_
  exact List.Nodup.sublist (List.Sublist.map _ (List.filter_sublist _)) hnd

theorem repeating_messages_nodup (hub : OpenthermHub)
    (hnd : (hub.configured_messages_.map Prod.fst).Nodup) :
    (write_repeating_messages_ hub).Nodup := by
  unfold write_repeating_messages_
  exact List.Nodup.sublist (List.Sublist.map _ (List.filter_sublist _)) hnd

theorem initial_repeating_disjoint (hub : OpenthermHub)
    (hnd : (hub.configured_messages_.map Prod.fst).Nodup) (id : MessageId)
    (h1 : id ∈ write_initial_messages_ hub) : id ∉ write_repeating_messages_ hub := by
  intro h2
  obtain ⟨o, hp, ho⟩ := (initial_messages_mem hub id).mp h1
  have hq := (repeating_messages_mem hub id).mp h2
  have e1 := lookup_of_mem _ hnd id o hp
  have e2 := lookup_of_mem _ hnd id _ hq
  rw [e1] at e2
  cases e2
  exact absurd ho (lt_irrefl _)

/-- C20: order-table invariant. After any sequence of `add_initial_message` and
`add_repeating_message` calls on an empty table, the table holds exactly one
order value per configured id, the one of the last registration for that id;
the lists produced by `write_initial_messages_` and `write_repeating_messages_`
have no duplicates, are disjoint, and together contain every configured id
exactly once. -/
theorem order_table_invariant (regs : List Registration) (hub : OpenthermHub) :
    ((registered regs hub).configured_messages_.map Prod.fst).Nodup ∧
      (∀ id, (registered regs hub).configured_messages_.lookup id = last_registered regs id) ∧
      (∀ id, id ∈ (registered regs hub).configured_messages_.map Prod.fst ↔
        ∃ r ∈ regs, r.message_id = id) ∧
      (write_initial_messages_ (registered regs hub)).Nodup ∧
      (write_repeating_messages_ (registered regs hub)).Nodup ∧
      (∀ id, id ∈ write_initial_messages_ (registered regs hub) →
        id ∉ write_repeating_messages_ (registered regs hub)) ∧
      (write_initial_messages_ (registered regs hub) ++
        write_repeating_messages_ (registered regs hub)).Nodup ∧
      (∀ id, id ∈ write_initial_messages_ (registered regs hub) ++
          write_repeating_messages_ (registered regs hub) ↔
        ∃ r ∈ regs, r.message_id = id) := by
  obtain ⟨h1, h2, h3, h4⟩ := registered_table regs hub
  have hi := initial_messages_nodup _ h1
  have hr := repeating_messages_nodup _ h1
  have hd := initial_repeating_disjoint _ h1
  refine ⟨h1, h3, h4, hi, hr, hd, ?_, ?_⟩
  · exact List.Nodup.append hi hr (fun id a b => hd id a b)
  · intro id
    rw [← h4, List.mem_append, initial_messages_mem, repeating_messages_mem, List.mem_map]
    constructor
    · rintro (⟨o, hp, -⟩ | hp)
      · exact ⟨(id, o), hp, rfl⟩
      · exact ⟨(id, _), hp, rfl⟩
    · rintro ⟨⟨k, o⟩, hp, rfl⟩
      have ho := h2 _ hp
      simp only at ho ⊢
      by_cases h255 : o = REPEATING_MESSAGE_ORDER
      · subst h255
        exact Or.inr hp
      · refine Or.inl ⟨o, hp, ?_⟩
        unfold REPEATING_MESSAGE_ORDER at h255 ⊢
        omega

/-! ## The rotation -/

theorem getElem?_eq_some_getD (l : List MessageId) (i : Nat) (h : i < l.length) :
    l[i]? = some (l.getD i 0) := by
  rw [List.getD_eq_getElem?_getD, List.getElem?_eq_getElem h]
  rfl

theorem succ_mod_cases (m L : Nat) :
    (m % L + 1 < L → (m + 1) % L = m % L + 1) ∧ (m % L + 1 = L → (m + 1) % L = 0) := by
  have hdm := Nat.div_add_mod m L
  constructor
  · intro h
    conv_lhs => rw [← hdm]
    rw [Nat.add_assoc, Nat.mul_add_mod, Nat.mod_eq_of_lt h]
  · intro h
    have e : m + 1 = L * (m / L + 1) := by
      rw [Nat.mul_add, Nat.mul_one]
      omega
    rw [e, Nat.mul_mod_right]

theorem rotate_cursor_fields (h : OpenthermHub) :
    (rotate_cursor h).message_iterator_ =
        (if h.message_iterator_ = h.messages_.length then 0 else h.message_iterator_) ∧
      (rotate_cursor h).messages_ =
        (if h.message_iterator_ = h.messages_.length ∧ h.sending_initial_ = true then
          write_repeating_messages_ h else h.messages_) ∧
      (rotate_cursor h).sending_initial_ =
        (if h.message_iterator_ = h.messages_.length then false else h.sending_initial_) := by
  unfold rotate_cursor
  split_ifs
  all_goals simp_all
  rfl

/-- State of the rotation after `k` successful conversations since `setup`:
the startup list with the cursor at `k`, or the repeating list with the cursor
behind the element requested last. -/
theorem rotation_step (cm : List (MessageId × Nat)) (init rep : List MessageId) (k : Nat)
    (h : OpenthermHub) (hcm : h.configured_messages_ = cm)
    (hrep : rep = (cm.filter fun pair => decide (pair.2 = REPEATING_MESSAGE_ORDER)).map
      fun pair => pair.1)
    (hne : 0 < rep.length)
    (hinv : (k ≤ init.length ∧ h.sending_initial_ = true ∧ h.messages_ = init ∧
        h.message_iterator_ = k) ∨
      (init.length < k ∧ h.sending_initial_ = false ∧ h.messages_ = rep ∧
        h.message_iterator_ = (k - init.length - 1) % rep.length + 1)) :
    requested_id h = some (rotation_schedule init rep k) ∧
      ((rotate_cursor h).configured_messages_ = cm ∧
        ((k + 1 ≤ init.length ∧ (rotate_cursor h).sending_initial_ = true ∧
            (rotate_cursor h).messages_ = init ∧ (rotate_cursor h).message_iterator_ + 1 = k + 1) ∨
          (init.length < k + 1 ∧ (rotate_cursor h).sending_initial_ = false ∧
            (rotate_cursor h).messages_ = rep ∧
            (rotate_cursor h).message_iterator_ + 1 =
              (k + 1 - init.length - 1) % rep.length + 1))) := by
  have hwr : write_repeating_messages_ h = rep := by
    unfold write_repeating_messages_
    rw [hcm, hrep]
  obtain ⟨f1, f2, f3⟩ := rotate_cursor_fields h
  have hc := (rotate_cursor_opentherm h).2.2.1
  rw [requested_id_eq]
  rcases hinv with ⟨hk, hs, hm, hi⟩ | ⟨hk, hs, hm, hi⟩
  · simp only [hm, hi, hs, hwr] at f1 f2 f3 ⊢
    by_cases hend : k = init.length
    · subst hend
      simp only [if_true, and_self] at f1 f2 f3 ⊢
      refine ⟨?_, hc.trans hcm, Or.inr ⟨by omega, f3, f2, ?_⟩⟩
      · rw [getElem?_eq_some_getD _ _ hne]
        unfold rotation_schedule
        simp
      · rw [f1]
        simp
    · simp only [hend, if_false, false_and] at f1 f2 f3 ⊢
      have hlt : k < init.length := by omega
      refine ⟨?_, hc.trans hcm, Or.inl ⟨by omega, f3, f2, by rw [f1]⟩⟩
      rw [getElem?_eq_some_getD _ _ hlt]
      unfold rotation_schedule
      rw [if_pos hlt]
  · simp only [hm, hi, hs] at f1 f2 f3 ⊢
    have hsched : rotation_schedule init rep k = rep.getD ((k - init.length) % rep.length) 0 := by
      unfold rotation_schedule
      rw [if_neg (by omega)]
    obtain ⟨m, hm1⟩ : ∃ m, k - init.length = m + 1 := ⟨k - init.length - 1, by omega⟩
    have hm2 : k - init.length - 1 = m := by omega
    have hk1 : k + 1 - init.length - 1 = m + 1 := by omega
    rw [hm1] at hsched
    rw [hm2] at f1 f2 f3 ⊢
    rw [hk1]
    obtain ⟨c1, c2⟩ := succ_mod_cases m rep.length
    by_cases hend : m % rep.length + 1 = rep.length
    · have hzero := c2 hend
      simp only [hend, if_true, Bool.false_eq_true, and_false, if_false] at f1 f2 f3 ⊢
      refine ⟨?_, hc.trans hcm, Or.inr ⟨by omega, f3, f2, ?_⟩⟩
      · rw [getElem?_eq_some_getD _ _ hne, hsched, hzero]
      · rw [f1, hzero]
    · have hlt : m % rep.length + 1 < rep.length := by
        have := Nat.mod_lt m hne
        omega
      have hnext := c1 hlt
      simp only [hend, if_false, false_and] at f1 f2 f3 ⊢
      refine ⟨?_, hc.trans hcm, Or.inr ⟨by omega, f3, f2, ?_⟩⟩
      · rw [getElem?_eq_some_getD _ _ hlt, hsched, hnext]
      · rw [f1, hnext]


theorem read_response_received (env : LoopEnv) (h : OpenthermHub)
    (hm : h.opentherm_.mode_ = .RECEIVED) :
    read_response_ env h =
      { stop_opentherm_ env h with message_iterator_ := h.message_iterator_ + 1 } := by
  unfold read_response_ get_message
  simp only [hm, if_true, Bool.not_true, Bool.false_eq_true, if_false]
  rfl

/-- The ids requested by successful conversations from a state of the rotation
reached after `k` conversations. -/
theorem run_conversations_schedule (cm : List (MessageId × Nat)) (init rep : List MessageId)
    (hrep : rep = (cm.filter fun pair => decide (pair.2 = REPEATING_MESSAGE_ORDER)).map
      fun pair => pair.1)
    (hne : 0 < rep.length) (cs : List (LoopEnv × OpenTherm)) :
    ∀ (k : Nat) (h : OpenthermHub), h.configured_messages_ = cm →
      ((k ≤ init.length ∧ h.sending_initial_ = true ∧ h.messages_ = init ∧
          h.message_iterator_ = k) ∨
        (init.length < k ∧ h.sending_initial_ = false ∧ h.messages_ = rep ∧
          h.message_iterator_ = (k - init.length - 1) % rep.length + 1)) →
      (∀ c ∈ cs, c.2.mode_ = .RECEIVED) →
      run_conversations cs h =
        some ((List.range cs.length).map fun n => rotation_schedule init rep (k + n)) := by
  induction cs with
  | nil => intro k h _ _ _; rfl
  | cons c rest ih =>
    intro k h hcm hinv hrx
    obtain ⟨env, rx⟩ := c
    obtain ⟨hreq, hcm', hinv'⟩ := rotation_step cm init rep k h hcm hrep hne hinv
    have hrxm : rx.mode_ = .RECEIVED := hrx (env, rx) (List.mem_cons_self _ _)
    rw [run_conversations, hreq, start_conversation_eq env h _ hreq]
    simp only []
    rw [read_response_received env _ hrxm]
    rw [ih (k + 1)]
    rotate_left
    · exact hcm'
    · exact hinv'
    · exact fun c hc => hrx c (List.mem_cons_of_mem _ hc)
    simp only [Option.map_some', List.length_cons]
    rw [List.range_succ_eq_map, List.map_cons, List.map_map]
    congr 2
    apply List.map_congr_left
    intro n _
    simp only [Function.comp, Nat.succ_eq_add_one]
    congr 1
    omega

theorem mem_map_assign_self (cm : List (MessageId × Nat)) (key : MessageId) (value : Nat) :
    (key, value) ∈ map_assign cm key value := by
  induction cm with
  | nil => simp [map_assign]
  | cons p rest ih =>
    obtain ⟨k, v⟩ := p
    by_cases hk : k = key
    · subst hk; simp [map_assign]
    · simp only [map_assign, if_neg hk, List.mem_cons]
      exact Or.inr ih

theorem register_all_sending_initial (regs : List Registration) (hub : OpenthermHub) :
    (register_all regs hub).sending_initial_ = hub.sending_initial_ := by
  induction regs using List.reverseRecOn with
  | nil => rfl
  | append_singleton regs r ih =>
    rw [register_all_snoc]
    cases r <;> exact ih

/-- Each block of the length of the repeating list in phase 2 of the schedule
is the repeating list. -/
theorem rotation_schedule_cycle (init rep : List MessageId) (c : Nat) :
    ((List.range rep.length).map fun j =>
      rotation_schedule init rep (init.length + c * rep.length + j)) = rep := by
  apply List.ext_getElem
  · simp
  · intro i h1 h2
    simp only [List.getElem_map, List.getElem_range]
    unfold rotation_schedule
    rw [if_neg (by omega), show init.length + c * rep.length + i - init.length =
      i + rep.length * c by rw [Nat.mul_comm]; omega, Nat.add_mul_mod_self_left,
      Nat.mod_eq_of_lt h2, List.getD_eq_getElem _ _ h2]

/-- C11: rotation. After a successful `setup` of a scheduler as constructed, on
which any registrations were made, if every conversation succeeds (each
`start_conversation_` is followed by a `read_response_` that finds the
transceiver in `RECEIVED`), the ids passed to `build_request_` by the
successive `start_conversation_` calls are the startup list in order followed
by the repeating list repeated forever; the repeating list contains `STATUS`
and has no duplicates, so within every full cycle of phase 2 each repeating id
is requested exactly once. -/
theorem rotation_sequence (regs : List Registration) (hub H : OpenthermHub) (dt : Int)
    (cs : List (LoopEnv × OpenTherm)) (hinit : hub.sending_initial_ = true)
    (hH : H = setup true dt (registered regs hub)) (hrx : ∀ c ∈ cs, c.2.mode_ = .RECEIVED) :
    run_conversations cs H =
        some ((List.range cs.length).map
          (rotation_schedule (write_initial_messages_ H) (write_repeating_messages_ H))) ∧
      H.messages_ = write_initial_messages_ H ∧
      MessageId.STATUS ∈ write_repeating_messages_ H ∧
      (write_repeating_messages_ H).Nodup ∧
      (∀ c : Nat, ((List.range (write_repeating_messages_ H).length).map fun j =>
        rotation_schedule (write_initial_messages_ H) (write_repeating_messages_ H)
          ((write_initial_messages_ H).length + c * (write_repeating_messages_ H).length + j)) =
        write_repeating_messages_ H) := by
  have hcm : H.configured_messages_ =
      map_assign (registered regs hub).configured_messages_ MessageId.STATUS
        REPEATING_MESSAGE_ORDER := by
    rw [hH]; rfl
  have hmsg : H.messages_ = write_initial_messages_ H := by
    rw [hH]; rfl
  have hit : H.message_iterator_ = 0 := by
    rw [hH]; rfl
  have hsi : H.sending_initial_ = true := by
    have : H.sending_initial_ = (registered regs hub).sending_initial_ := by rw [hH]; rfl
    rw [this]
    unfold registered
    rw [register_all_sending_initial]
    exact hinit
  have hstatus : MessageId.STATUS ∈ write_repeating_messages_ H := by
    rw [repeating_messages_mem, hcm]
    exact mem_map_assign_self _ _ _
  have hnd : (H.configured_messages_.map Prod.fst).Nodup := by
    rw [hcm]
    exact map_assign_nodup _ _ _ (registered_table regs hub).1
  have hne : 0 < (write_repeating_messages_ H).length := List.length_pos_of_mem hstatus
  refine ⟨?_, hmsg, hstatus, repeating_messages_nodup H hnd, rotation_schedule_cycle _ _⟩
  have key := run_conversations_schedule H.configured_messages_ (write_initial_messages_ H)
    (write_repeating_messages_ H) rfl hne cs 0 H rfl
    (Or.inl ⟨Nat.zero_le _, hsi, hmsg, hit⟩) hrx
  rw [key]
  congr 2
  funext n
  rw [Nat.zero_add]

set_option maxRecDepth 100000 in
/-- C11, witness: startup messages 5, 25 and 17 with orders 2, 0 and 1, startup
message 3 without an order, repeating messages 18 and `STATUS`; seven
successful conversations request 25, 17, 5, 3 and then 18, 0, 18. -/
theorem rotation_sequence_witness :
    (OpenthermHub.ctor.sending_initial_ = true ∧
      ∀ c ∈ seven_conversations, c.2.mode_ = .RECEIVED) ∧
    run_conversations seven_conversations
        (setup true 800 (registered example_registrations OpenthermHub.ctor)) =
      some ((List.range seven_conversations.length).map
        (rotation_schedule
          (write_initial_messages_
            (setup true 800 (registered example_registrations OpenthermHub.ctor)))
          (write_repeating_messages_
            (setup true 800 (registered example_registrations OpenthermHub.ctor))))) ∧
    (List.range seven_conversations.length).map
        (rotation_schedule
          (write_initial_messages_
            (setup true 800 (registered example_registrations OpenthermHub.ctor)))
          (write_repeating_messages_
            (setup true 800 (registered example_registrations OpenthermHub.ctor)))) =
      [25, 17, 5, 3, 18, 0, 18] :=
  ⟨⟨by decide, by decide⟩,
    (rotation_sequence example_registrations OpenthermHub.ctor
      (setup true 800 (registered example_registrations OpenthermHub.ctor)) 800
      seven_conversations (by decide) rfl (by decide)).1,
    by decide⟩

/-! ## The synchronous tick -/

theorem sync_loop__eq (env : LoopEnv) (hub : OpenthermHub) :
    sync_loop_ env hub =
      if !is_idle hub.opentherm_ then some hub
      else if should_skip_loop_ (millis env.cur_time) hub then some hub
      else (start_conversation_ env hub).bind (sync_send env) := by
  unfold sync_loop_
  by_cases h1 : (!is_idle hub.opentherm_) = true
  · rw [if_pos h1, if_pos h1]
  · rw [if_neg h1, if_neg h1]
    by_cases h2 : should_skip_loop_ (millis env.cur_time) hub = true
    · simp only [h2, if_true]
    · simp only [h2, if_false, Bool.false_eq_true]
      cases start_conversation_ env hub <;> rfl

/-- A wait that gives up has seen the transceiver active and an elapsed time
of at least the timeout in the same pass. -/
theorem spin_wait_false (timeout : Nat) (hw : TimerHw) (start_time : Nat) (steps : List SpinStep) :
    ∀ (ot ot' : OpenTherm), spin_wait_ timeout hw start_time steps ot = some (false, ot') →
      ∃ pre step post, steps = pre ++ step :: post ∧
        ot' = run_isr hw step.samples (run_spin_steps hw pre ot) ∧ is_active ot' = true ∧
        u32_sub (millis step.now) start_time ≥ timeout := by
  induction steps with
  | nil => intro ot ot' h; simp [spin_wait_] at h
  | cons step rest ih =>
    intro ot ot' h
    rw [spin_wait_] at h
    simp only [] at h
    by_cases ha : is_active (run_isr hw step.samples ot) = true
    · rw [if_pos ha] at h
      by_cases ht : u32_sub (millis step.now) start_time ≥ timeout
      · rw [if_pos ht] at h
        simp only [Option.some.injEq, Prod.mk.injEq, true_and] at h
        subst h
        exact ⟨[], step, rest, rfl, rfl, ha, ht⟩
      · rw [if_neg ht] at h
        obtain ⟨pre, st, post, e1, e2, e3, e4⟩ := ih _ _ h
        exact ⟨step :: pre, st, post, by rw [e1]; rfl, e2, e3, e4⟩
    · rw [if_neg ha] at h
      simp at h

theorem requested_id_rotate (h : OpenthermHub) : requested_id (rotate_cursor h) = requested_id h := by
  rw [requested_id_eq, requested_id_eq h]
  obtain ⟨f1, f2, f3⟩ := rotate_cursor_fields h
  have hw : write_repeating_messages_ (rotate_cursor h) = write_repeating_messages_ h := by
    unfold write_repeating_messages_
    rw [(rotate_cursor_opentherm h).2.2.1]
  rw [f1, f2, f3, hw]
  by_cases h1 : h.message_iterator_ = h.messages_.length
  · by_cases h2 : h.sending_initial_ = true
    · simp only [h1, h2, if_true, and_self, Bool.false_eq_true, if_false]
      split_ifs with h3
      · rw [h3]
      · rfl
    · simp only [h1, h2, if_true, and_false, if_false, Bool.false_eq_true]
      split_ifs with h3
      · rfl
      · rfl
  · simp only [h1, if_false, false_and]

theorem start_conversation_fields (env : LoopEnv) (hub started : OpenthermHub)
    (h : start_conversation_ env hub = some started) :
    started.message_iterator_ = (rotate_cursor hub).message_iterator_ ∧
      started.messages_ = (rotate_cursor hub).messages_ ∧
      started.sending_initial_ = (rotate_cursor hub).sending_initial_ ∧
      started.configured_messages_ = hub.configured_messages_ ∧
      started.sync_mode_ = hub.sync_mode_ ∧
      started.opentherm_.mode_ = .WRITE ∧
      started.calls_ = { op := .send, mode := hub.opentherm_.mode_ } :: hub.calls_ ∧
      started.component_failed_ = hub.component_failed_ := by
  cases hreq : requested_id hub with
  | none => rw [start_conversation_none env hub hreq] at h; cases h
  | some id =>
    rw [start_conversation_eq env hub id hreq] at h
    cases h
    obtain ⟨r1, r2, r3, r4, r5, -⟩ := rotate_cursor_opentherm hub
    exact ⟨rfl, rfl, rfl, r3, r4, (send_mode_ _ _ _).1, by simp only [r1, r2], r5⟩


/-- A tick of a writing transceiver leaves it writing or done. -/
theorem write_tick_mode (hw : TimerHw) (v : Bool) (s : OpenTherm) (hm : s.mode_ = .WRITE) :
    (timer_isr hw v s).mode_ = .WRITE ∨ (timer_isr hw v s).mode_ = .SENT := by
  obtain ⟨mode, err, cap, clk, data, bp, tc, dt, te, tet, pin⟩ := s
  simp only at hm
  subst hm
  simp only [timer_isr, write_bit_, stop_timer__eq]
  split_ifs <;> simp

theorem write_ticks_mode (hw : TimerHw) (l : List Bool) :
    ∀ s : OpenTherm, s.mode_ = .WRITE ∨ s.mode_ = .SENT →
      (run_isr hw l s).mode_ = .WRITE ∨ (run_isr hw l s).mode_ = .SENT := by
  induction l with
  | nil => intro s h; exact h
  | cons v vs ih =>
    intro s h
    rw [run_isr]
    rcases h with h | h
    · exact ih _ (write_tick_mode hw v s h)
    · rw [timer_isr_terminal hw v s (by rw [h]; decide) (by rw [h]; decide) (by rw [h]; decide)]
      exact ih _ (Or.inr h)

theorem handle_error_none (env : LoopEnv) (hub : OpenthermHub) (m : OperationMode)
    (h1 : m ≠ .ERROR_PROTOCOL) (h2 : m ≠ .ERROR_TIMEOUT) (h3 : m ≠ .ERROR_TIMER) :
    handle_error_ env m hub = (hub, false) := by
  cases m <;> simp_all [handle_error_]

theorem same_rotation_refl (a : OpenthermHub) : same_rotation a a := ⟨rfl, rfl, rfl, rfl⟩

/-- C17: synchronous-mode ceiling. `spin_wait_(1150, active)` gives up only in a
pass in which the transceiver was active and a 32-bit difference to the start
time of at least 1150 ms was read. When the wait for the request to be sent or
the wait for the response gives up, `sync_loop_` returns exactly what
`handle_timeout_error_` makes of the scheduler as it stood then: the
transceiver stopped (mode `IDLE`), the conversation end time recorded, the
failed mark untouched, and the rotation cursor, rotation list and phase flag
as they were when the conversation was started, so that the next conversation
requests the same id as this one. -/
theorem sync_ceiling (env : LoopEnv) (hub started : OpenthermHub)
    (hidle : hub.opentherm_.mode_ = .IDLE)
    (hskip : should_skip_loop_ (millis env.cur_time) hub = false)
    (hstart : start_conversation_ env hub = some started) :
    (∀ (hw : TimerHw) (start_time : Nat) (steps : List SpinStep) (ot ot' : OpenTherm),
        spin_wait_ 1150 hw start_time steps ot = some (false, ot') →
        ∃ pre step post, steps = pre ++ step :: post ∧
          ot' = run_isr hw step.samples (run_spin_steps hw pre ot) ∧ is_active ot' = true ∧
          u32_sub (millis step.now) start_time ≥ 1150) ∧
      (∀ ot : OpenTherm,
        spin_wait_ 1150 env.hw (millis env.send_start) env.send_wait
            (run_isr env.hw env.ticks_after_send started.opentherm_) = some (false, ot) →
        ∃ X, sync_loop_ env hub = some (handle_timeout_error_ env X) ∧ X.opentherm_ = ot ∧
          same_rotation X started) ∧
      (∀ sent ot : OpenTherm,
        spin_wait_ 1150 env.hw (millis env.send_start) env.send_wait
            (run_isr env.hw env.ticks_after_send started.opentherm_) = some (true, sent) →
        sent.mode_ = .SENT →
        (run_isr env.hw env.ticks_after_listen (listen env.hw sent)).mode_ ≠ .ERROR_PROTOCOL →
        (run_isr env.hw env.ticks_after_listen (listen env.hw sent)).mode_ ≠ .ERROR_TIMEOUT →
        (run_isr env.hw env.ticks_after_listen (listen env.hw sent)).mode_ ≠ .ERROR_TIMER →
        spin_wait_ 1150 env.hw (millis env.recv_start) env.recv_wait
            (run_isr env.hw env.ticks_after_listen (listen env.hw sent)) = some (false, ot) →
        ∃ X, sync_loop_ env hub = some (handle_timeout_error_ env X) ∧ X.opentherm_ = ot ∧
          same_rotation X started) ∧
      (∀ X : OpenthermHub,
        (handle_timeout_error_ env X).opentherm_.mode_ = .IDLE ∧
          (handle_timeout_error_ env X).last_conversation_end_ = millis env.stop_time ∧
          (handle_timeout_error_ env X).component_failed_ = X.component_failed_ ∧
          same_rotation (handle_timeout_error_ env X) X) ∧
      (∀ X : OpenthermHub, same_rotation X started → requested_id X = requested_id hub) := by
  have hidle' : (!is_idle hub.opentherm_) = false := by simp [is_idle, hidle]
  have hloop : sync_loop_ env hub = sync_send env started := by
    rw [sync_loop__eq, hidle', hskip, hstart]
    rfl
  obtain ⟨s1, s2, s3, s4, -, s6, -, -⟩ := start_conversation_fields env hub started hstart
  have hticks := write_ticks_mode env.hw env.ticks_after_send started.opentherm_ (Or.inl s6)
  have hnoerr : ∀ X : OpenthermHub,
      handle_error_ env (get_mode (run_isr env.hw env.ticks_after_send started.opentherm_)) X =
        (X, false) := by
    intro X
    apply handle_error_none <;> unfold get_mode <;> rcases hticks with h | h <;> rw [h] <;> decide
  refine ⟨spin_wait_false 1150, ?_, ?_, ?_, ?_⟩
  · intro ot hspin
    refine ⟨{ started with opentherm_ := ot }, ?_, rfl, ⟨rfl, rfl, rfl, rfl⟩⟩
    rw [hloop]
    unfold sync_send
    simp only [hnoerr, hspin, Bool.false_eq_true, if_false]
    rfl
  · intro sent ot hspin hsent e1 e2 e3 hspin2
    refine ⟨{ listen_opentherm env { started with opentherm_ := sent } with opentherm_ := ot },
      ?_, rfl, ⟨rfl, rfl, rfl, rfl⟩⟩
    rw [hloop]
    unfold sync_send
    simp only [hnoerr, hspin, Bool.false_eq_true, if_false]
    have hne : ∀ X : OpenthermHub, handle_error_ env (get_mode sent) X = (X, false) := by
      intro X
      apply handle_error_none <;> unfold get_mode <;> rw [hsent] <;> decide
    have hs : is_sent sent = true := by simp [is_sent, hsent]
    simp only [hne, hs, Bool.not_true, Bool.false_eq_true, if_false]
    unfold sync_receive
    have hne2 : ∀ X : OpenthermHub,
        handle_error_ env (get_mode (run_isr env.hw env.ticks_after_listen (listen env.hw sent)))
          X = (X, false) := fun X => handle_error_none env X _ e1 e2 e3
    simp only [listen_opentherm, hne2, hspin2, Bool.false_eq_true, if_false]
    rfl
  · intro X
    obtain ⟨h1, h2, -, h4, h5, h6, h7, h8, -⟩ := stop_opentherm_fields env X
    exact ⟨h1, h2, h4, h5, h6, h7, h8⟩
  · rintro X ⟨x1, x2, x3, x4⟩
    rw [← requested_id_rotate hub]
    exact requested_id_congr _ _ (x1.trans s1) (x2.trans s2) (x3.trans s3)
      (x4.trans (s4.trans (rotate_cursor_opentherm hub).2.2.1.symm))

set_option maxRecDepth 100000 in
/-- C17, witness: a synchronous tick at time 0 in which the timer never ticks
and the wait for the request to be sent reads `millis()` 2000 ms after its
start. -/
theorem sync_ceiling_witness :
    (sync_hub.opentherm_.mode_ = .IDLE ∧
      should_skip_loop_ (millis (ceiling_env 0).cur_time) sync_hub = false ∧
      start_conversation_ (ceiling_env 0) sync_hub = some sync_started ∧
      spin_wait_ 1150 (ceiling_env 0).hw (millis (ceiling_env 0).send_start)
          (ceiling_env 0).send_wait
          (run_isr (ceiling_env 0).hw (ceiling_env 0).ticks_after_send sync_started.opentherm_) =
        some (false, sync_started.opentherm_)) ∧
    (∃ X, sync_loop_ (ceiling_env 0) sync_hub = some (handle_timeout_error_ (ceiling_env 0) X) ∧
      X.opentherm_ = sync_started.opentherm_ ∧ same_rotation X sync_started) ∧
    (sync_loop_ (ceiling_env 0) sync_hub).map
        (fun h => (h.opentherm_.mode_, h.last_conversation_end_, h.messages_,
          h.message_iterator_, h.sending_initial_, h.component_failed_)) =
      some (.IDLE, 0, [0], 0, false, false) :=
  ⟨⟨by decide, by decide, by decide, by decide⟩,
    (sync_ceiling (ceiling_env 0) sync_hub sync_started (by decide) (by decide)
      (by decide)).2.1 sync_started.opentherm_ (by decide),
    by decide⟩

/-! ## One conversation in flight -/

/-- A timer tick never brings the transceiver to `IDLE`. -/
theorem timer_isr_idle (hw : TimerHw) (v : Bool) (s : OpenTherm)
    (h : (timer_isr hw v s).mode_ = .IDLE) : s.mode_ = .IDLE := by
  obtain ⟨mode, err, cap, clk, data, bp, tc, dt, te, tet, pin⟩ := s
  cases mode
  case IDLE => rfl
  case LISTEN =>
    exfalso
    revert h
    cases v <;>
      simp only [timer_isr, read_, start_read_timer_, start_esp32_timer__eq, stop_timer__eq] <;>
      split_ifs <;> simp
  case READ =>
    exfalso
    revert h
    simp only [timer_isr, bit_read_, stop_timer__eq]
    split_ifs <;> simp
  case WRITE =>
    exfalso
    rcases write_tick_mode hw v ⟨.WRITE, err, cap, clk, data, bp, tc, dt, te, tet, pin⟩ rfl
      with h1 | h1 <;> rw [h1] at h <;> exact absurd h (by decide)
  all_goals
    rw [timer_isr_terminal hw v _ (by simp) (by simp) (by simp)] at h
    simp at h

theorem report_mode_ (s : OpenTherm) : (report_and_reset_timer_error s).mode_ = s.mode_ := by
  unfold report_and_reset_timer_error
  split_ifs <;> rfl

theorem stop_opentherm_stopped (env : LoopEnv) (X : OpenthermHub) :
    stopped_after X (stop_opentherm_ env X) :=
  ⟨stop_mode_ _ _, rfl, rfl⟩

/-- An error mode makes `handle_error_` stop the transceiver. -/
theorem handle_error_true (env : LoopEnv) (m : OperationMode) (X : OpenthermHub)
    (h : (handle_error_ env m X).2 = true) :
    (m = .ERROR_PROTOCOL ∨ m = .ERROR_TIMEOUT ∨ m = .ERROR_TIMER) ∧
      stopped_after X (handle_error_ env m X).1 := by
  cases m <;> simp [handle_error_] at h ⊢
  · exact stop_opentherm_stopped env X
  · exact stop_opentherm_stopped env X
  · refine ⟨stop_mode_ _ _, rfl, ?_⟩
    simp [handle_timer_error_, stop_opentherm_, report_mode_]

theorem read_response_stopped (env : LoopEnv) (X : OpenthermHub) :
    stopped_after X (read_response_ env X) := by
  unfold read_response_
  split_ifs
  · exact stop_opentherm_stopped env X
  · exact ⟨stop_mode_ _ _, rfl, rfl⟩

/-- Every way through the second half of `sync_loop_` ends with the transceiver
stopped, after the one call of `listen`. -/
theorem sync_receive_calls (env : LoopEnv) (X R : OpenthermHub)
    (h : sync_receive env X = some R) :
    R.opentherm_.mode_ = .IDLE ∧ R.sync_mode_ = X.sync_mode_ ∧
      ∃ m, R.calls_ =
        { op := .stop, mode := m } :: { op := .listen, mode := X.opentherm_.mode_ } :: X.calls_ := by
  unfold sync_receive at h
  simp only at h
  split at h
  · rename_i he
    obtain ⟨-, s1, s2, s3⟩ := handle_error_true _ _ _ he
    simp only [Option.some.injEq] at h
    subst h
    exact ⟨s1, s2, _, s3⟩
  · split at h
    · exact absurd h (by simp)
    · simp only [Option.some.injEq] at h
      subst h
      exact ⟨stop_mode_ _ _, rfl, _, rfl⟩
    · split at h
      · rename_i he
        obtain ⟨-, s1, s2, s3⟩ := handle_error_true _ _ _ he
        simp only [Option.some.injEq] at h
        subst h
        exact ⟨s1, s2, _, s3⟩
      · split at h
        · simp only [Option.some.injEq] at h
          subst h
          exact ⟨stop_mode_ _ _, rfl, _, rfl⟩
        · simp only [Option.some.injEq] at h
          subst h
          obtain ⟨s1, s2, s3⟩ := read_response_stopped env
            { listen_opentherm env X with opentherm_ := ‹OpenTherm› }
          exact ⟨s1, s2, _, s3⟩

/-- Every way through `sync_loop_` after the start of the conversation ends
with the transceiver stopped. -/
theorem sync_send_calls (env : LoopEnv) (S R : OpenthermHub) (h : sync_send env S = some R) :
    R.opentherm_.mode_ = .IDLE ∧ R.sync_mode_ = S.sync_mode_ ∧
      ∃ m mid, R.calls_ = { op := .stop, mode := m } :: (mid ++ S.calls_) ∧
        (mid = [] ∨ ∃ m', mid = [{ op := .listen, mode := m' }]) := by
  unfold sync_send at h
  simp only at h
  split at h
  · rename_i he
    obtain ⟨-, s1, s2, s3⟩ := handle_error_true _ _ _ he
    simp only [Option.some.injEq] at h
    subst h
    exact ⟨s1, s2, _, [], s3, Or.inl rfl⟩
  · split at h
    · exact absurd h (by simp)
    · simp only [Option.some.injEq] at h
      subst h
      exact ⟨stop_mode_ _ _, rfl, _, [], rfl, Or.inl rfl⟩
    · split at h
      · rename_i he
        obtain ⟨-, s1, s2, s3⟩ := handle_error_true _ _ _ he
        simp only [Option.some.injEq] at h
        subst h
        exact ⟨s1, s2, _, [], s3, Or.inl rfl⟩
      · split at h
        · simp only [Option.some.injEq] at h
          subst h
          exact ⟨stop_mode_ _ _, rfl, _, [], rfl, Or.inl rfl⟩
        · obtain ⟨s1, s2, m, s3⟩ := sync_receive_calls env _ R h
          exact ⟨s1, s2, m, [_], s3, Or.inr ⟨_, rfl⟩⟩

/-- What one call of `loop` does to the transceiver and to the log of calls. -/
theorem loop_calls (env : LoopEnv) (hub R : OpenthermHub) (h : loop env hub = some R) :
    R.sync_mode_ = hub.sync_mode_ ∧
      ((R.calls_ = hub.calls_ ∧ R.opentherm_ = hub.opentherm_) ∨
        (hub.opentherm_.mode_ = .IDLE ∧ R.opentherm_.mode_ = .WRITE ∧
          R.calls_ = { op := .send, mode := .IDLE } :: hub.calls_) ∨
        (R.opentherm_.mode_ = .LISTEN ∧ ∃ m, R.calls_ = { op := .listen, mode := m } :: hub.calls_) ∨
        (R.opentherm_.mode_ = .IDLE ∧ conversation_ended hub.opentherm_.mode_ ∧
          R.calls_ = { op := .stop, mode := hub.opentherm_.mode_ } :: hub.calls_) ∨
        (hub.sync_mode_ = true ∧ hub.opentherm_.mode_ = .IDLE ∧ R.opentherm_.mode_ = .IDLE ∧
          ∃ m mid, R.calls_ =
              { op := .stop, mode := m } :: (mid ++ { op := .send, mode := .IDLE } :: hub.calls_) ∧
            (mid = [] ∨ ∃ m', mid = [{ op := .listen, mode := m' }]))) := by
  by_cases hsync : hub.sync_mode_ = true
  · unfold loop at h
    rw [if_pos hsync, sync_loop__eq] at h
    split at h
    · simp only [Option.some.injEq] at h
      subst h
      exact ⟨rfl, Or.inl ⟨rfl, rfl⟩⟩
    · rename_i hidle
      have hidle' : hub.opentherm_.mode_ = .IDLE := by simpa [is_idle] using hidle
      split at h
      · simp only [Option.some.injEq] at h
        subst h
        exact ⟨rfl, Or.inl ⟨rfl, rfl⟩⟩
      · cases hst : start_conversation_ env hub with
        | none => rw [hst] at h; exact absurd h (by simp)
        | some started =>
          rw [hst] at h
          obtain ⟨-, -, -, -, s5, -, s7, -⟩ := start_conversation_fields env hub started hst
          obtain ⟨r1, r2, m, mid, r3, r4⟩ := sync_send_calls env started R h
          refine ⟨r2.trans s5, Or.inr (Or.inr (Or.inr (Or.inr ⟨hsync, hidle', r1, m, mid, ?_, r4⟩)))⟩
          rw [r3, s7, hidle']
  · unfold loop at h
    rw [if_neg hsync] at h
    simp only at h
    split at h
    · rename_i he
      obtain ⟨e, s1, s2, s3⟩ := handle_error_true _ _ _ he
      simp only [Option.some.injEq] at h
      subst h
      refine ⟨s2, Or.inr (Or.inr (Or.inr (Or.inl ⟨s1, ?_, s3⟩)))⟩
      unfold get_mode at e
      rcases e with e | e | e
      · exact Or.inr (Or.inl e)
      · exact Or.inr (Or.inr (Or.inl e))
      · exact Or.inr (Or.inr (Or.inr e))
    · unfold get_mode at h
      cases hm : hub.opentherm_.mode_ with
      | IDLE =>
        rw [hm] at h
        simp only [Option.map_eq_some'] at h
        obtain ⟨a, ha, rfl⟩ := h
        split at ha
        · simp only [Option.some.injEq] at ha
          subst ha
          exact ⟨rfl, Or.inl ⟨rfl, rfl⟩⟩
        · obtain ⟨-, -, -, -, s5, s6, s7, -⟩ := start_conversation_fields env hub a ha
          refine ⟨s5, Or.inr (Or.inl ⟨rfl, s6, ?_⟩)⟩
          show a.calls_ = _
          rw [s7, hm]
      | SENT =>
        rw [hm] at h
        simp only [Option.map_some', Option.some.injEq] at h
        subst h
        exact ⟨rfl, Or.inr (Or.inr (Or.inl ⟨listen_mode_ _ _, _, rfl⟩))⟩
      | RECEIVED =>
        rw [hm] at h
        simp only [Option.map_some', Option.some.injEq] at h
        subst h
        obtain ⟨s1, s2, s3⟩ := read_response_stopped env hub
        refine ⟨s2, Or.inr (Or.inr (Or.inr (Or.inl ⟨s1, Or.inl rfl, ?_⟩)))⟩
        show (read_response_ env hub).calls_ = _
        rw [s3, hm]
      | _ =>
        rw [hm] at h
        simp only [Option.map_some', Option.some.injEq] at h
        subst h
        exact ⟨rfl, Or.inl ⟨rfl, rfl⟩⟩

theorem flight_invariant_setup (init_ok : Bool) (dt : Int) (hub0 : OpenthermHub) :
    flight_invariant hub0.sync_mode_ (setup init_ok dt hub0) := by
  have hc : (setup init_ok dt hub0).calls_ = [] := by
    unfold setup
    split_ifs <;> rfl
  have hs : (setup init_ok dt hub0).sync_mode_ = hub0.sync_mode_ := by
    unfold setup
    split_ifs <;> rfl
  refine ⟨hs, ?_, ?_, ?_, ?_⟩
  · rw [hc]; intro c hcm; exact absurd hcm (List.not_mem_nil c)
  · rw [hc]; exact List.chain'_nil
  · rw [hc]; intro _ c hcm; simp at hcm
  · rw [hc]; intro _ c hcm; exact absurd hcm (List.not_mem_nil c)

theorem flight_invariant_tick (sync : Bool) (hw : TimerHw) (v : Bool) (hub : OpenthermHub)
    (hinv : flight_invariant sync hub) :
    flight_invariant sync { hub with opentherm_ := timer_isr hw v hub.opentherm_ } := by
  obtain ⟨i0, i1, i2, i3, i4⟩ := hinv
  exact ⟨i0, i1, i2, fun hm => i3 (timer_isr_idle hw v _ hm), i4⟩

theorem flight_invariant_loop (sync : Bool) (env : LoopEnv) (hub R : OpenthermHub)
    (hinv : flight_invariant sync hub) (h : loop env hub = some R) : flight_invariant sync R := by
  obtain ⟨i0, i1, i2, i3, i4⟩ := hinv
  obtain ⟨hs, hc⟩ := loop_calls env hub R h
  have hsend : List.Chain' (fun later earlier : TransceiverCall => later.op = .send → earlier.op = .stop)
      hub.calls_ → hub.opentherm_.mode_ = .IDLE →
      List.Chain' (fun later earlier : TransceiverCall => later.op = .send → earlier.op = .stop)
        ({ op := .send, mode := .IDLE } :: hub.calls_) := by
    intro hch hm
    cases hcalls : hub.calls_ with
    | nil => exact List.chain'_singleton _
    | cons p rest =>
      rw [hcalls] at hch
      refine List.Chain'.cons (fun _ => ?_) hch
      exact i3 hm p (by rw [hcalls]; rfl)
  rcases hc with ⟨c1, c2⟩ | ⟨c1, c2, c3⟩ | ⟨c1, m, c2⟩ | ⟨c1, c2, c3⟩ | ⟨c0, c1, c2, m, mid, c3, c4⟩
  · rw [flight_invariant, c1, c2, hs]
    exact ⟨i0, i1, i2, i3, i4⟩
  · refine ⟨hs.trans i0, ?_, ?_, ?_, ?_⟩
    · rw [c3]
      intro c hcm hop
      rcases List.mem_cons.1 hcm with rfl | hcm
      · rfl
      · exact i1 c hcm hop
    · rw [c3]
      exact hsend i2 c1
    · intro hm
      rw [c2] at hm
      exact absurd hm (by decide)
    · rw [c3]
      intro hsy c hcm hop
      rcases List.mem_cons.1 hcm with rfl | hcm
      · exact absurd hop (by simp)
      · exact i4 hsy c hcm hop
  · refine ⟨hs.trans i0, ?_, ?_, ?_, ?_⟩
    · rw [c2]
      intro c hcm hop
      rcases List.mem_cons.1 hcm with rfl | hcm
      · exact absurd hop (by simp)
      · exact i1 c hcm hop
    · rw [c2]
      cases hcalls : hub.calls_ with
      | nil => exact List.chain'_singleton _
      | cons p rest =>
        rw [hcalls] at i2
        exact List.Chain'.cons (fun hop => absurd hop (by simp)) i2
    · intro hm
      rw [c1] at hm
      exact absurd hm (by decide)
    · rw [c2]
      intro hsy c hcm hop
      rcases List.mem_cons.1 hcm with rfl | hcm
      · exact absurd hop (by simp)
      · exact i4 hsy c hcm hop
  · refine ⟨hs.trans i0, ?_, ?_, ?_, ?_⟩
    · rw [c3]
      intro c hcm hop
      rcases List.mem_cons.1 hcm with rfl | hcm
      · exact absurd hop (by simp)
      · exact i1 c hcm hop
    · rw [c3]
      cases hcalls : hub.calls_ with
      | nil => exact List.chain'_singleton _
      | cons p rest =>
        rw [hcalls] at i2
        exact List.Chain'.cons (fun hop => absurd hop (by simp)) i2
    · intro _ c hcm
      rw [c3] at hcm
      simp only [List.head?_cons, Option.mem_def, Option.some.injEq] at hcm
      subst hcm
      rfl
    · rw [c3]
      intro hsy c hcm hop
      rcases List.mem_cons.1 hcm with rfl | hcm
      · exact c2
      · exact i4 hsy c hcm hop
  · have hch := hsend i2 c1
    refine ⟨hs.trans i0, ?_, ?_, ?_, ?_⟩
    · rw [c3]
      intro c hcm hop
      rcases c4 with rfl | ⟨m', rfl⟩
      · simp only [List.nil_append, List.mem_cons] at hcm
        rcases hcm with rfl | rfl | hcm
        · exact absurd hop (by simp)
        · rfl
        · exact i1 c hcm hop
      · simp only [List.singleton_append, List.mem_cons] at hcm
        rcases hcm with rfl | rfl | rfl | hcm
        · exact absurd hop (by simp)
        · exact absurd hop (by simp)
        · rfl
        · exact i1 c hcm hop
    · rw [c3]
      rcases c4 with rfl | ⟨m', rfl⟩
      · exact List.Chain'.cons (fun hop => absurd hop (by simp)) hch
      · exact List.Chain'.cons (fun hop => absurd hop (by simp))
          (List.Chain'.cons (fun hop => absurd hop (by simp)) hch)
    · intro _ c hcm
      rw [c3] at hcm
      simp only [List.head?_cons, Option.mem_def, Option.some.injEq] at hcm
      subst hcm
      rfl
    · intro hsy
      rw [← i0, c0] at hsy
      exact absurd hsy (by decide)

theorem flight_invariant_run (sync : Bool) (steps : List Step) :
    ∀ hub R : OpenthermHub, flight_invariant sync hub → run_steps steps hub = some R →
      flight_invariant sync R := by
  induction steps with
  | nil =>
    intro hub R hinv h
    simp only [run_steps, Option.some.injEq] at h
    subst h
    exact hinv
  | cons st rest ih =>
    intro hub R hinv h
    cases st with
    | tick v hw =>
      rw [run_steps] at h
      exact ih _ R (flight_invariant_tick sync hw v hub hinv) h
    | loop env =>
      rw [run_steps] at h
      split at h
      · exact ih hub R hinv h
      · cases hl : loop env hub with
        | none => rw [hl] at h; exact absurd h (by simp)
        | some hub1 =>
          rw [hl] at h
          exact ih hub1 R (flight_invariant_loop sync env hub hub1 hinv hl) h

set_option maxRecDepth 100000 in
/-- C14, counterexample: in synchronous mode a request is issued after the
previous one was stopped in `WRITE`. The timer does not start, the wait for
the request to be sent gives up after 2000 ms and `sync_loop_` stops the
transceiver, which is still writing; the next `loop` sends again. The log of
calls, latest first. -/
theorem request_after_unfinished_conversation :
    (run_steps [Step.loop (stalled_env 0), Step.loop (stalled_env 5000)]
        (setup true 800 { OpenthermHub.ctor with sync_mode_ := true })).map
        (fun h => h.calls_) =
      some [{ op := .stop, mode := .WRITE }, { op := .send, mode := .IDLE },
        { op := .stop, mode := .WRITE }, { op := .send, mode := .IDLE }] := by
  decide

/-- C14: one conversation in flight. In every state the scheduler reaches from
`setup` by timer ticks and calls of `loop`, asynchronous or synchronous, every
`send` was called with the transceiver in `IDLE`, and the call of the
transceiver before a `send` was a `stop`: a request is never issued before the
previous conversation has been stopped. Outside synchronous mode every `stop`
was called in `RECEIVED` or in an error mode. -/
theorem one_conversation_in_flight (steps : List Step) (init_ok : Bool) (device_timeout : Int)
    (hub0 R : OpenthermHub)
    (hrun : run_steps steps (setup init_ok device_timeout hub0) = some R) :
    (∀ c ∈ R.calls_, c.op = .send → c.mode = .IDLE) ∧
      List.Chain' (fun later earlier : TransceiverCall => later.op = .send → earlier.op = .stop)
        R.calls_ ∧
      (hub0.sync_mode_ = false → ∀ c ∈ R.calls_, c.op = .stop →
        c.mode = .RECEIVED ∨ c.mode = .ERROR_PROTOCOL ∨ c.mode = .ERROR_TIMEOUT ∨
          c.mode = .ERROR_TIMER) := by
  obtain ⟨-, i1, i2, -, i4⟩ := flight_invariant_run hub0.sync_mode_ steps _ R
    (flight_invariant_setup init_ok device_timeout hub0) hrun
  exact ⟨i1, i2, i4⟩

set_option maxRecDepth 100000 in
/-- C14, witness: the asynchronous run `timeout_run`, in which the first
conversation ends in a timeout of the transceiver and a second one is
started. -/
theorem one_conversation_in_flight_witness :
    run_steps timeout_run (setup true 1 OpenthermHub.ctor) = some timeout_run_result ∧
      timeout_run_result.calls_ =
        [{ op := .send, mode := .IDLE }, { op := .stop, mode := .ERROR_TIMEOUT },
          { op := .listen, mode := .SENT }, { op := .send, mode := .IDLE }] ∧
      ((∀ c ∈ timeout_run_result.calls_, c.op = .send → c.mode = .IDLE) ∧
        List.Chain' (fun later earlier : TransceiverCall => later.op = .send → earlier.op = .stop)
          timeout_run_result.calls_ ∧
        (OpenthermHub.ctor.sync_mode_ = false → ∀ c ∈ timeout_run_result.calls_, c.op = .stop →
          c.mode = .RECEIVED ∨ c.mode = .ERROR_PROTOCOL ∨ c.mode = .ERROR_TIMEOUT ∨
            c.mode = .ERROR_TIMER)) :=
  ⟨by decide, by decide,
    one_conversation_in_flight timeout_run true 1 OpenthermHub.ctor timeout_run_result
      (by decide)⟩

/-! ## The response timeout -/

/-- A low sample leaves a listening decoder whose countdown has not expired
listening, with the countdown one lower. -/
theorem listen_low_tick (hw : TimerHw) (s : OpenTherm) (hm : s.mode_ = .LISTEN)
    (ht : 0 < s.timeout_counter_) :
    timer_isr hw false s = { s with timeout_counter_ := s.timeout_counter_ - 1 } := by
  obtain ⟨mode, err, cap, clk, data, bp, tc, dt, te, tet, pin⟩ := s
  simp only at hm ht
  subst hm
  have h0 : tc ≠ 0 := by omega
  simp [timer_isr, h0, ht]

theorem listen_low_ticks (hw : TimerHw) (n : Nat) :
    ∀ s : OpenTherm, s.mode_ = .LISTEN → (n : Int) ≤ s.timeout_counter_ →
      run_isr hw (List.replicate n false) s =
        { s with timeout_counter_ := s.timeout_counter_ - n } := by
  induction n with
  | zero =>
    intro s _ _
    simp [run_isr]
  | succ n ih =>
    intro s hm ht
    have ht1 : (n : Int) ≤ s.timeout_counter_ - 1 := by push_cast at ht; omega
    rw [List.replicate_succ, run_isr, listen_low_tick hw s hm (by omega)]
    rw [ih { s with timeout_counter_ := s.timeout_counter_ - 1 } hm ht1]
    simp only [OpenTherm.mk.injEq, true_and, and_true]
    push_cast
    omega

/-- A low sample leaves a listening decoder with a negative countdown as it
is. -/
theorem listen_low_tick_negative (hw : TimerHw) (s : OpenTherm) (hm : s.mode_ = .LISTEN)
    (ht : s.timeout_counter_ < 0) : timer_isr hw false s = s := by
  obtain ⟨mode, err, cap, clk, data, bp, tc, dt, te, tet, pin⟩ := s
  simp only at hm ht
  subst hm
  have h0 : tc ≠ 0 := by omega
  have h1 : ¬ tc > 0 := by omega
  simp [timer_isr, h0, h1]

set_option maxRecDepth 100000 in
/-- Outside the range of `int32_t` the product in `listen` wraps around: for a
device timeout of 500000000 ms the countdown is armed to -1794967296, and a
decoder with a negative countdown stays in `LISTEN` on low samples. -/
theorem listen_countdown_wraps :
    (listen timer_ok (OpenTherm.ctor 500000000)).timeout_counter_ = -1794967296 ∧
      ∀ n : Nat, run_isr timer_ok (List.replicate n false)
          (listen timer_ok (OpenTherm.ctor 500000000)) =
        listen timer_ok (OpenTherm.ctor 500000000) := by
  refine ⟨by decide, ?_⟩
  intro n
  induction n with
  | zero => rfl
  | succ n ih =>
    rw [List.replicate_succ, run_isr,
      listen_low_tick_negative timer_ok _ (listen_state timer_ok _).1 (by decide)]
    exact ih

/-- C21: response timeout. `listen`, called in any mode, sets mode `LISTEN`,
zeroes the shift register and the bit position and arms the countdown to
`timeout_ms * 5`, the product being within the range of its type `int32_t`.
While every sample is low the transceiver stays in `LISTEN` through the next
`timeout_ms * 5` ticks, the countdown going down by one on each; the tick after
them, whatever it samples, enters `ERROR_TIMEOUT`; a high sample on any tick
before that one moves it to `READ` instead. -/
theorem listen_timeout (hw : TimerHw) (s : OpenTherm) (timeout_ms : Nat)
    (hdt : s.device_timeout_ = (timeout_ms : Int)) (hrange : timeout_ms * 5 ≤ 2147483647) :
    ((listen hw s).mode_ = .LISTEN ∧ (listen hw s).data_ = 0 ∧ (listen hw s).bit_pos_ = 0 ∧
        (listen hw s).timeout_counter_ = ((timeout_ms * 5 : Nat) : Int)) ∧
      (∀ n : Nat, n ≤ timeout_ms * 5 →
        (run_isr hw (List.replicate n false) (listen hw s)).mode_ = .LISTEN ∧
          (run_isr hw (List.replicate n false) (listen hw s)).timeout_counter_ =
            ((timeout_ms * 5 - n : Nat) : Int)) ∧
      (∀ v : Bool,
        (run_isr hw (List.replicate (timeout_ms * 5) false ++ [v]) (listen hw s)).mode_ =
          .ERROR_TIMEOUT) ∧
      (∀ n : Nat, n < timeout_ms * 5 →
        (run_isr hw (List.replicate n false ++ [true]) (listen hw s)).mode_ = .READ) := by
  obtain ⟨l1, l2, l3, l4⟩ := listen_state hw s
  have hc : (listen hw s).timeout_counter_ = ((timeout_ms * 5 : Nat) : Int) := by
    rw [l2, hdt, to_int32_of_range _ (by omega) (by omega)]
    push_cast
    rfl
  have hrun : ∀ n : Nat, n ≤ timeout_ms * 5 →
      run_isr hw (List.replicate n false) (listen hw s) =
        { listen hw s with timeout_counter_ := ((timeout_ms * 5 - n : Nat) : Int) } := by
    intro n hn
    rw [listen_low_ticks hw n _ l1 (by rw [hc]; exact_mod_cast hn), hc]
    simp only [OpenTherm.mk.injEq, true_and, and_true]
    omega
  refine ⟨⟨l1, l3, l4, hc⟩, ?_, ?_, ?_⟩
  · intro n hn
    rw [hrun n hn]
    exact ⟨l1, rfl⟩
  · intro v
    rw [run_isr_append, hrun _ le_rfl]
    exact listen_expired hw v []
      { listen hw s with timeout_counter_ := ((timeout_ms * 5 - timeout_ms * 5 : Nat) : Int) } l1
      (by show ((timeout_ms * 5 - timeout_ms * 5 : Nat) : Int) = 0; simp)
  · intro n hn
    rw [run_isr_append, hrun n hn.le]
    exact (listen_first_high hw
      { listen hw s with timeout_counter_ := ((timeout_ms * 5 - n : Nat) : Int) } l1
      (by show ((timeout_ms * 5 - n : Nat) : Int) ≠ 0; omega)).1

/-- C21, witness: the default timeout of 800 ms. -/
theorem listen_timeout_witness :
    ((OpenTherm.ctor 800).device_timeout_ = ((800 : Nat) : Int) ∧ 800 * 5 ≤ 2147483647) ∧
      (run_isr timer_ok (List.replicate (800 * 5) false ++ [false])
        (listen timer_ok (OpenTherm.ctor 800))).mode_ = .ERROR_TIMEOUT ∧
      (run_isr timer_ok (List.replicate 4000 false)
        (listen timer_ok (OpenTherm.ctor 800))).mode_ = .LISTEN :=
  ⟨⟨rfl, by decide⟩,
    (listen_timeout timer_ok (OpenTherm.ctor 800) 800 rfl (by decide)).2.2.1 false,
    ((listen_timeout timer_ok (OpenTherm.ctor 800) 800 rfl (by decide)).2.1 4000
      (by decide)).1⟩

/-! ## The decoder tick by tick -/

theorem count_ones_mod (n k v : Nat) (h : n ≤ k) : count_ones n (v % 2 ^ k) = count_ones n v := by
  unfold count_ones
  apply List.countP_congr
  intro i hi
  have hi' : i < k := lt_of_lt_of_le (List.mem_range.1 hi) h
  simp [Nat.testBit_mod_two_pow, hi']

theorem check_parity_mod (v : Nat) : check_parity_ (v % 2 ^ 32) = check_parity_ v := by
  unfold check_parity_
  simp only [Nat.mod_mod]

/-- The folding of `check_parity_` computes the parity of the number of set
bits among the 32 bits of its argument. -/
theorem check_parity_all (v : Nat) : check_parity_ v = decide (count_ones 32 v % 2 = 0) := by
  rw [← check_parity_mod, check_parity_eq _ (Nat.mod_lt _ (by norm_num)), count_ones_mod 32 32 v le_rfl]

theorem capture_shift (c : Nat) (v : Bool) (h : c < 2 ^ 31) :
    ((c <<< 1) ||| v.toNat) % 2 ^ 32 = 2 * c + v.toNat := by
  have hv : v.toNat < 2 ^ 1 := by cases v <;> decide
  rw [shiftLeft_or_eq_add c v.toNat 1 hv, Nat.mod_eq_of_lt]
  · omega
  · have : v.toNat < 2 := hv
    omega

theorem capture_reset (v : Bool) : ((1 <<< 1) ||| v.toNat) % 2 ^ 32 = 2 + v.toNat := by
  cases v <;> decide

/-- A sample at the level of the one before extends the run. -/
theorem read_tick_equal (hw : TimerHw) (v : Bool) (s : OpenTherm) (hm : s.mode_ = .READ)
    (heq : v.toNat = s.capture_ &&& 1) (hc : s.capture_ ≤ 0xFF) :
    timer_isr hw v s = { s with capture_ := 2 * s.capture_ + v.toNat } := by
  obtain ⟨mode, err, cap, clk, data, bp, tc, dt, te, tet, pin⟩ := s
  simp only at hm heq hc
  subst hm
  have h1 : ¬ cap > 0xFF := by omega
  simp only [timer_isr, heq, ne_eq, not_true_eq_false, if_false, h1]
  rw [← heq, capture_shift cap v (by omega)]

/-- A sample at the level of the one before, with the capture register above
`0xFF`, aborts. -/
theorem read_tick_too_long (hw : TimerHw) (v : Bool) (s : OpenTherm) (hm : s.mode_ = .READ)
    (heq : v.toNat = s.capture_ &&& 1) (hc : s.capture_ > 0xFF) :
    timer_isr hw v s =
      stop_timer_ hw { s with mode_ := .ERROR_PROTOCOL, error_type_ := .NO_CHANGE_TOO_LONG } := by
  obtain ⟨mode, err, cap, clk, data, bp, tc, dt, te, tet, pin⟩ := s
  simp only at hm heq hc
  subst hm
  simp only [timer_isr, heq, ne_eq, not_true_eq_false, if_false, hc, if_true]

/-- A level change with the clock phase at 1 and the capture register above
`0xF` aborts. -/
theorem read_tick_no_transition (hw : TimerHw) (v : Bool) (s : OpenTherm) (hm : s.mode_ = .READ)
    (hne : v.toNat ≠ s.capture_ &&& 1) (hclk : s.clock_ = 1) (hc : s.capture_ > 0xF) :
    timer_isr hw v s =
      stop_timer_ hw { s with mode_ := .ERROR_PROTOCOL, error_type_ := .NO_TRANSITION } := by
  obtain ⟨mode, err, cap, clk, data, bp, tc, dt, te, tet, pin⟩ := s
  simp only at hm hne hclk hc
  subst hm
  simp only [timer_isr, ne_eq, hne, not_false_eq_true, if_true, hclk, hc, and_self]

/-- A data point at the stop-bit position ends the frame. -/
theorem read_tick_stop (hw : TimerHw) (v : Bool) (s : OpenTherm) (hm : s.mode_ = .READ)
    (hne : v.toNat ≠ s.capture_ &&& 1)
    (hdata : (s.clock_ = 1 ∧ ¬ s.capture_ > 0xF) ∨ (¬ s.clock_ = 1 ∧ s.capture_ > 0xF))
    (hpos : s.bit_pos_ = STOP_BIT) :
    timer_isr hw v s =
      if verify_stop_bit_ (s.capture_ &&& 1) s = .NO_ERROR then
        stop_timer_ hw { s with mode_ := .RECEIVED }
      else
        stop_timer_ hw { s with mode_ := .ERROR_PROTOCOL,
                                error_type_ := verify_stop_bit_ (s.capture_ &&& 1) s } := by
  obtain ⟨mode, err, cap, clk, data, bp, tc, dt, te, tet, pin⟩ := s
  simp only at hm hne hdata hpos
  subst hm
  have h1 : ¬ (clk = 1 ∧ cap > 0xF) := by tauto
  have h2 : clk = 1 ∨ cap > 0xF := by tauto
  simp only [timer_isr, ne_eq, hne, not_false_eq_true, if_true, h1, if_false, h2, hpos]

/-- A data point before the stop-bit position shifts in the level of the sample
before. -/
theorem read_tick_data (hw : TimerHw) (v : Bool) (s : OpenTherm) (hm : s.mode_ = .READ)
    (hne : v.toNat ≠ s.capture_ &&& 1)
    (hdata : (s.clock_ = 1 ∧ ¬ s.capture_ > 0xF) ∨ (¬ s.clock_ = 1 ∧ s.capture_ > 0xF))
    (hpos : s.bit_pos_ ≠ STOP_BIT) :
    timer_isr hw v s =
      { s with data_ := ((s.data_ <<< 1) ||| (s.capture_ &&& 1)) % 2 ^ 32,
               bit_pos_ := (s.bit_pos_ + 1) % 256, clock_ := 0, capture_ := 2 + v.toNat } := by
  obtain ⟨mode, err, cap, clk, data, bp, tc, dt, te, tet, pin⟩ := s
  simp only at hm hne hdata hpos
  subst hm
  have h1 : ¬ (clk = 1 ∧ cap > 0xF) := by tauto
  have h2 : clk = 1 ∨ cap > 0xF := by tauto
  simp only [timer_isr, ne_eq, hne, not_false_eq_true, if_true, h1, if_false, h2, hpos,
    bit_read_, capture_reset]

/-- A level change that is no data point sets the clock phase. -/
theorem read_tick_clock (hw : TimerHw) (v : Bool) (s : OpenTherm) (hm : s.mode_ = .READ)
    (hne : v.toNat ≠ s.capture_ &&& 1) (hclk : s.clock_ ≠ 1) (hc : ¬ s.capture_ > 0xF) :
    timer_isr hw v s = { s with clock_ := 1, capture_ := 2 + v.toNat } := by
  obtain ⟨mode, err, cap, clk, data, bp, tc, dt, te, tet, pin⟩ := s
  simp only at hm hne hclk hc
  subst hm
  have h1 : ¬ (clk = 1 ∧ cap > 0xF) := by tauto
  have h2 : ¬ (clk = 1 ∨ cap > 0xF) := by tauto
  simp only [timer_isr, ne_eq, hne, not_false_eq_true, if_true, h1, if_false, h2, capture_reset]

/-- C22: stop-bit classification. In `READ` with the bit position at
`STOP_BIT`, at a data-point transition (a level change with exactly one of:
clock phase 1, `capture_ > 0xF`) the previous sample and the accumulated word
decide: previous sample high and an even number of set bits gives `RECEIVED`;
previous sample high and an odd number gives `ERROR_PROTOCOL` with
`PARITY_ERROR`; previous sample low gives `ERROR_PROTOCOL` with
`INVALID_STOP_BIT`. The shift register and the bit position are unchanged. -/
theorem stop_bit_classification (hw : TimerHw) (v : Bool) (s : OpenTherm)
    (hm : s.mode_ = .READ) (hpos : s.bit_pos_ = STOP_BIT)
    (hne : v.toNat ≠ s.capture_ &&& 1)
    (hdata : (s.clock_ = 1 ∧ ¬ s.capture_ > 0xF) ∨ (¬ s.clock_ = 1 ∧ s.capture_ > 0xF)) :
    (s.capture_ &&& 1 = 1 → count_ones 32 s.data_ % 2 = 0 →
        (timer_isr hw v s).mode_ = .RECEIVED) ∧
      (s.capture_ &&& 1 = 1 → count_ones 32 s.data_ % 2 = 1 →
        (timer_isr hw v s).mode_ = .ERROR_PROTOCOL ∧
          (timer_isr hw v s).error_type_ = .PARITY_ERROR) ∧
      (s.capture_ &&& 1 = 0 →
        (timer_isr hw v s).mode_ = .ERROR_PROTOCOL ∧
          (timer_isr hw v s).error_type_ = .INVALID_STOP_BIT) ∧
      (timer_isr hw v s).data_ = s.data_ ∧ (timer_isr hw v s).bit_pos_ = s.bit_pos_ := by
  rw [read_tick_stop hw v s hm hne hdata hpos]
  refine ⟨?_, ?_, ?_, ?_, ?_⟩
  · intro hl hp
    have hv : verify_stop_bit_ (s.capture_ &&& 1) s = .NO_ERROR := by
      simp [verify_stop_bit_, hl, check_parity_all, hp]
    rw [if_pos hv, stop_timer__eq]
  · intro hl hp
    have hv : verify_stop_bit_ (s.capture_ &&& 1) s = .PARITY_ERROR := by
      simp [verify_stop_bit_, hl, check_parity_all, hp]
    rw [if_neg (by rw [hv]; decide), stop_timer__eq, hv]
    exact ⟨rfl, rfl⟩
  · intro hl
    have hv : verify_stop_bit_ (s.capture_ &&& 1) s = .INVALID_STOP_BIT := by
      simp [verify_stop_bit_, hl]
    rw [if_neg (by rw [hv]; decide), stop_timer__eq, hv]
    exact ⟨rfl, rfl⟩
  · split_ifs <;> rw [stop_timer__eq]
  · split_ifs <;> rw [stop_timer__eq]

/-- C22, witness: the stop bit after a word with two set bits. -/
theorem stop_bit_classification_witness :
    (at_stop_bit.mode_ = .READ ∧ at_stop_bit.bit_pos_ = STOP_BIT ∧
      false.toNat ≠ at_stop_bit.capture_ &&& 1 ∧
      ((at_stop_bit.clock_ = 1 ∧ ¬ at_stop_bit.capture_ > 0xF) ∨
        (¬ at_stop_bit.clock_ = 1 ∧ at_stop_bit.capture_ > 0xF)) ∧
      at_stop_bit.capture_ &&& 1 = 1 ∧ count_ones 32 at_stop_bit.data_ % 2 = 0) ∧
    (timer_isr timer_ok false at_stop_bit).mode_ = .RECEIVED :=
  ⟨⟨rfl, rfl, by decide, by decide, by decide, by decide⟩,
    (stop_bit_classification timer_ok false at_stop_bit rfl rfl (by decide) (by decide)).1
      (by decide) (by decide)⟩

/-- A run of equal samples: `j` more samples at the level of the one before
only shift the capture register, which has `m` significant bits at most, while
`m + j` stays within 9. -/
theorem read_run (hw : TimerHw) (v : Bool) (j : Nat) :
    ∀ (m : Nat) (s : OpenTherm), s.mode_ = .READ → s.capture_ &&& 1 = v.toNat →
      s.capture_ < 2 ^ m → m + j ≤ 9 →
      ∃ c, run_isr hw (List.replicate j v) s = { s with capture_ := c } ∧ c &&& 1 = v.toNat ∧
        s.capture_ * 2 ^ j ≤ c ∧ c < 2 ^ (m + j) := by
  induction j with
  | zero =>
    intro m s _ hl hc _
    exact ⟨s.capture_, rfl, hl, by simp, by simpa using hc⟩
  | succ j ih =>
    intro m s hm hl hc hmj
    have hv : v.toNat < 2 := by cases v <;> decide
    have h256 : s.capture_ < 2 ^ 8 :=
      lt_of_lt_of_le hc (Nat.pow_le_pow_right (by norm_num) (by omega))
    rw [List.replicate_succ, run_isr, read_tick_equal hw v s hm hl.symm (by norm_num at h256; omega)]
    obtain ⟨c, h1, h2, h3, h4⟩ := ih (m + 1) { s with capture_ := 2 * s.capture_ + v.toNat } hm
      (by simp only [Nat.and_one_is_mod]; omega)
      (by simp only [pow_succ]; omega) (by omega)
    refine ⟨c, h1, h2, ?_, ?_⟩
    · simp only at h3
      calc s.capture_ * 2 ^ (j + 1) = 2 * s.capture_ * 2 ^ j := by ring
        _ ≤ (2 * s.capture_ + v.toNat) * 2 ^ j := Nat.mul_le_mul_right _ (by omega)
        _ ≤ c := h3
    · have : m + 1 + j = m + (j + 1) := by omega
      rw [this] at h4
      exact h4

/-- The decoder after a run of `k` equal samples that a level change to `v`
began. -/
theorem read_run_of (hw : TimerHw) (v : Bool) (s : OpenTherm) (hm : s.mode_ = .READ)
    (hcap : s.capture_ = 2 + v.toNat) (k : Nat) (h1 : 1 ≤ k) (h8 : k ≤ 8) :
    ∃ t, run_isr hw (List.replicate (k - 1) v) s = t ∧ t.mode_ = .READ ∧
      t.capture_ &&& 1 = v.toNat ∧ 2 ^ k ≤ t.capture_ ∧ t.capture_ < 2 ^ (k + 1) ∧
      t.clock_ = s.clock_ ∧ t.data_ = s.data_ ∧ t.bit_pos_ = s.bit_pos_ ∧
      t.error_type_ = s.error_type_ := by
  have hv : v.toNat < 2 := by cases v <;> decide
  obtain ⟨c, c1, c2, c3, c4⟩ := read_run hw v (k - 1) 2 s hm
    (by rw [hcap, Nat.and_one_is_mod]; omega) (by rw [hcap]; norm_num; omega) (by omega)
  refine ⟨_, c1, hm, c2, ?_, ?_, rfl, rfl, rfl, rfl⟩
  · calc 2 ^ k = 2 * 2 ^ (k - 1) := by
          obtain ⟨n, rfl⟩ : ∃ n, k = n + 1 := ⟨k - 1, by omega⟩
          simp [pow_succ, mul_comm]
      _ ≤ s.capture_ * 2 ^ (k - 1) := Nat.mul_le_mul_right _ (by omega)
      _ ≤ c := c3
  · have : 2 + (k - 1) = k + 1 := by omega
    rw [this] at c4
    exact c4

/-- C23: Manchester cadence errors. For a decoder in `READ` right after a
level change to `v` (the capture register is then binary `1v`, as every level
change that stays in `READ` leaves it) and the run of equal samples it began:
runs of up to 8 samples stay in `READ` and leave the decoding state alone;
the 9th equal sample aborts with `NO_CHANGE_TOO_LONG`; a level change ending a
run of 4 or more samples with the clock phase at 1 aborts with
`NO_TRANSITION`; a level change ending a run of at most 3 samples does not
raise `NO_TRANSITION`: with clock phase 1 before the stop-bit position it
shifts in the previous level and sets the clock phase to 0, with clock phase
0 it only sets the clock phase to 1. -/
theorem manchester_cadence (hw : TimerHw) (v : Bool) (s : OpenTherm) (hm : s.mode_ = .READ)
    (hcap : s.capture_ = 2 + v.toNat) :
    (∀ (w : Bool) (s0 : OpenTherm), s0.mode_ = .READ → w.toNat ≠ s0.capture_ &&& 1 →
        (timer_isr hw w s0).mode_ = .READ → (timer_isr hw w s0).capture_ = 2 + w.toNat) ∧
      (∀ k, 1 ≤ k → k ≤ 8 →
        (run_isr hw (List.replicate (k - 1) v) s).mode_ = .READ ∧
          (run_isr hw (List.replicate (k - 1) v) s).clock_ = s.clock_ ∧
          (run_isr hw (List.replicate (k - 1) v) s).data_ = s.data_ ∧
          (run_isr hw (List.replicate (k - 1) v) s).bit_pos_ = s.bit_pos_ ∧
          (run_isr hw (List.replicate (k - 1) v) s).error_type_ = s.error_type_) ∧
      ((run_isr hw (List.replicate 8 v) s).mode_ = .ERROR_PROTOCOL ∧
        (run_isr hw (List.replicate 8 v) s).error_type_ = .NO_CHANGE_TOO_LONG) ∧
      (∀ k, 4 ≤ k → k ≤ 8 → s.clock_ = 1 →
        (run_isr hw (List.replicate (k - 1) v ++ [!v]) s).mode_ = .ERROR_PROTOCOL ∧
          (run_isr hw (List.replicate (k - 1) v ++ [!v]) s).error_type_ = .NO_TRANSITION) ∧
      (∀ k, 1 ≤ k → k ≤ 3 →
        ¬ ((run_isr hw (List.replicate (k - 1) v ++ [!v]) s).mode_ = .ERROR_PROTOCOL ∧
          (run_isr hw (List.replicate (k - 1) v ++ [!v]) s).error_type_ = .NO_TRANSITION) ∧
        (s.clock_ = 1 → s.bit_pos_ ≠ STOP_BIT →
          (run_isr hw (List.replicate (k - 1) v ++ [!v]) s).mode_ = .READ ∧
            (run_isr hw (List.replicate (k - 1) v ++ [!v]) s).data_ =
              ((s.data_ <<< 1) ||| v.toNat) % 2 ^ 32 ∧
            (run_isr hw (List.replicate (k - 1) v ++ [!v]) s).bit_pos_ =
              (s.bit_pos_ + 1) % 256 ∧
            (run_isr hw (List.replicate (k - 1) v ++ [!v]) s).clock_ = 0) ∧
        (s.clock_ = 0 →
          (run_isr hw (List.replicate (k - 1) v ++ [!v]) s).mode_ = .READ ∧
            (run_isr hw (List.replicate (k - 1) v ++ [!v]) s).data_ = s.data_ ∧
            (run_isr hw (List.replicate (k - 1) v ++ [!v]) s).bit_pos_ = s.bit_pos_ ∧
            (run_isr hw (List.replicate (k - 1) v ++ [!v]) s).clock_ = 1)) := by
  have hnv : ∀ c : Nat, c &&& 1 = v.toNat → (!v).toNat ≠ c &&& 1 := by
    intro c hc
    rw [hc]
    cases v <;> decide
  refine ⟨?_, ?_, ?_, ?_, ?_⟩
  · intro w s0 hm0 hne hres
    by_cases hnt : s0.clock_ = 1 ∧ s0.capture_ > 0xF
    · rw [read_tick_no_transition hw w s0 hm0 hne hnt.1 hnt.2, stop_timer__eq] at hres
      exact absurd hres (by simp)
    · by_cases hdp : s0.clock_ = 1 ∨ s0.capture_ > 0xF
      · have hdata : (s0.clock_ = 1 ∧ ¬ s0.capture_ > 0xF) ∨ (¬ s0.clock_ = 1 ∧ s0.capture_ > 0xF) := by
          tauto
        by_cases hpos : s0.bit_pos_ = STOP_BIT
        · rw [read_tick_stop hw w s0 hm0 hne hdata hpos] at hres
          split_ifs at hres <;> rw [stop_timer__eq] at hres <;> exact absurd hres (by simp)
        · rw [read_tick_data hw w s0 hm0 hne hdata hpos]
      · rw [read_tick_clock hw w s0 hm0 hne (by tauto) (by tauto)]
  · intro k h1 h8
    obtain ⟨t, t1, t2, -, -, -, t6, t7, t8, t9⟩ := read_run_of hw v s hm hcap k h1 h8
    rw [t1]
    exact ⟨t2, t6, t7, t8, t9⟩
  · obtain ⟨t, t1, t2, t3, t4, -⟩ := read_run_of hw v s hm hcap 8 (by norm_num) le_rfl
    have : List.replicate 8 v = List.replicate (8 - 1) v ++ [v] := by
      simp [← List.replicate_succ']
    rw [this, run_isr_append, t1]
    simp only [run_isr]
    rw [read_tick_too_long hw v t t2 t3.symm (by norm_num at t4; omega), stop_timer__eq]
    exact ⟨rfl, rfl⟩
  · intro k h4 h8 hclk
    obtain ⟨t, t1, t2, t3, t4, -, t6, -⟩ := read_run_of hw v s hm hcap k (by omega) h8
    have h16 : 2 ^ 4 ≤ t.capture_ := le_trans (Nat.pow_le_pow_right (by norm_num) h4) t4
    rw [run_isr_append, t1]
    simp only [run_isr]
    rw [read_tick_no_transition hw (!v) t t2 (hnv _ t3) (t6.trans hclk)
      (by norm_num at h16; omega), stop_timer__eq]
    exact ⟨rfl, rfl⟩
  · intro k h1 h3
    obtain ⟨t, t1, t2, t3, -, t5, t6, t7, t8, t9⟩ := read_run_of hw v s hm hcap k h1 (by omega)
    have h16 : t.capture_ < 2 ^ 4 :=
      lt_of_lt_of_le t5 (Nat.pow_le_pow_right (by norm_num) (by omega))
    have hc : ¬ t.capture_ > 0xF := by norm_num at h16; omega
    rw [run_isr_append, t1]
    simp only [run_isr]
    refine ⟨?_, ?_, ?_⟩
    · by_cases hclk : t.clock_ = 1
      · by_cases hpos : t.bit_pos_ = STOP_BIT
        · rw [read_tick_stop hw (!v) t t2 (hnv _ t3) (Or.inl ⟨hclk, hc⟩) hpos]
          split_ifs with hv
          · rw [stop_timer__eq]
            simp
          · rw [stop_timer__eq]
            simp only [not_and]
            intro _ he
            exfalso
            revert he hv
            simp only [verify_stop_bit_]
            split_ifs <;> simp
        · rw [read_tick_data hw (!v) t t2 (hnv _ t3) (Or.inl ⟨hclk, hc⟩) hpos]
          simp [t2]
      · rw [read_tick_clock hw (!v) t t2 (hnv _ t3) hclk hc]
        simp [t2]
    · intro hclk hpos
      rw [read_tick_data hw (!v) t t2 (hnv _ t3) (Or.inl ⟨t6.trans hclk, hc⟩)
        (by rw [t8]; exact hpos)]
      rw [t3, t7, t8]
      exact ⟨t2, rfl, rfl, rfl⟩
    · intro hclk
      rw [read_tick_clock hw (!v) t t2 (hnv _ t3) (by rw [t6, hclk]; decide) hc]
      exact ⟨t2, t7, t8, rfl⟩

/-- C23, witness: a run of high samples begun with the clock phase at 1. -/
theorem manchester_cadence_witness :
    (after_level_change.mode_ = .READ ∧ after_level_change.capture_ = 2 + true.toNat) ∧
      ((run_isr timer_ok (List.replicate 8 true) after_level_change).mode_ = .ERROR_PROTOCOL ∧
        (run_isr timer_ok (List.replicate 8 true) after_level_change).error_type_ =
          .NO_CHANGE_TOO_LONG) ∧
      ((run_isr timer_ok (List.replicate (4 - 1) true ++ [!true])
          after_level_change).mode_ = .ERROR_PROTOCOL ∧
        (run_isr timer_ok (List.replicate (4 - 1) true ++ [!true])
          after_level_change).error_type_ = .NO_TRANSITION) :=
  ⟨⟨rfl, rfl⟩, (manchester_cadence timer_ok true after_level_change rfl rfl).2.2.1,
    (manchester_cadence timer_ok true after_level_change rfl rfl).2.2.2.1 4 (by decide)
      (by decide) rfl⟩

/-! ## The decoder leaves `READ` -/

theorem size_shift (c : Nat) (v : Bool) (hc : 1 ≤ c) : (2 * c + v.toNat).size = c.size + 1 := by
  have h : 2 * c + v.toNat = Nat.bit v c := by
    cases v <;> simp [Nat.bit]
  rw [h, Nat.size_bit]
  rw [← h]
  omega

theorem size_reset (v : Bool) : (2 + v.toNat).size = 2 := by
  have h := size_shift 1 v le_rfl
  rw [Nat.size_one] at h
  exact h

theorem size_le_eight (c : Nat) (hc : c ≤ 0xFF) : c.size ≤ 8 :=
  Nat.size_le.2 (by norm_num; omega)

/-- One tick of a decoder in `READ` ends the frame or uses up budget. -/
theorem read_tick_progress (hw : TimerHw) (v : Bool) (s : OpenTherm) (hs : read_invariant s) :
    ((timer_isr hw v s).mode_ = .RECEIVED ∨ (timer_isr hw v s).mode_ = .ERROR_PROTOCOL) ∨
      (read_invariant (timer_isr hw v s) ∧ read_budget (timer_isr hw v s) < read_budget s) := by
  obtain ⟨hm, hclk, hpos, hc1, hc2⟩ := hs
  have hv : v.toNat < 2 := by cases v <;> decide
  unfold STOP_BIT at hpos
  by_cases heq : v.toNat = s.capture_ &&& 1
  · by_cases hc : s.capture_ ≤ 0xFF
    · right
      rw [read_tick_equal hw v s hm heq hc]
      refine ⟨⟨hm, hclk, hpos, ?_, ?_⟩, ?_⟩
      · simp only; omega
      · simp only; omega
      · have h8 := size_le_eight _ hc
        simp only [read_budget, run_room, size_shift _ v hc1]
        omega
    · left
      rw [read_tick_too_long hw v s hm heq (by omega), stop_timer__eq]
      exact Or.inr rfl
  · by_cases hnt : s.clock_ = 1 ∧ s.capture_ > 0xF
    · left
      rw [read_tick_no_transition hw v s hm heq hnt.1 hnt.2, stop_timer__eq]
      exact Or.inr rfl
    · by_cases hdp : s.clock_ = 1 ∨ s.capture_ > 0xF
      · have hdata : (s.clock_ = 1 ∧ ¬ s.capture_ > 0xF) ∨ (¬ s.clock_ = 1 ∧ s.capture_ > 0xF) := by
          tauto
        by_cases hsb : s.bit_pos_ = STOP_BIT
        · left
          rw [read_tick_stop hw v s hm heq hdata hsb]
          split_ifs <;> rw [stop_timer__eq]
          · exact Or.inl rfl
          · exact Or.inr rfl
        · right
          rw [read_tick_data hw v s hm heq hdata hsb]
          unfold STOP_BIT at hsb
          have hmod : (s.bit_pos_ + 1) % 256 = s.bit_pos_ + 1 := Nat.mod_eq_of_lt (by omega)
          refine ⟨⟨hm, ?_, ?_, ?_, ?_⟩, ?_⟩
          · simp only; omega
          · simp only [hmod, STOP_BIT]; omega
          · simp only; omega
          · simp only; omega
          · simp only [read_budget, run_room, hmod, STOP_BIT, size_reset, if_true]
            split_ifs <;> omega
      · right
        rw [read_tick_clock hw v s hm heq (by tauto) (by tauto)]
        have hclk0 : s.clock_ = 0 := by
          have : s.clock_ ≠ 1 := by tauto
          omega
        refine ⟨⟨hm, ?_, hpos, ?_, ?_⟩, ?_⟩
        · simp only; omega
        · simp only; omega
        · simp only; omega
        · simp only [read_budget, run_room, hclk0, STOP_BIT, size_reset, if_true, one_ne_zero,
            if_false]
          omega

/-- The budget of a decoder in `READ` is at most 611. -/
theorem read_budget_le (s : OpenTherm) (hs : read_invariant s) : read_budget s ≤ 611 := by
  obtain ⟨-, -, -, hc1, -⟩ := hs
  have h1 : 1 ≤ s.capture_.size := by
    have := (Nat.lt_size (m := 0) (n := s.capture_)).2 (by simpa using hc1)
    omega
  simp only [read_budget, run_room, STOP_BIT]
  split_ifs <;> omega

theorem terminal_stays (hw : TimerHw) (samples : List Bool) (s : OpenTherm)
    (h : s.mode_ = .RECEIVED ∨ s.mode_ = .ERROR_PROTOCOL) : run_isr hw samples s = s := by
  apply run_isr_terminal <;> rcases h with h | h <;> rw [h] <;> decide

/-- A decoder in `READ` has left it when the ticks outnumber its budget. -/
theorem read_runs_out (hw : TimerHw) (samples : List Bool) :
    ∀ s : OpenTherm, read_invariant s → read_budget s < samples.length →
      (run_isr hw samples s).mode_ = .RECEIVED ∨
        (run_isr hw samples s).mode_ = .ERROR_PROTOCOL := by
  induction samples with
  | nil => intro s _ h; simp at h
  | cons v vs ih =>
    intro s hs hb
    rw [run_isr]
    rcases read_tick_progress hw v s hs with ht | ⟨hi, hlt⟩
    · rw [terminal_stays hw vs _ ht]
      exact ht
    · exact ih _ hi (by simp only [List.length_cons] at hb; omega)

/-- A decoder in `READ` stays within the invariant while it is in `READ`, and
goes nowhere but to `RECEIVED` and `ERROR_PROTOCOL`. -/
theorem read_invariant_run (hw : TimerHw) (samples : List Bool) :
    ∀ s : OpenTherm, read_invariant s →
      read_invariant (run_isr hw samples s) ∨ (run_isr hw samples s).mode_ = .RECEIVED ∨
        (run_isr hw samples s).mode_ = .ERROR_PROTOCOL := by
  induction samples with
  | nil => intro s hs; exact Or.inl hs
  | cons v vs ih =>
    intro s hs
    rw [run_isr]
    rcases read_tick_progress hw v s hs with ht | ⟨hi, -⟩
    · rw [terminal_stays hw vs _ ht]
      exact Or.inr ht
    · exact ih _ hi

/-- C27: the decoder cannot stay in `READ` forever. `read_`, and with it the
tick of a listening decoder that samples high, leaves the decoder in `READ`
with clock phase 1, bit position 0 and the capture register at 1; from there
on, for every sequence of samples, the decoder is in `READ`, `RECEIVED` or
`ERROR_PROTOCOL`, while it is in `READ` the bit position is at most `STOP_BIT`
and the clock phase 0 or 1 (and the capture register is not 0 and has at most
9 bits), and after 612 ticks it is in `RECEIVED` or `ERROR_PROTOCOL`. -/
theorem read_terminates (hw : TimerHw) (s : OpenTherm) (samples : List Bool)
    (hs : read_invariant s) :
    (∀ (hw0 : TimerHw) (s0 : OpenTherm), read_invariant (read_ hw0 s0)) ∧
      (∀ (hw0 : TimerHw) (s0 : OpenTherm), s0.mode_ = .LISTEN → s0.timeout_counter_ ≠ 0 →
        read_invariant (timer_isr hw0 true s0)) ∧
      ((run_isr hw samples s).mode_ = .READ ∨ (run_isr hw samples s).mode_ = .RECEIVED ∨
        (run_isr hw samples s).mode_ = .ERROR_PROTOCOL) ∧
      ((run_isr hw samples s).mode_ = .READ →
        (run_isr hw samples s).bit_pos_ ≤ STOP_BIT ∧ (run_isr hw samples s).clock_ ≤ 1 ∧
          1 ≤ (run_isr hw samples s).capture_ ∧ (run_isr hw samples s).capture_ < 512) ∧
      (612 ≤ samples.length →
        (run_isr hw samples s).mode_ = .RECEIVED ∨
          (run_isr hw samples s).mode_ = .ERROR_PROTOCOL) := by
  refine ⟨?_, ?_, ?_, ?_, ?_⟩
  · intro hw0 s0
    simp only [read_invariant, read_, start_read_timer_, start_esp32_timer__eq, STOP_BIT]
    exact ⟨trivial, le_rfl, by norm_num, le_rfl, by norm_num⟩
  · intro hw0 s0 hm ht
    obtain ⟨h1, h2, h3, -, h5⟩ := listen_first_high hw0 s0 hm ht
    exact ⟨h1, by rw [h2], by rw [h5]; exact Nat.zero_le _, by rw [h3], by rw [h3]; norm_num⟩
  · rcases read_invariant_run hw samples s hs with h | h | h
    · exact Or.inl h.1
    · exact Or.inr (Or.inl h)
    · exact Or.inr (Or.inr h)
  · intro hm
    rcases read_invariant_run hw samples s hs with h | h | h
    · exact ⟨h.2.2.1, h.2.1, h.2.2.2.1, h.2.2.2.2⟩
    · rw [hm] at h; exact absurd h (by decide)
    · rw [hm] at h; exact absurd h (by decide)
  · intro hlen
    exact read_runs_out hw samples s hs (lt_of_le_of_lt (read_budget_le s hs) (by omega))

/-- C27, witness: a decoder that has just entered `READ` and samples a line
that stays high. -/
theorem read_terminates_witness :
    read_invariant (read_ timer_ok (OpenTherm.ctor 800)) ∧
      ((run_isr timer_ok (List.replicate 612 true)
          (read_ timer_ok (OpenTherm.ctor 800))).mode_ = .RECEIVED ∨
        (run_isr timer_ok (List.replicate 612 true)
          (read_ timer_ok (OpenTherm.ctor 800))).mode_ = .ERROR_PROTOCOL) :=
  ⟨⟨rfl, by decide, by decide, by decide, by decide⟩,
    (read_terminates timer_ok (read_ timer_ok (OpenTherm.ctor 800)) (List.replicate 612 true)
      ⟨rfl, by decide, by decide, by decide, by decide⟩).2.2.2.2
      (by rw [List.length_replicate])⟩

/-! ## Parity and the 16-bit payload -/

/-- C29: `check_parity_` returns true exactly when its 32-bit argument has an
even number of set bits. The count is taken over bits 0 to 31, which are the
bits of the argument as a `uint32_t`; a value below `2 ^ 32` has no other set
bits. -/
theorem check_parity_popcount (v : Nat) :
    (check_parity_ v = true ↔ count_ones 32 v % 2 = 0) ∧
      (check_parity_ v = false ↔ count_ones 32 v % 2 = 1) ∧
      count_ones 32 (v % 2 ^ 32) = count_ones 32 v ∧
      (v < 2 ^ 32 → ∀ i, 32 ≤ i → v.testBit i = false) := by
  refine ⟨?_, ?_, count_ones_mod 32 32 v le_rfl, ?_⟩
  · rw [check_parity_all]
    simp
  · rw [check_parity_all]
    simp only [decide_eq_false_iff_not]
    omega
  · intro hv i hi
    exact Nat.testBit_lt_two_pow (lt_of_lt_of_le hv (Nat.pow_le_pow_right (by norm_num) hi))

/-- C25: sender and receiver agree on parity. For every frame with type in
0..7 the word built by `send` satisfies `check_parity_` (it has an even number
of set bits), so `verify_stop_bit_` on that word with a high stop bit returns
`NO_ERROR`. For type 8 this fails: bit 3 of the type already occupies bit 31,
the word of the frame with type 8 and the other fields 0 has one set bit and
is rejected with `PARITY_ERROR`. -/
theorem sender_receiver_parity (hw : TimerHw) (d : OpenthermData) (s : OpenTherm)
    (hwf : d.wf) (ht : d.type < 8) :
    check_parity_ (send hw d s).data_ = true ∧ count_ones 32 (send hw d s).data_ % 2 = 0 ∧
      verify_stop_bit_ 1 (send hw d s) = .NO_ERROR ∧
      (OpenthermData.wf { type := 8, id := 0, valueHB := 0, valueLB := 0 } ∧
        (send timer_ok { type := 8, id := 0, valueHB := 0, valueLB := 0 }
          (OpenTherm.ctor 800)).data_ = 2 ^ 31 ∧
        check_parity_ (send timer_ok { type := 8, id := 0, valueHB := 0, valueLB := 0 }
          (OpenTherm.ctor 800)).data_ = false ∧
        verify_stop_bit_ 1 (send timer_ok { type := 8, id := 0, valueHB := 0, valueLB := 0 }
          (OpenTherm.ctor 800)) = .PARITY_ERROR) := by
  have hp := (send_parity hw d s hwf ht).2
  have hc : check_parity_ (send hw d s).data_ = true := by
    rw [check_parity_all]
    simp [hp]
  refine ⟨hc, hp, ?_, by decide, by decide, by decide, by decide⟩
  simp [verify_stop_bit_, hc]

/-- C25, witness: the frame with type 0, id 1 and value 0. -/
theorem sender_receiver_parity_witness :
    (OpenthermData.wf { type := 0, id := 1, valueHB := 0, valueLB := 0 } ∧ (0 : Nat) < 8) ∧
      verify_stop_bit_ 1
        (send timer_ok { type := 0, id := 1, valueHB := 0, valueLB := 0 } (OpenTherm.ctor 800)) =
        .NO_ERROR :=
  ⟨⟨by decide, by decide⟩,
    (sender_receiver_parity timer_ok { type := 0, id := 1, valueHB := 0, valueLB := 0 }
      (OpenTherm.ctor 800) (by decide) (by decide)).2.2.1⟩

theorem u16_set_fields (x : Nat) (d : OpenthermData) (hx : x < 65536) :
    (d.u16_set x).valueHB = x / 256 ∧ (d.u16_set x).valueLB = x % 256 ∧
      (d.u16_set x).type = d.type ∧ (d.u16_set x).id = d.id := by
  unfold OpenthermData.u16_set
  refine ⟨?_, ?_, rfl, rfl⟩
  · show (x >>> 8) &&& 0xFF = x / 256
    rw [and_255, Nat.shiftRight_eq_div_pow]
    norm_num
    omega
  · show x &&& 0xFF = x % 256
    exact and_255 x

theorem u16_eq (d : OpenthermData) (hHB : d.valueHB < 256) (hLB : d.valueLB < 256) :
    d.u16 = d.valueHB * 256 + d.valueLB := by
  unfold OpenthermData.u16
  rw [Nat.mod_eq_of_lt (by omega : d.valueHB < 2 ^ 16),
    shiftLeft_or_eq_add _ _ 8 (by norm_num; exact hLB), Nat.mod_eq_of_lt]
  · norm_num
  · norm_num
    omega

/-- Writing an unsigned 16-bit value and reading it back. -/
theorem payload16_helper (d : OpenthermData) :
    (∀ x : Nat, x < 65536 → (d.u16_set x).u16 = x) ∧
      (d.valueHB < 256 → d.valueLB < 256 → d.u16 = d.valueHB * 256 + d.valueLB) := by
  refine ⟨?_, u16_eq d⟩
  intro x hx
  obtain ⟨f1, f2, -, -⟩ := u16_set_fields x d hx
  rw [u16_eq _ (by rw [f1]; omega) (by rw [f2]; omega), f1, f2]
  omega

/-- C30: the 16-bit payload accessors round-trip. For every unsigned 16-bit
`x`, `u16(x)` followed by `u16()` returns `x`; for every signed 16-bit `x`,
`s16(x)` followed by `s16()` returns `x`. Both setters store the high byte of
the 16-bit pattern in `valueHB` and the low byte in `valueLB` and leave `type`
and `id` alone. Writing back `u16()` leaves a pair of bytes unchanged. -/
theorem payload16_round_trip (d : OpenthermData) :
    (∀ x : Nat, x < 65536 →
        (d.u16_set x).u16 = x ∧ (d.u16_set x).valueHB = x / 256 ∧
          (d.u16_set x).valueLB = x % 256 ∧ (d.u16_set x).type = d.type ∧
          (d.u16_set x).id = d.id) ∧
      (∀ x : Int, -32768 ≤ x → x ≤ 32767 →
        (d.s16_set x).s16 = x ∧ ((d.s16_set x).valueHB : Int) = x % 65536 / 256 ∧
          ((d.s16_set x).valueLB : Int) = x % 256 ∧ (d.s16_set x).type = d.type ∧
          (d.s16_set x).id = d.id) ∧
      (d.valueHB < 256 → d.valueLB < 256 → d.u16_set d.u16 = d) := by
  refine ⟨?_, ?_, ?_⟩
  · intro x hx
    obtain ⟨f1, f2, f3, f4⟩ := u16_set_fields x d hx
    refine ⟨?_, f1, f2, f3, f4⟩
    rw [u16_eq _ (by rw [f1]; omega) (by rw [f2]; omega), f1, f2]
    omega
  · intro x hlo hhi
    refine ⟨s16_set_s16 x d hlo hhi, ?_, ?_, rfl, rfl⟩
    · show (((x / 256) % 256).toNat : Int) = x % 65536 / 256
      omega
    · show ((x % 256).toNat : Int) = x % 256
      omega
  · intro hHB hLB
    obtain ⟨f1, f2, -, -⟩ := u16_set_fields d.u16 d (by rw [u16_eq d hHB hLB]; omega)
    rw [u16_eq d hHB hLB] at f1 f2
    have e1 : (d.valueHB * 256 + d.valueLB) / 256 = d.valueHB := by omega
    have e2 : (d.valueHB * 256 + d.valueLB) % 256 = d.valueLB := by omega
    rw [e1] at f1
    rw [e2] at f2
    have hcases : ∀ r : OpenthermData, r.type = d.type → r.id = d.id → r.valueHB = d.valueHB →
        r.valueLB = d.valueLB → r = d := by
      intro r h1 h2 h3 h4
      cases r
      cases d
      simp only at h1 h2 h3 h4
      rw [h1, h2, h3, h4]
    apply hcases
    · rfl
    · rfl
    · rw [← f1, u16_eq d hHB hLB]
    · rw [← f2, u16_eq d hHB hLB]

/-- C30, witness: the values 0xABCD and -2, and the byte pair (0x15, 0x80). -/
theorem payload16_round_trip_witness :
    (OpenthermData.u16_set 43981 { type := 1, id := 1, valueHB := 0, valueLB := 0 }) =
        { type := 1, id := 1, valueHB := 171, valueLB := 205 } ∧
      (OpenthermData.u16_set 43981 { type := 1, id := 1, valueHB := 0, valueLB := 0 }).u16 =
        43981 ∧
      (OpenthermData.s16_set (-2) { type := 1, id := 1, valueHB := 0, valueLB := 0 }).s16 = -2 ∧
      OpenthermData.u16_set (OpenthermData.u16 { type := 1, id := 1, valueHB := 21, valueLB := 128 })
          { type := 1, id := 1, valueHB := 21, valueLB := 128 } =
        { type := 1, id := 1, valueHB := 21, valueLB := 128 } :=
  ⟨by decide,
    ((payload16_round_trip { type := 1, id := 1, valueHB := 0, valueLB := 0 }).1 43981
      (by decide)).1,
    ((payload16_round_trip { type := 1, id := 1, valueHB := 0, valueLB := 0 }).2.1 (-2)
      (by decide) (by decide)).1,
    (payload16_round_trip { type := 1, id := 1, valueHB := 21, valueLB := 128 }).2.2
      (by decide) (by decide)⟩

/-! ## The rotation at run time -/

theorem rotation_kept_refl (X : OpenthermHub) : rotation_kept X X := ⟨rfl, rfl, rfl, Or.inl rfl⟩

theorem handle_error_rotation (env : LoopEnv) (m : OperationMode) (X : OpenthermHub) :
    rotation_kept X (handle_error_ env m X).1 := by
  cases m <;> exact ⟨rfl, rfl, rfl, Or.inl rfl⟩

theorem read_response_rotation (env : LoopEnv) (X : OpenthermHub) :
    rotation_kept X (read_response_ env X) := by
  unfold read_response_
  split_ifs
  · exact ⟨rfl, rfl, rfl, Or.inl rfl⟩
  · exact ⟨rfl, rfl, rfl, Or.inr rfl⟩

/-- The second half of `sync_loop_` keeps the rotation. -/
theorem sync_receive_rotation (env : LoopEnv) (X R : OpenthermHub)
    (h : sync_receive env X = some R) : rotation_kept X R := by
  unfold sync_receive at h
  simp only at h
  split at h
  · simp only [Option.some.injEq] at h
    subst h
    exact handle_error_rotation _ _ _
  · split at h
    · exact absurd h (by simp)
    · simp only [Option.some.injEq] at h
      subst h
      exact ⟨rfl, rfl, rfl, Or.inl rfl⟩
    · split at h
      · simp only [Option.some.injEq] at h
        subst h
        exact handle_error_rotation _ _ _
      · split at h
        · simp only [Option.some.injEq] at h
          subst h
          exact ⟨rfl, rfl, rfl, Or.inl rfl⟩
        · simp only [Option.some.injEq] at h
          subst h
          exact read_response_rotation _ _

/-- The part of `sync_loop_` after the start of the conversation keeps the
rotation. -/
theorem sync_send_rotation (env : LoopEnv) (S R : OpenthermHub) (h : sync_send env S = some R) :
    rotation_kept S R := by
  unfold sync_send at h
  simp only at h
  split at h
  · simp only [Option.some.injEq] at h
    subst h
    exact handle_error_rotation _ _ _
  · split at h
    · exact absurd h (by simp)
    · simp only [Option.some.injEq] at h
      subst h
      exact ⟨rfl, rfl, rfl, Or.inl rfl⟩
    · split at h
      · simp only [Option.some.injEq] at h
        subst h
        exact handle_error_rotation _ _ _
      · split at h
        · simp only [Option.some.injEq] at h
          subst h
          exact ⟨rfl, rfl, rfl, Or.inl rfl⟩
        · rename_i ot _ _ _
          exact sync_receive_rotation env { S with opentherm_ := ot } R h

/-- A conversation is started only with the cursor on an element. -/
theorem start_conversation_cursor (env : LoopEnv) (hub started : OpenthermHub)
    (h : start_conversation_ env hub = some started) :
    (rotate_cursor hub).message_iterator_ < (rotate_cursor hub).messages_.length := by
  by_contra hge
  have hnone : requested_id hub = none := by
    unfold requested_id
    exact List.getElem?_eq_none (by omega)
  rw [start_conversation_none env hub hnone] at h
  exact absurd h (by simp)

/-- What one call of `loop` does to the rotation: nothing, with the
transceiver idle afterwards unless it was busy before; or the cursor moves on
after a response, with the transceiver idle afterwards; or a conversation is
started with the cursor, wrapped around if it was at the end, on an element. -/
theorem loop_cursor (env : LoopEnv) (hub R : OpenthermHub) (h : loop env hub = some R) :
    R.configured_messages_ = hub.configured_messages_ ∧
      ((R.messages_ = hub.messages_ ∧ R.sending_initial_ = hub.sending_initial_ ∧
          R.message_iterator_ = hub.message_iterator_ ∧
          (R.opentherm_.mode_ = .IDLE ∨ hub.opentherm_.mode_ ≠ .IDLE)) ∨
        (hub.opentherm_.mode_ ≠ .IDLE ∧ R.opentherm_.mode_ = .IDLE ∧
          R.messages_ = hub.messages_ ∧ R.sending_initial_ = hub.sending_initial_ ∧
          R.message_iterator_ = hub.message_iterator_ + 1) ∨
        (hub.opentherm_.mode_ = .IDLE ∧ R.messages_ = (rotate_cursor hub).messages_ ∧
          R.sending_initial_ = (rotate_cursor hub).sending_initial_ ∧
          (rotate_cursor hub).message_iterator_ < (rotate_cursor hub).messages_.length ∧
          (R.message_iterator_ = (rotate_cursor hub).message_iterator_ ∨
            (R.message_iterator_ = (rotate_cursor hub).message_iterator_ + 1 ∧
              R.opentherm_.mode_ = .IDLE)))) := by
  by_cases hsync : hub.sync_mode_ = true
  · unfold loop at h
    rw [if_pos hsync, sync_loop__eq] at h
    split at h
    · rename_i hidle
      have hmode : hub.opentherm_.mode_ ≠ .IDLE := by simpa [is_idle] using hidle
      simp only [Option.some.injEq] at h
      subst h
      exact ⟨rfl, Or.inl ⟨rfl, rfl, rfl, Or.inr hmode⟩⟩
    · rename_i hidle
      have hidle' : hub.opentherm_.mode_ = .IDLE := by simpa [is_idle] using hidle
      split at h
      · simp only [Option.some.injEq] at h
        subst h
        exact ⟨rfl, Or.inl ⟨rfl, rfl, rfl, Or.inl hidle'⟩⟩
      · cases hst : start_conversation_ env hub with
        | none => rw [hst] at h; exact absurd h (by simp)
        | some started =>
          rw [hst] at h
          obtain ⟨s1, s2, s3, s4, -⟩ := start_conversation_fields env hub started hst
          obtain ⟨r1, r2, r3, r4⟩ := sync_send_rotation env started R h
          obtain ⟨m1, -⟩ := sync_send_calls env started R h
          refine ⟨r3.trans s4, Or.inr (Or.inr ⟨hidle', r1.trans s2, r2.trans s3,
            start_conversation_cursor env hub started hst, ?_⟩)⟩
          rcases r4 with r4 | r4
          · exact Or.inl (r4.trans s1)
          · exact Or.inr ⟨by rw [r4, s1], m1⟩
  · unfold loop at h
    rw [if_neg hsync] at h
    simp only at h
    split at h
    · rename_i he
      obtain ⟨-, s1, -, -⟩ := handle_error_true _ _ _ he
      obtain ⟨r1, r2, r3, -⟩ := handle_error_rotation env (get_mode hub.opentherm_) hub
      have r4 : (handle_error_ env (get_mode hub.opentherm_) hub).1.message_iterator_ =
          hub.message_iterator_ := by
        cases get_mode hub.opentherm_ <;> rfl
      simp only [Option.some.injEq] at h
      subst h
      exact ⟨r3, Or.inl ⟨r1, r2, r4, Or.inl s1⟩⟩
    · unfold get_mode at h
      cases hm : hub.opentherm_.mode_ with
      | IDLE =>
        rw [hm] at h
        simp only [Option.map_eq_some'] at h
        obtain ⟨a, ha, rfl⟩ := h
        split at ha
        · simp only [Option.some.injEq] at ha
          subst ha
          exact ⟨rfl, Or.inl ⟨rfl, rfl, rfl, Or.inl hm⟩⟩
        · obtain ⟨s1, s2, s3, s4, -⟩ := start_conversation_fields env hub a ha
          exact ⟨s4, Or.inr (Or.inr ⟨rfl, s2, s3, start_conversation_cursor env hub a ha,
            Or.inl s1⟩)⟩
      | SENT =>
        rw [hm] at h
        simp only [Option.map_some', Option.some.injEq] at h
        subst h
        exact ⟨rfl, Or.inl ⟨rfl, rfl, rfl, Or.inr (by decide)⟩⟩
      | RECEIVED =>
        rw [hm] at h
        simp only [Option.map_some', Option.some.injEq] at h
        subst h
        obtain ⟨s1, -, -⟩ := read_response_stopped env hub
        obtain ⟨r1, r2, r3, r4⟩ := read_response_rotation env hub
        refine ⟨r3, ?_⟩
        rcases r4 with r4 | r4
        · exact Or.inl ⟨r1, r2, r4, Or.inl s1⟩
        · exact Or.inr (Or.inl ⟨by decide, s1, r1, r2, r4⟩)
      | LISTEN =>
        rw [hm] at h
        simp only [Option.map_some', Option.some.injEq] at h
        subst h
        exact ⟨rfl, Or.inl ⟨rfl, rfl, rfl, Or.inr (by decide)⟩⟩
      | READ =>
        rw [hm] at h
        simp only [Option.map_some', Option.some.injEq] at h
        subst h
        exact ⟨rfl, Or.inl ⟨rfl, rfl, rfl, Or.inr (by decide)⟩⟩
      | WRITE =>
        rw [hm] at h
        simp only [Option.map_some', Option.some.injEq] at h
        subst h
        exact ⟨rfl, Or.inl ⟨rfl, rfl, rfl, Or.inr (by decide)⟩⟩
      | ERROR_PROTOCOL =>
        rw [hm] at h
        simp only [Option.map_some', Option.some.injEq] at h
        subst h
        exact ⟨rfl, Or.inl ⟨rfl, rfl, rfl, Or.inr (by decide)⟩⟩
      | ERROR_TIMEOUT =>
        rw [hm] at h
        simp only [Option.map_some', Option.some.injEq] at h
        subst h
        exact ⟨rfl, Or.inl ⟨rfl, rfl, rfl, Or.inr (by decide)⟩⟩
      | ERROR_TIMER =>
        rw [hm] at h
        simp only [Option.map_some', Option.some.injEq] at h
        subst h
        exact ⟨rfl, Or.inl ⟨rfl, rfl, rfl, Or.inr (by decide)⟩⟩

theorem write_repeating_congr (a b : OpenthermHub)
    (h : a.configured_messages_ = b.configured_messages_) :
    write_repeating_messages_ a = write_repeating_messages_ b := by
  unfold write_repeating_messages_
  rw [h]

/-- After `setup` the status message is in the repeating list. -/
theorem setup_status_repeating (dt : Int) (hub0 : OpenthermHub) :
    MessageId.STATUS ∈ write_repeating_messages_ (setup true dt hub0) := by
  rw [repeating_messages_mem]
  exact mem_map_assign_self _ _ _

theorem cursor_invariant_setup (dt : Int) (hub0 : OpenthermHub)
    (hflag : hub0.sending_initial_ = true) : cursor_invariant (setup true dt hub0) := by
  refine ⟨Nat.zero_le _, fun hm => absurd rfl hm, ?_⟩
  have hf : (setup true dt hub0).sending_initial_ = true := hflag
  rw [hf, if_pos rfl]
  exact List.ne_nil_of_mem (setup_status_repeating dt hub0)

theorem cursor_invariant_tick (hw : TimerHw) (v : Bool) (hub : OpenthermHub)
    (hinv : cursor_invariant hub) :
    cursor_invariant { hub with opentherm_ := timer_isr hw v hub.opentherm_ } := by
  obtain ⟨i1, i2, i3⟩ := hinv
  refine ⟨i1, fun hm => i2 (fun hidle => hm ?_), i3⟩
  show (timer_isr hw v hub.opentherm_).mode_ = .IDLE
  rw [timer_isr_terminal hw v _ (by rw [hidle]; decide) (by rw [hidle]; decide)
    (by rw [hidle]; decide)]
  exact hidle

/-- With the invariant the cursor that `start_conversation_` dereferences is
on an element. -/
theorem cursor_on_element (hub : OpenthermHub) (hinv : cursor_invariant hub) :
    (rotate_cursor hub).message_iterator_ < (rotate_cursor hub).messages_.length := by
  obtain ⟨i1, -, i3⟩ := hinv
  obtain ⟨f1, f2, -⟩ := rotate_cursor_fields hub
  rw [f1, f2]
  by_cases hend : hub.message_iterator_ = hub.messages_.length
  · rw [if_pos hend]
    by_cases hflag : hub.sending_initial_ = true
    · rw [if_pos ⟨hend, hflag⟩]
      rw [hflag, if_pos rfl] at i3
      exact List.length_pos.2 i3
    · rw [if_neg (fun hc => hflag hc.2)]
      rw [if_neg hflag] at i3
      exact List.length_pos.2 i3
  · rw [if_neg hend, if_neg (fun hc => hend hc.1)]
    omega

theorem cursor_invariant_loop (env : LoopEnv) (hub R : OpenthermHub)
    (hinv : cursor_invariant hub) (h : loop env hub = some R) : cursor_invariant R := by
  obtain ⟨i1, i2, i3⟩ := hinv
  obtain ⟨hc, hcases⟩ := loop_cursor env hub R h
  have hw := write_repeating_congr R hub hc
  rcases hcases with ⟨c1, c2, c3, c4⟩ | ⟨c1, c2, c3, c4, c5⟩ | ⟨c1, c2, c3, c4, c5⟩
  · refine ⟨by rw [c1, c3]; exact i1, ?_, by rw [c2, c1, hw]; exact i3⟩
    intro hm
    rw [c1, c3]
    rcases c4 with c4 | c4
    · exact absurd c4 hm
    · exact i2 c4
  · have := i2 c1
    refine ⟨by rw [c3, c5]; omega, fun hm => absurd c2 hm, by rw [c4, c3, hw]; exact i3⟩
  · obtain ⟨-, -, f3⟩ := rotate_cursor_fields hub
    refine ⟨by rw [c2]; omega, ?_, ?_⟩
    · intro hm
      rw [c2]
      rcases c5 with c5 | ⟨-, c6⟩
      · omega
      · exact absurd c6 hm
    · by_cases hflag : R.sending_initial_ = true
      · rw [hflag, if_pos rfl, hw]
        rw [c3, f3] at hflag
        by_cases hend : hub.message_iterator_ = hub.messages_.length
        · rw [if_pos hend] at hflag
          exact absurd hflag (by decide)
        · rw [if_neg hend] at hflag
          rw [hflag, if_pos rfl] at i3
          exact i3
      · rw [if_neg hflag, c2]
        exact List.length_pos.1 (by omega)

theorem cursor_invariant_run (steps : List Step) :
    ∀ hub R : OpenthermHub, cursor_invariant hub → run_steps steps hub = some R →
      cursor_invariant R := by
  induction steps with
  | nil =>
    intro hub R hinv h
    simp only [run_steps, Option.some.injEq] at h
    subst h
    exact hinv
  | cons st rest ih =>
    intro hub R hinv h
    cases st with
    | tick v hw =>
      rw [run_steps] at h
      exact ih _ R (cursor_invariant_tick hw v hub hinv) h
    | loop env =>
      rw [run_steps] at h
      split at h
      · exact ih hub R hinv h
      · cases hl : loop env hub with
        | none => rw [hl] at h; exact absurd h (by simp)
        | some hub1 =>
          rw [hl] at h
          exact ih hub1 R (cursor_invariant_loop env hub hub1 hinv hl) h

/-- With the invariant `start_conversation_` has a result. -/
theorem start_conversation_some (env : LoopEnv) (hub : OpenthermHub)
    (hinv : cursor_invariant hub) :
    ∃ id started, requested_id hub = some id ∧ id ∈ (rotate_cursor hub).messages_ ∧
      start_conversation_ env hub = some started := by
  have hlt := cursor_on_element hub hinv
  have hreq : requested_id hub =
      some ((rotate_cursor hub).messages_.get ⟨(rotate_cursor hub).message_iterator_, hlt⟩) := by
    unfold requested_id
    exact List.getElem?_eq_getElem hlt
  exact ⟨_, _, hreq, List.get_mem _ _ _, start_conversation_eq env hub _ hreq⟩

/-- With the invariant the asynchronous `loop` has a result. -/
theorem loop_async_some (env : LoopEnv) (hub : OpenthermHub) (hs : hub.sync_mode_ = false)
    (hinv : cursor_invariant hub) : ∃ R, loop env hub = some R := by
  unfold loop
  rw [if_neg (by rw [hs]; decide)]
  simp only
  split
  · exact ⟨_, rfl⟩
  · unfold get_mode
    cases hm : hub.opentherm_.mode_ with
    | IDLE =>
      simp only
      split
      · exact ⟨_, rfl⟩
      · obtain ⟨id, started, -, -, hst⟩ := start_conversation_some env hub hinv
        rw [hst]
        exact ⟨_, rfl⟩
    | _ => exact ⟨_, rfl⟩

theorem run_steps_async_some (steps : List Step) :
    ∀ hub : OpenthermHub, hub.sync_mode_ = false → cursor_invariant hub →
      ∃ R, run_steps steps hub = some R := by
  induction steps with
  | nil => intro hub _ _; exact ⟨hub, rfl⟩
  | cons st rest ih =>
    intro hub hs hinv
    cases st with
    | tick v hw =>
      rw [run_steps]
      exact ih _ hs (cursor_invariant_tick hw v hub hinv)
    | loop env =>
      rw [run_steps]
      split
      · exact ih hub hs hinv
      · obtain ⟨hub1, hl⟩ := loop_async_some env hub hs hinv
        rw [hl]
        exact ih hub1 ((loop_calls env hub hub1 hl).1.trans hs)
          (cursor_invariant_loop env hub hub1 hinv hl)

theorem run_steps_configured (steps : List Step) :
    ∀ hub R : OpenthermHub, run_steps steps hub = some R →
      R.configured_messages_ = hub.configured_messages_ := by
  induction steps with
  | nil =>
    intro hub R h
    simp only [run_steps, Option.some.injEq] at h
    subst h
    rfl
  | cons st rest ih =>
    intro hub R h
    cases st with
    | tick v hw =>
      rw [run_steps] at h
      exact ih { hub with opentherm_ := timer_isr hw v hub.opentherm_ } R h
    | loop env =>
      rw [run_steps] at h
      split at h
      · exact ih hub R h
      · cases hl : loop env hub with
        | none => rw [hl] at h; exact absurd h (by simp)
        | some hub1 =>
          rw [hl] at h
          exact (ih hub1 R h).trans (loop_cursor env hub hub1 hl).1

/-- C26: cursor safety. In every state the scheduler reaches from a successful
`setup` (of a scheduler whose startup flag is set, as constructed) by timer
ticks and calls of `loop`, the cursor that `start_conversation_` dereferences,
after its wrap-around, is on an element of the rotation list, so
`start_conversation_` has a result and requests an id of the list. The status
message is in the repeating list; the list is replaced only with the cursor at
the end, and the cursor is then at the beginning. In asynchronous mode every
run of ticks and calls of `loop` has a result. -/
theorem cursor_safety (steps : List Step) (device_timeout : Int) (hub0 R : OpenthermHub)
    (hflag : hub0.sending_initial_ = true)
    (hrun : run_steps steps (setup true device_timeout hub0) = some R) :
    (rotate_cursor R).message_iterator_ < (rotate_cursor R).messages_.length ∧
      (∀ env : LoopEnv, ∃ id started, requested_id R = some id ∧
        id ∈ (rotate_cursor R).messages_ ∧ start_conversation_ env R = some started) ∧
      MessageId.STATUS ∈ write_repeating_messages_ R ∧
      (∀ h : OpenthermHub, (rotate_cursor h).messages_ = h.messages_ ∨
        (h.message_iterator_ = h.messages_.length ∧ (rotate_cursor h).message_iterator_ = 0)) ∧
      (hub0.sync_mode_ = false →
        ∀ more : List Step, ∃ R2, run_steps more (setup true device_timeout hub0) = some R2) := by
  have hinv := cursor_invariant_run steps _ R (cursor_invariant_setup device_timeout hub0 hflag)
    hrun
  refine ⟨cursor_on_element R hinv, fun env => start_conversation_some env R hinv, ?_, ?_, ?_⟩
  · rw [write_repeating_congr R _ (run_steps_configured steps _ R hrun)]
    exact setup_status_repeating device_timeout hub0
  · intro h
    obtain ⟨f1, f2, -⟩ := rotate_cursor_fields h
    by_cases hend : h.message_iterator_ = h.messages_.length
    · right
      rw [f1, if_pos hend]
      exact ⟨hend, rfl⟩
    · left
      rw [f2, if_neg (fun hc => hend hc.1)]
  · intro hs more
    exact run_steps_async_some more _ hs (cursor_invariant_setup device_timeout hub0 hflag)

set_option maxRecDepth 100000 in
/-- C26, witness: the run `timeout_run`, after which the next conversation
requests the status message. -/
theorem cursor_safety_witness :
    (OpenthermHub.ctor.sending_initial_ = true ∧
      run_steps timeout_run (setup true 1 OpenthermHub.ctor) = some timeout_run_result) ∧
      (rotate_cursor timeout_run_result).message_iterator_ <
        (rotate_cursor timeout_run_result).messages_.length ∧
      requested_id timeout_run_result = some MessageId.STATUS :=
  ⟨⟨rfl, by decide⟩,
    (cursor_safety timeout_run 1 OpenthermHub.ctor timeout_run_result rfl (by decide)).1,
    by decide⟩

/-! ## The repeating list in phase 2 -/

theorem rotate_cursor_phase_two (h : OpenthermHub) (hphase : h.sending_initial_ = false) :
    (rotate_cursor h).messages_ = h.messages_ ∧ (rotate_cursor h).sending_initial_ = false := by
  obtain ⟨-, f2, f3⟩ := rotate_cursor_fields h
  rw [f2, f3, hphase]
  constructor
  · rw [if_neg (fun hc => absurd hc.2 (by decide))]
  · split_ifs <;> rfl

/-- In phase 2 a call of `loop` leaves the rotation list alone. -/
theorem loop_keeps_list (env : LoopEnv) (hub R : OpenthermHub)
    (hphase : hub.sending_initial_ = false) (h : loop env hub = some R) :
    R.sending_initial_ = false ∧ R.messages_ = hub.messages_ := by
  obtain ⟨p1, p2⟩ := rotate_cursor_phase_two hub hphase
  rcases (loop_cursor env hub R h).2 with ⟨c1, c2, -⟩ | ⟨-, -, c3, c4, -⟩ | ⟨-, c2, c3, -⟩
  · exact ⟨c2.trans hphase, c1⟩
  · exact ⟨c4.trans hphase, c3⟩
  · exact ⟨c3.trans p2, c2.trans p1⟩

theorem events_keep_list (events : List Event) :
    ∀ hub R : OpenthermHub, hub.sending_initial_ = false → run_events events hub = some R →
      R.sending_initial_ = false ∧ R.messages_ = hub.messages_ := by
  induction events with
  | nil =>
    intro hub R hphase h
    simp only [run_events, Option.some.injEq] at h
    subst h
    exact ⟨hphase, rfl⟩
  | cons ev rest ih =>
    intro hub R hphase h
    cases ev with
    | register r =>
      rw [run_events] at h
      have hr : (r.call hub).sending_initial_ = false ∧ (r.call hub).messages_ = hub.messages_ := by
        cases r <;> exact ⟨hphase, rfl⟩
      obtain ⟨a, b⟩ := ih (r.call hub) R hr.1 h
      exact ⟨a, b.trans hr.2⟩
    | step st =>
      rw [run_events] at h
      cases hst : run_steps [st] hub with
      | none => rw [hst] at h; exact absurd h (by simp)
      | some hub1 =>
        rw [hst] at h
        have h1 : hub1.sending_initial_ = false ∧ hub1.messages_ = hub.messages_ := by
          cases st with
          | tick v hw =>
            simp only [run_steps, Option.some.injEq] at hst
            subst hst
            exact ⟨hphase, rfl⟩
          | loop env =>
            simp only [run_steps] at hst
            split at hst
            · simp only [Option.some.injEq] at hst
              subst hst
              exact ⟨hphase, rfl⟩
            · cases hl : loop env hub with
              | none => rw [hl] at hst; exact absurd hst (by simp)
              | some hub2 =>
                rw [hl] at hst
                simp only [Option.some.injEq] at hst
                subst hst
                exact loop_keeps_list env hub hub2 hphase hl
        obtain ⟨a, b⟩ := ih hub1 R h1.1 h
        exact ⟨a, b.trans h1.2⟩

set_option maxRecDepth 100000 in
/-- C24 (as stated, refuted): with the repeating rotation begun and the cursor
at its end, message 5 is registered as repeating and is in the list that
`write_repeating_messages_` would produce, yet the next seven successful
conversations, each of which wraps the cursor around, all request the status
message: the rotation list is not rebuilt. -/
theorem late_registration_not_requested :
    phase_two_hub.sending_initial_ = false ∧ phase_two_hub.messages_ = [0] ∧
      phase_two_hub.message_iterator_ = phase_two_hub.messages_.length ∧
      write_repeating_messages_ (add_repeating_message 5 phase_two_hub) = [0, 5] ∧
      run_conversations seven_conversations (add_repeating_message 5 phase_two_hub) =
        some [0, 0, 0, 0, 0, 0, 0] := by
  decide

/-- C24 (amended): the repeating list is derived once. When the cursor reaches
the end of the startup list (the startup flag is set), `start_conversation_`
replaces the rotation list by the repeating messages of the current order
table, clears the flag and restarts the cursor; once the flag is clear a
wrap-around leaves the list alone. So from any state of phase 2, whatever
timer ticks, calls of `loop` and registration calls follow, the rotation list
is the same and only ids in it are requested: an id registered after phase 2
has begun is not requested. -/
theorem repeating_list_derived_once (events : List Event) (hub R : OpenthermHub)
    (hphase : hub.sending_initial_ = false) (hrun : run_events events hub = some R) :
    R.sending_initial_ = false ∧ R.messages_ = hub.messages_ ∧
      (∀ id, requested_id R = some id → id ∈ hub.messages_) ∧
      (∀ h : OpenthermHub, h.sending_initial_ = true →
        h.message_iterator_ = h.messages_.length →
        (rotate_cursor h).messages_ = write_repeating_messages_ h ∧
          (rotate_cursor h).sending_initial_ = false ∧
          (rotate_cursor h).message_iterator_ = 0) ∧
      (∀ h : OpenthermHub, h.sending_initial_ = false →
        (rotate_cursor h).messages_ = h.messages_) := by
  obtain ⟨a, b⟩ := events_keep_list events hub R hphase hrun
  refine ⟨a, b, ?_, ?_, fun h hp => (rotate_cursor_phase_two h hp).1⟩
  · intro id hid
    unfold requested_id at hid
    rw [(rotate_cursor_phase_two R a).1, b] at hid
    obtain ⟨hlt, hget⟩ := List.getElem?_eq_some.1 hid
    rw [← hget]
    exact List.getElem_mem _
  · intro h hf hend
    obtain ⟨f1, f2, f3⟩ := rotate_cursor_fields h
    rw [f1, f2, f3, if_pos hend, if_pos ⟨hend, hf⟩, if_pos hend]
    exact ⟨rfl, rfl, rfl⟩

set_option maxRecDepth 100000 in
/-- C24 (amended), witness: message 5 is registered in phase 2 and `loop` is
called; the rotation list is still the status message alone. -/
theorem repeating_list_derived_once_witness :
    (phase_two_hub.sending_initial_ = false ∧
      run_events late_registration phase_two_hub = some late_registration_result) ∧
      late_registration_result.messages_ = [0] ∧
      (late_registration_result.sending_initial_ = false ∧
        late_registration_result.messages_ = phase_two_hub.messages_) :=
  ⟨⟨by decide, by decide⟩, by decide,
    ⟨(repeating_list_derived_once late_registration phase_two_hub late_registration_result
        (by decide) (by decide)).1,
      (repeating_list_derived_once late_registration phase_two_hub late_registration_result
        (by decide) (by decide)).2.1⟩⟩

/-! ## Idleness in synchronous mode -/

/-- A wait returns when one of its passes reads the time at or past the
ceiling. -/
theorem spin_wait_some (timeout : Nat) (hw : TimerHw) (start_time : Nat) (steps : List SpinStep) :
    ∀ ot : OpenTherm, (∃ step ∈ steps, u32_sub (millis step.now) start_time ≥ timeout) →
      ∃ r, spin_wait_ timeout hw start_time steps ot = some r := by
  induction steps with
  | nil =>
    intro ot h
    obtain ⟨step, hmem, -⟩ := h
    exact absurd hmem (List.not_mem_nil step)
  | cons st rest ih =>
    intro ot h
    unfold spin_wait_
    simp only
    split
    · split
      · exact ⟨_, rfl⟩
      · rename_i hlt
        obtain ⟨step, hmem, hge⟩ := h
        rcases List.mem_cons.1 hmem with rfl | hmem
        · exact absurd hge hlt
        · exact ih _ ⟨step, hmem, hge⟩
    · exact ⟨_, rfl⟩

theorem sync_receive_some (env : LoopEnv) (X : OpenthermHub)
    (hrecv : ∃ step ∈ env.recv_wait, u32_sub (millis step.now) (millis env.recv_start) ≥ 1150) :
    ∃ R, sync_receive env X = some R := by
  unfold sync_receive
  simp only
  split
  · exact ⟨_, rfl⟩
  · obtain ⟨⟨b, ot⟩, hsp⟩ := spin_wait_some 1150 env.hw (millis env.recv_start) env.recv_wait
      (run_isr env.hw env.ticks_after_listen (listen_opentherm env X).opentherm_) hrecv
    rw [hsp]
    cases b
    · exact ⟨_, rfl⟩
    · simp only
      split
      · exact ⟨_, rfl⟩
      · split <;> exact ⟨_, rfl⟩

theorem sync_send_some (env : LoopEnv) (S : OpenthermHub)
    (hsend : ∃ step ∈ env.send_wait, u32_sub (millis step.now) (millis env.send_start) ≥ 1150)
    (hrecv : ∃ step ∈ env.recv_wait, u32_sub (millis step.now) (millis env.recv_start) ≥ 1150) :
    ∃ R, sync_send env S = some R := by
  unfold sync_send
  simp only
  split
  · exact ⟨_, rfl⟩
  · obtain ⟨⟨b, ot⟩, hsp⟩ := spin_wait_some 1150 env.hw (millis env.send_start) env.send_wait
      (run_isr env.hw env.ticks_after_send S.opentherm_) hsend
    rw [hsp]
    cases b
    · exact ⟨_, rfl⟩
    · simp only
      split
      · exact ⟨_, rfl⟩
      · split
        · exact ⟨_, rfl⟩
        · exact sync_receive_some env _ hrecv

/-- `sync_loop_` entered with the transceiver idle leaves it idle. -/
theorem sync_loop_idle (env : LoopEnv) (hub R : OpenthermHub)
    (hidle : hub.opentherm_.mode_ = .IDLE) (h : sync_loop_ env hub = some R) :
    R.opentherm_.mode_ = .IDLE := by
  rw [sync_loop__eq] at h
  split at h
  · simp only [Option.some.injEq] at h
    subst h
    exact hidle
  · split at h
    · simp only [Option.some.injEq] at h
      subst h
      exact hidle
    · cases hst : start_conversation_ env hub with
      | none => rw [hst] at h; exact absurd h (by simp)
      | some started =>
        rw [hst] at h
        exact (sync_send_calls env started R h).1

theorem run_steps_sync_idle (steps : List Step) :
    ∀ hub R : OpenthermHub, hub.sync_mode_ = true → hub.opentherm_.mode_ = .IDLE →
      run_steps steps hub = some R → R.opentherm_.mode_ = .IDLE := by
  induction steps with
  | nil =>
    intro hub R _ hidle h
    simp only [run_steps, Option.some.injEq] at h
    subst h
    exact hidle
  | cons st rest ih =>
    intro hub R hs hidle h
    cases st with
    | tick v hw =>
      rw [run_steps] at h
      refine ih { hub with opentherm_ := timer_isr hw v hub.opentherm_ } R hs ?_ h
      show (timer_isr hw v hub.opentherm_).mode_ = .IDLE
      rw [timer_isr_terminal hw v _ (by rw [hidle]; decide) (by rw [hidle]; decide)
        (by rw [hidle]; decide)]
      exact hidle
    | loop env =>
      rw [run_steps] at h
      split at h
      · exact ih hub R hs hidle h
      · cases hl : loop env hub with
        | none => rw [hl] at h; exact absurd h (by simp)
        | some hub1 =>
          rw [hl] at h
          have hl2 : sync_loop_ env hub = some hub1 := by
            unfold loop at hl
            rw [if_pos hs] at hl
            exact hl
          exact ih hub1 R ((loop_calls env hub hub1 hl).1.trans hs)
            (sync_loop_idle env hub hub1 hidle hl2) h

/-- C28: `sync_loop_` preserves idleness. Entered with the transceiver `IDLE`,
`sync_loop_` returns with the transceiver `IDLE` on every path and whatever
the timer ticks in between do; it does return when the cursor is on an element
and each of the two waits has a pass that reads the time 1150 ms or more after
its start. Hence in synchronous mode the transceiver is `IDLE` in every state
reached from `setup` by calls of `loop` (and timer ticks between them), so the
branch for a transceiver that is not idle at the start of the loop is not
taken. -/
theorem sync_loop_preserves_idle (env : LoopEnv) (hub : OpenthermHub)
    (hidle : hub.opentherm_.mode_ = .IDLE) :
    (∀ R, sync_loop_ env hub = some R → R.opentherm_.mode_ = .IDLE) ∧
      (requested_id hub ≠ none →
        (∃ step ∈ env.send_wait, u32_sub (millis step.now) (millis env.send_start) ≥ 1150) →
        (∃ step ∈ env.recv_wait, u32_sub (millis step.now) (millis env.recv_start) ≥ 1150) →
        ∃ R, sync_loop_ env hub = some R) ∧
      (∀ (steps : List Step) (init_ok : Bool) (device_timeout : Int) (hub0 R : OpenthermHub),
        hub0.sync_mode_ = true →
        run_steps steps (setup init_ok device_timeout hub0) = some R →
        R.opentherm_.mode_ = .IDLE ∧ is_idle R.opentherm_ = true) := by
  refine ⟨fun R h => sync_loop_idle env hub R hidle h, ?_, ?_⟩
  · intro hreq hsend hrecv
    rw [sync_loop__eq]
    split
    · exact ⟨_, rfl⟩
    · split
      · exact ⟨_, rfl⟩
      · obtain ⟨id, hid⟩ := Option.ne_none_iff_exists'.1 hreq
        rw [start_conversation_eq env hub id hid]
        exact sync_send_some env _ hsend hrecv
  · intro steps init_ok dt hub0 R hs hrun
    have hs' : (setup init_ok dt hub0).sync_mode_ = true := by
      unfold setup
      split_ifs <;> exact hs
    have hi : (setup init_ok dt hub0).opentherm_.mode_ = .IDLE := by
      unfold setup
      split_ifs <;> rfl
    have := run_steps_sync_idle steps _ R hs' hi hrun
    exact ⟨this, by simp [is_idle, this]⟩

set_option maxRecDepth 100000 in
/-- C28, witness: the synchronous tick at time 0 whose wait for the request
to be sent runs into the ceiling. -/
theorem sync_loop_preserves_idle_witness :
    sync_hub.opentherm_.mode_ = .IDLE ∧
      sync_loop_ (ceiling_env 0) sync_hub = some sync_stopped ∧
      sync_stopped.opentherm_.mode_ = .IDLE :=
  ⟨rfl, by decide,
    (sync_loop_preserves_idle (ceiling_env 0) sync_hub rfl).1 sync_stopped (by decide)⟩

/-! ## The values a request carries -/

theorem read_bit_ne_zero (x bit : Nat) : (read_bit x bit != 0) = x.testBit bit := by
  unfold read_bit Nat.testBit
  rw [Nat.and_comm]

theorem write_bit_lt (x bit : Nat) (v : Bool) : write_bit x bit v < 256 := by
  unfold write_bit
  split_ifs <;> exact Nat.mod_lt _ (by norm_num)

/-- `write_bit` sets or clears the bit and keeps the other bits of the byte. -/
theorem write_bit_testBit (x bit j : Nat) (v : Bool) (hj : j < 8) :
    (write_bit x bit v).testBit j = if j = bit then v else x.testBit j := by
  have h256 : (256 : Nat) = 2 ^ 8 := by norm_num
  unfold write_bit
  cases v
  · simp only [Bool.false_eq_true, if_false]
    rw [h256, Nat.testBit_mod_two_pow, Nat.testBit_xor, Nat.testBit_and, Nat.one_shiftLeft,
      Nat.testBit_two_pow]
    by_cases hjb : j = bit
    · subst hjb
      simp [hj]
    · have hbj : ¬ bit = j := fun h => hjb h.symm
      simp [hj, hjb, hbj]
  · simp only [if_true]
    rw [h256, Nat.testBit_mod_two_pow, Nat.testBit_or, Nat.one_shiftLeft, Nat.testBit_two_pow]
    by_cases hjb : j = bit
    · subst hjb
      simp [hj]
    · have hbj : ¬ bit = j := fun h => hjb h.symm
      simp [hj, hjb, hbj]

/-- An entity write leaves both value bytes within a byte. -/
theorem apply_bytes (w : EntityWrite) (d : OpenthermData) (hHB : d.valueHB < 256)
    (hLB : d.valueLB < 256) : (w.apply d).valueHB < 256 ∧ (w.apply d).valueLB < 256 := by
  cases w with
  | flag8_lb bit v => exact ⟨hHB, write_bit_lt _ _ _⟩
  | flag8_hb bit v => exact ⟨write_bit_lt _ _ _, hLB⟩
  | u8_lb x => exact ⟨hHB, Nat.mod_lt _ (by norm_num)⟩
  | u8_hb x => exact ⟨Nat.mod_lt _ (by norm_num), hLB⟩
  | s8_lb x =>
    refine ⟨hHB, ?_⟩
    show (x % 256).toNat < 256
    omega
  | s8_hb x =>
    refine ⟨?_, hLB⟩
    show (x % 256).toNat < 256
    omega
  | u16 x =>
    obtain ⟨f1, f2, -, -⟩ := u16_set_fields (x % 2 ^ 16) d (Nat.mod_lt _ (by norm_num))
    show (d.u16_set (x % 2 ^ 16)).valueHB < 256 ∧ (d.u16_set (x % 2 ^ 16)).valueLB < 256
    rw [f1, f2]
    have : x % 2 ^ 16 < 65536 := Nat.mod_lt _ (by norm_num)
    omega
  | s16 x =>
    show ((to_int16 x / 256) % 256).toNat < 256 ∧ (to_int16 x % 256).toNat < 256
    omega
  | f88 v =>
    show ((to_int16 (trunc (v * 256)) / 256) % 256).toNat < 256 ∧
      (to_int16 (trunc (v * 256)) % 256).toNat < 256
    omega

theorem to_int16_range (x : Int) : -32768 ≤ to_int16 x ∧ to_int16 x ≤ 32767 := by
  unfold to_int16
  omega

/-- The parse function for a data type returns what the write function for it
has written. -/
theorem read_back_apply (w : EntityWrite) (d : OpenthermData) : w.read_back (w.apply d) := by
  cases w with
  | flag8_lb bit v =>
    show (read_bit (write_bit d.valueLB bit.val v) bit.val != 0) = v
    rw [read_bit_ne_zero, write_bit_testBit _ _ _ _ bit.isLt, if_pos rfl]
  | flag8_hb bit v =>
    show (read_bit (write_bit d.valueHB bit.val v) bit.val != 0) = v
    rw [read_bit_ne_zero, write_bit_testBit _ _ _ _ bit.isLt, if_pos rfl]
  | u8_lb x => rfl
  | u8_hb x => rfl
  | s8_lb x =>
    show to_int8 ((x % 256).toNat : Int) = to_int8 x
    unfold to_int8
    omega
  | s8_hb x =>
    show to_int8 ((x % 256).toNat : Int) = to_int8 x
    unfold to_int8
    omega
  | u16 x =>
    exact ((payload16_helper d).1 (x % 2 ^ 16) (Nat.mod_lt _ (by norm_num)))
  | s16 x =>
    obtain ⟨r1, r2⟩ := to_int16_range x
    exact s16_set_s16 (to_int16 x) d r1 r2
  | f88 v =>
    obtain ⟨r1, r2⟩ := to_int16_range (trunc (v * 256))
    have hs : (d.f88_set v).s16 = to_int16 (trunc (v * 256)) :=
      s16_set_s16 (to_int16 (trunc (v * 256))) d r1 r2
    refine ⟨hs, ?_⟩
    show (d.f88_set v).f88 = _
    unfold OpenthermData.f88
    rw [hs]

/-- A write for another place of the payload does not disturb what the parse
function reads. -/
theorem read_back_separate (w w2 : EntityWrite) (d : OpenthermData)
    (hsep : w.separate w2 = true) (h : w2.read_back d) : w2.read_back (w.apply d) := by
  cases w <;> cases w2 <;>
    first
    | (simp [EntityWrite.separate, EntityWrite.half] at hsep; done)
    | exact h
    | skip
  · rename_i b v b2 v2
    have hne : b2.val ≠ b.val := by
      intro he
      have : b = b2 := Fin.ext he.symm
      simp [EntityWrite.separate, this] at hsep
    show (read_bit (write_bit d.valueLB b.val v) b2.val != 0) = v2
    rw [read_bit_ne_zero, write_bit_testBit _ _ _ _ b2.isLt, if_neg hne, ← read_bit_ne_zero]
    exact h
  · rename_i b v b2 v2
    have hne : b2.val ≠ b.val := by
      intro he
      have : b = b2 := Fin.ext he.symm
      simp [EntityWrite.separate, this] at hsep
    show (read_bit (write_bit d.valueHB b.val v) b2.val != 0) = v2
    rw [read_bit_ne_zero, write_bit_testBit _ _ _ _ b2.isLt, if_neg hne, ← read_bit_ne_zero]
    exact h

theorem read_back_fold (w : EntityWrite) (post : List EntityWrite) :
    ∀ d : OpenthermData, w.read_back d → (∀ w2 ∈ post, w2.separate w = true) →
      w.read_back (post.foldl (fun data w => w.apply data) d) := by
  induction post with
  | nil => intro d h _; exact h
  | cons w2 rest ih =>
    intro d h hsep
    rw [List.foldl_cons]
    exact ih _ (read_back_separate w2 w d (hsep w2 (List.mem_cons_self _ _)) h)
      (fun w3 h3 => hsep w3 (List.mem_cons_of_mem _ h3))

theorem frame_ext (x y : OpenthermData) (h1 : x.type = y.type) (h2 : x.id = y.id)
    (h3 : x.valueHB = y.valueHB) (h4 : x.valueLB = y.valueLB) : x = y := by
  cases x
  cases y
  simp_all

/-- C18: request priority. For an id other than `STATUS` with a registered
write handler, `build_request_` returns the `WRITE_DATA` frame for that id
that the handler's writes of the current entity values produce from a zero
payload, whether or not the id has a read handler. The frame carries the
values: for every write of the handler that is not followed by a write to the
same place of the payload, the `parse_*` function of its data type returns the
value written; a handler with one number writes it as 8.8 fixed point to
within 1/256, a 16-bit value as high byte and low byte, a byte into its half
with the other half 0. An id with no write handler but a read handler (sensor
or binary sensor) yields the `READ_DATA` frame for that id with `valueHB` =
`valueLB` = 0, and only such an id does. -/
theorem build_request_priority (rc : ReadConditions) (mh : MessageHandlers) (hub : OpenthermHub)
    (id : MessageId) (hid : id ≠ MessageId.STATUS) :
    (∀ writes, mh.write_entities id = some writes →
        build_request_ rc mh hub id =
            writes.foldl (fun data w => w.apply data)
              { type := MessageType.WRITE_DATA, id := id, valueHB := 0, valueLB := 0 } ∧
          (build_request_ rc mh hub id).type = MessageType.WRITE_DATA ∧
          (build_request_ rc mh hub id).id = id) ∧
      (∀ pre w post, mh.write_entities id = some (pre ++ w :: post) →
        (∀ w2 ∈ post, w2.separate w = true) → w.read_back (build_request_ rc mh hub id)) ∧
      (∀ v : Rat, mh.write_entities id = some [EntityWrite.f88 v] →
        -32768 ≤ v * 256 → v * 256 ≤ 32767 →
        build_request_ rc mh hub id =
            { type := MessageType.WRITE_DATA, id := id,
              valueHB := ((trunc (v * 256) / 256) % 256).toNat,
              valueLB := (trunc (v * 256) % 256).toNat } ∧
          |parse_f88 (build_request_ rc mh hub id) - v| < 1 / 256) ∧
      (∀ x : Nat, mh.write_entities id = some [EntityWrite.u16 x] → x < 65536 →
        build_request_ rc mh hub id =
          { type := MessageType.WRITE_DATA, id := id, valueHB := x / 256, valueLB := x % 256 }) ∧
      (∀ x : Int, mh.write_entities id = some [EntityWrite.s16 x] → -32768 ≤ x → x ≤ 32767 →
        build_request_ rc mh hub id =
          { type := MessageType.WRITE_DATA, id := id, valueHB := ((x / 256) % 256).toNat,
            valueLB := (x % 256).toNat }) ∧
      (∀ x : Nat, mh.write_entities id = some [EntityWrite.u8_hb x] → x < 256 →
        build_request_ rc mh hub id =
          { type := MessageType.WRITE_DATA, id := id, valueHB := x, valueLB := 0 }) ∧
      (∀ x : Nat, mh.write_entities id = some [EntityWrite.u8_lb x] → x < 256 →
        build_request_ rc mh hub id =
          { type := MessageType.WRITE_DATA, id := id, valueHB := 0, valueLB := x }) ∧
      (build_request_ rc mh hub id =
          { type := MessageType.READ_DATA, id := id, valueHB := 0, valueLB := 0 } ↔
        mh.write_entities id = none ∧
          (mh.has_sensor id = true ∨ mh.has_binary_sensor id = true)) := by
  have hfold : ∀ writes, mh.write_entities id = some writes →
      build_request_ rc mh hub id =
        writes.foldl (fun data w => w.apply data)
          { type := MessageType.WRITE_DATA, id := id, valueHB := 0, valueLB := 0 } := by
    intro writes hw
    simp only [build_request_, if_neg hid, hw]
  refine ⟨?_, ?_, ?_, ?_, ?_, ?_, ?_, ?_⟩
  · intro writes hw
    have e := hfold writes hw
    obtain ⟨h1, h2⟩ := entity_writes_type_id writes
      { type := MessageType.WRITE_DATA, id := id, valueHB := 0, valueLB := 0 }
    exact ⟨e, by rw [e]; exact h1, by rw [e]; exact h2⟩
  · intro pre w post hw hsep
    rw [hfold _ hw, List.foldl_append, List.foldl_cons]
    exact read_back_fold w post _ (read_back_apply w _) hsep
  · intro v hw hlo hhi
    rw [hfold _ hw]
    obtain ⟨-, a2, a3, a4, a5, -, a7, a8⟩ := f88_round_trip v
      { type := MessageType.WRITE_DATA, id := id, valueHB := 0, valueLB := 0 } hlo hhi
    refine ⟨frame_ext _ _ a7 a8 a2 a3, ?_⟩
    exact a5
  · intro x hw hx
    rw [hfold _ hw]
    obtain ⟨f1, f2, f3, f4⟩ := u16_set_fields x
      { type := MessageType.WRITE_DATA, id := id, valueHB := 0, valueLB := 0 } hx
    have hmod : x % 2 ^ 16 = x := Nat.mod_eq_of_lt (by norm_num; exact hx)
    simp only [List.foldl_cons, List.foldl_nil, EntityWrite.apply, hmod]
    exact frame_ext _ _ f3 f4 f1 f2
  · intro x hw hlo hhi
    rw [hfold _ hw]
    simp only [List.foldl_cons, List.foldl_nil, EntityWrite.apply,
      to_int16_of_range x hlo hhi]
    rfl
  · intro x hw hx
    rw [hfold _ hw]
    simp only [List.foldl_cons, List.foldl_nil, EntityWrite.apply, Nat.mod_eq_of_lt hx]
  · intro x hw hx
    rw [hfold _ hw]
    simp only [List.foldl_cons, List.foldl_nil, EntityWrite.apply, Nat.mod_eq_of_lt hx]
  · cases hw : mh.write_entities id with
    | some writes =>
      have e := hfold writes hw
      obtain ⟨h1, -⟩ := entity_writes_type_id writes
        { type := MessageType.WRITE_DATA, id := id, valueHB := 0, valueLB := 0 }
      constructor
      · intro h
        rw [e] at h
        rw [h] at h1
        have h01 : MessageType.READ_DATA ≠ MessageType.WRITE_DATA := by decide
        exact absurd h1 h01
      · rintro ⟨h, -⟩
        exact absurd h (by simp)
    | none =>
      simp only [build_request_, if_neg hid, hw, true_and]
      by_cases hs : mh.has_sensor id = true
      · simp [hs, MessageType.READ_DATA]
      · by_cases hb : mh.has_binary_sensor id = true
        · simp [hs, hb, MessageType.READ_DATA]
        · simp only [hs, hb, if_false, or_self, iff_false, Bool.false_eq_true]
          intro h
          have := congrArg OpenthermData.id h
          exact hid this.symm

/-- C18, witness: message 1 has a write handler (a setpoint of 21.5) and a
sensor and is requested with `WRITE_DATA` and the value 0x1580; message 25
has only a sensor; message 100 carries two flags and a byte. -/
theorem build_request_priority_witness :
    ((1 : MessageId) ≠ MessageId.STATUS ∧ (25 : MessageId) ≠ MessageId.STATUS ∧
      (100 : MessageId) ≠ MessageId.STATUS ∧
      (-32768 : Rat) ≤ 43 / 2 * 256 ∧ (43 / 2 : Rat) * 256 ≤ 32767) ∧
    (build_request_ (read_all 0) setpoint_handlers OpenthermHub.ctor 1 =
        { type := MessageType.WRITE_DATA, id := 1, valueHB := 0x15, valueLB := 0x80 } ∧
      build_request_ (read_all 0) setpoint_handlers OpenthermHub.ctor 25 =
        { type := MessageType.READ_DATA, id := 25, valueHB := 0, valueLB := 0 } ∧
      parse_flag8_hb 3 (build_request_ (read_all 0) flag_handlers OpenthermHub.ctor 100) = true ∧
      build_request_ (read_all 0) flag_handlers OpenthermHub.ctor 100 =
        { type := MessageType.WRITE_DATA, id := 100, valueHB := 9, valueLB := 7 }) := by
  have ht : trunc (43 / 2 * 256) = 5504 := by
    have : (43 / 2 * 256 : Rat) = ((5504 : Int) : Rat) := by norm_num
    rw [this, trunc_intCast]
  have a := ((build_request_priority (read_all 0) setpoint_handlers OpenthermHub.ctor 1
    (by decide)).2.2.1 (43 / 2) rfl (by norm_num) (by norm_num)).1
  rw [ht] at a
  have b := (build_request_priority (read_all 0) setpoint_handlers OpenthermHub.ctor 25
    (by decide)).2.2.2.2.2.2.2.mpr ⟨rfl, Or.inl rfl⟩
  have c := (build_request_priority (read_all 0) flag_handlers OpenthermHub.ctor 100
    (by decide)).2.1 [EntityWrite.flag8_hb 0 true] (EntityWrite.flag8_hb 3 true)
    [EntityWrite.u8_lb 7] rfl (by decide)
  exact ⟨⟨by decide, by decide, by decide, by norm_num, by norm_num⟩, a, b, c, by decide⟩

end opentherm
end esphome
